import Mathlib

/-!
Verification of the route-planning engine of the routingVisual repository
(`src/routingUtils.ts`): nearest-node snapping, adjacency construction,
heuristic A* search and path reconstruction.

The embedding mirrors the TypeScript source closely:

* JavaScript `number` values are modelled as real numbers; values that may be
  `Infinity` live in `WithTop ℝ`.
* `graph.nodes` is a JavaScript object whose keys are (integer-valued) node
  ids; it is modelled as an association list in iteration order.
* The JavaScript falsiness quirks of the source are preserved:
  `fScore.get(n) || Infinity` turns a stored `0` into `Infinity`
  (`jsOrInf`), `gScore.get(n) || 0` is the identity on numbers (`jsOrZero`),
  and `previous.get(n) || null` turns a predecessor id `0` into `null`
  (`jsOrNull`).
* The `while` loops are expressed with explicit fuel; `calculateRoute`
  instantiates the fuel with a bound that provably dominates the number of
  iterations the JavaScript loop can perform.
-/

noncomputable section

/-- JavaScript numbers that may be `Infinity`. -/
abbrev JsNum := WithTop ℝ

structure Coordinate where
  lat : ℝ
  lon : ℝ

structure GraphNode where
  id : ℤ
  lat : ℝ
  lon : ℝ

structure GraphEdge where
  from_ : ℤ
  to_ : ℤ
  length : ℝ
  travel_time : ℝ
  maxspeed : Option ℝ := none

structure GraphData where
  nodes : List (ℤ × GraphNode)
  edges : List GraphEdge
  node_count : ℤ := 0
  edge_count : ℤ := 0

/-- Indexing a JavaScript object by a node id: first entry with that key. -/
def jsGet (nodes : List (ℤ × GraphNode)) (nodeId : ℤ) : Option GraphNode :=
  match nodes with
  | [] => none
  | (k, node) :: rest => if k = nodeId then some node else jsGet rest nodeId

/-- `degrees * (Math.PI / 180)`. -/
def toRadians (degrees : ℝ) : ℝ := degrees * (Real.pi / 180)

/-- `Math.atan2` on the reals (standard two-argument arctangent). -/
def atan2 (y x : ℝ) : ℝ :=
  if 0 < x then Real.arctan (y / x)
  else if x < 0 then
    (if 0 ≤ y then Real.arctan (y / x) + Real.pi else Real.arctan (y / x) - Real.pi)
  else
    (if 0 < y then Real.pi / 2 else if y < 0 then -(Real.pi / 2) else 0)

/-- Haversine distance in kilometres on a sphere of radius 6371 km. -/
def haversineDistance (lat1 lon1 lat2 lon2 : ℝ) : ℝ :=
  let R : ℝ := 6371
  let dLat := toRadians (lat2 - lat1)
  let dLon := toRadians (lon2 - lon1)
  let a := Real.sin (dLat / 2) * Real.sin (dLat / 2) +
    Real.cos (toRadians lat1) * Real.cos (toRadians lat2) *
    Real.sin (dLon / 2) * Real.sin (dLon / 2)
  let c := 2 * atan2 (Real.sqrt a) (Real.sqrt (1 - a))
  R * c

/-- The scan of `findNearestNode`, carrying `minDistance` and `nearestNodeId`. -/
def findNearestScan (point : Coordinate) :
    List (ℤ × GraphNode) → JsNum → ℤ → ℤ
  | [], _, nearestNodeId => nearestNodeId
  | (_, node) :: rest, minDistance, nearestNodeId =>
      let distance := haversineDistance point.lat point.lon node.lat node.lon
      if (distance : JsNum) < minDistance then
        findNearestScan point rest (distance : JsNum) node.id
      else
        findNearestScan point rest minDistance nearestNodeId

/-- `findNearestNode`: exhaustive scan, `-1` sentinel when no candidate wins. -/
def findNearestNode (graph : GraphData) (point : Coordinate) : ℤ :=
  findNearestScan point graph.nodes ⊤ (-1)

/-- One `{node, weight}` entry of the adjacency list. -/
structure AdjEntry where
  node : ℤ
  weight : ℝ

/-- `buildAdjacencyList`: per-edge weight is `travel_time` if positive, else
`length`; entries are appended in edge-list order. -/
def buildAdjacencyList (graph : GraphData) : ℤ → List AdjEntry :=
  graph.edges.foldl
    (fun adjacencyList edge =>
      let weight := if edge.travel_time > 0 then edge.travel_time else edge.length
      fun k =>
        if k = edge.from_ then adjacencyList k ++ [⟨edge.to_, weight⟩]
        else adjacencyList k)
    (fun _ => [])

/-- `heuristicDistance`: haversine distance converted to seconds at 50 km/h,
`Infinity` when either node id is missing from the node mapping. -/
def heuristicDistance (graph : GraphData) (nodeId endNodeId : ℤ) : JsNum :=
  match jsGet graph.nodes nodeId, jsGet graph.nodes endNodeId with
  | some node, some endNode =>
      let distanceKm := haversineDistance node.lat node.lon endNode.lat endNode.lon
      let averageSpeedKmh : ℝ := 50
      (((distanceKm / averageSpeedKmh) * 3600 : ℝ) : JsNum)
  | _, _ => ⊤

/-- `map.get(k) || Infinity`: a stored `0` is falsy and reads as `Infinity`. -/
def jsOrInf (v : Option JsNum) : JsNum :=
  match v with
  | none => ⊤
  | some x => if x = 0 then ⊤ else x

/-- `map.get(k) || 0`: a stored `0` is falsy and reads as `0` (no-op). -/
def jsOrZero (v : Option JsNum) : JsNum :=
  match v with
  | none => 0
  | some x => if x = 0 then 0 else x

/-- `previous.get(k) || null`: a stored predecessor id `0` is falsy and reads
as `null`. -/
def jsOrNull (v : Option (Option ℤ)) : Option ℤ :=
  match v with
  | none => none
  | some none => none
  | some (some i) => if i = 0 then none else some i

/-- `map.set k v`. -/
def mapSet {α : Type} (m : ℤ → Option α) (k : ℤ) (v : α) : ℤ → Option α :=
  fun x => if x = k then some v else m x

/-- `set.add n` (JavaScript sets keep insertion order and ignore duplicates). -/
def setAdd (s : List ℤ) (n : ℤ) : List ℤ := if n ∈ s then s else s ++ [n]

/-- `set.delete n`. -/
def setDelete (s : List ℤ) (n : ℤ) : List ℤ := s.filter (fun x => x ≠ n)

/-- The mutable state of the A* search. -/
structure AState where
  gScore : ℤ → Option JsNum
  fScore : ℤ → Option JsNum
  previous : ℤ → Option (Option ℤ)
  openSet : List ℤ
  closedSet : List ℤ

/-- The linear scan for the open node of minimum (read) fScore, starting from
`currentNode = -1`, `minFScore = Infinity`; replacement on strict decrease. -/
def scanMin (fScore : ℤ → Option JsNum) : List ℤ → ℤ × JsNum → ℤ × JsNum
  | [], acc => acc
  | nodeId :: rest, acc =>
      let f := jsOrInf (fScore nodeId)
      if f < acc.2 then scanMin fScore rest (nodeId, f)
      else scanMin fScore rest acc

/-- The neighbor-relaxation loop of one A* iteration. -/
def relaxNeighbors (graph : GraphData) (endNode currentNode : ℤ) :
    List AdjEntry → AState → AState
  | [], st => st
  | neighbor :: rest, st =>
      if neighbor.node ∈ st.closedSet then
        relaxNeighbors graph endNode currentNode rest st
      else
        let tentativeGScore := jsOrZero (st.gScore currentNode) + (neighbor.weight : JsNum)
        if neighbor.node ∈ st.openSet ∧ jsOrInf (st.gScore neighbor.node) ≤ tentativeGScore then
          relaxNeighbors graph endNode currentNode rest st
        else
          relaxNeighbors graph endNode currentNode rest
            { gScore := mapSet st.gScore neighbor.node tentativeGScore
              fScore := mapSet st.fScore neighbor.node
                (tentativeGScore + heuristicDistance graph neighbor.node endNode)
              previous := mapSet st.previous neighbor.node (some currentNode)
              openSet := if neighbor.node ∈ st.openSet then st.openSet
                else st.openSet ++ [neighbor.node]
              closedSet := st.closedSet }

/-- The backward walk of path reconstruction (`while (pathNode !== null)`),
with explicit fuel standing in for the unbounded JavaScript loop. -/
def reconstructPath (previous : ℤ → Option (Option ℤ)) : ℕ → ℤ → List ℤ
  | 0, pathNode => [pathNode]
  | fuel + 1, pathNode =>
      match jsOrNull (previous pathNode) with
      | none => [pathNode]
      | some p => reconstructPath previous fuel p ++ [pathNode]

/-- The outcome of one iteration of the A* `while` loop. -/
inductive StepResult where
  | found (path : List ℤ)
  | noPath
  | next (st : AState)

/-- One iteration of the A* main loop. -/
def aStarStep (graph : GraphData) (adj : ℤ → List AdjEntry) (endNode : ℤ)
    (recFuel : ℕ) (st : AState) : StepResult :=
  if st.openSet = [] then .noPath
  else
    let scanned := scanMin st.fScore st.openSet (-1, ⊤)
    if scanned.1 = -1 ∨ scanned.2 = ⊤ then .noPath
    else if scanned.1 = endNode then
      .found (reconstructPath st.previous recFuel endNode)
    else
      let st' : AState :=
        { st with openSet := setDelete st.openSet scanned.1
                  closedSet := setAdd st.closedSet scanned.1 }
      .next (relaxNeighbors graph endNode scanned.1 (adj scanned.1) st')

/-- The A* main loop with explicit fuel. -/
def aStarLoop (graph : GraphData) (adj : ℤ → List AdjEntry) (endNode : ℤ)
    (recFuel : ℕ) : ℕ → AState → Option (List ℤ)
  | 0, _ => none
  | fuel + 1, st =>
      match aStarStep graph adj endNode recFuel st with
      | .found path => some path
      | .noPath => none
      | .next st' => aStarLoop graph adj endNode recFuel fuel st'

/-- The ids the score maps are initialised over: the `id` fields of the node
mapping's values, in iteration order. -/
def nodeIdList (graph : GraphData) : List ℤ := graph.nodes.map (fun kn => kn.2.id)

/-- The search state after the initialisation block of `calculateRoute`. -/
def initState (graph : GraphData) (startNode endNode : ℤ) : AState :=
  let gScore0 : ℤ → Option JsNum := fun i => if i ∈ nodeIdList graph then some ⊤ else none
  let fScore0 : ℤ → Option JsNum := fun i => if i ∈ nodeIdList graph then some ⊤ else none
  let previous0 : ℤ → Option (Option ℤ) := fun i => if i ∈ nodeIdList graph then some none else none
  { gScore := mapSet gScore0 startNode 0
    fScore := mapSet fScore0 startNode (heuristicDistance graph startNode endNode)
    previous := previous0
    openSet := [startNode]
    closedSet := [] }

/-- Converting the reconstructed id path to coordinates, silently skipping ids
missing from the node mapping (`if (node) { ... }`). -/
def pathToCoords (graph : GraphData) (path : List ℤ) : List Coordinate :=
  path.filterMap (fun nodeId =>
    (jsGet graph.nodes nodeId).map (fun node => Coordinate.mk node.lat node.lon))

/-- The distinct failure outcomes of `calculateRoute`. `nodeLookupCrash` is the
TypeError the JavaScript would raise in the same-node branch if the snapped id
were missing from the node mapping. -/
inductive RouteError where
  | nearestNodeNotFound
  | noPathFound
  | nodeLookupCrash
deriving DecidableEq

/-- Fuel dominating the iteration count of the A* loop: every closed node is
the start node or the target of some edge, and each iteration closes a new
node. -/
def searchFuel (graph : GraphData) : ℕ := graph.nodes.length + graph.edges.length + 1

/-- `calculateRoute` with explicit fuel for the two loops. -/
def calculateRouteFuel (fuel recFuel : ℕ) (graph : GraphData)
    (startCoord endCoord : Coordinate) : Except RouteError (List Coordinate) :=
  let startNode := findNearestNode graph startCoord
  let endNode := findNearestNode graph endCoord
  if startNode = -1 ∨ endNode = -1 then .error .nearestNodeNotFound
  else if startNode = endNode then
    match jsGet graph.nodes startNode with
    | some node => .ok [Coordinate.mk node.lat node.lon]
    | none => .error .nodeLookupCrash
  else
    match aStarLoop graph (buildAdjacencyList graph) endNode recFuel fuel
        (initState graph startNode endNode) with
    | some path => .ok (pathToCoords graph path)
    | none => .error .noPathFound

/-- The public routing entry point. -/
def calculateRoute (graph : GraphData) (startCoord endCoord : Coordinate) :
    Except RouteError (List Coordinate) :=
  calculateRouteFuel (searchFuel graph) (searchFuel graph + 1) graph startCoord endCoord

/-- Directed paths through the adjacency structure together with their total
weight: `IsPathCost graph u v p c` states that `p` walks from `u` to `v` along
adjacency entries whose weights sum to `c`. -/
inductive IsPathCost (graph : GraphData) : ℤ → ℤ → List ℤ → ℝ → Prop where
  | single (u : ℤ) : IsPathCost graph u u [u] 0
  | cons {u v w : ℤ} {p : List ℤ} {c : ℝ} (entry : AdjEntry)
      (hmem : entry ∈ buildAdjacencyList graph v) (hnode : entry.node = w)
      (hp : IsPathCost graph u v p c) :
      IsPathCost graph u w (p ++ [w]) (c + entry.weight)

/-- Well-formedness of the node mapping as described by the data model: each
key is the `id` of its node, and keys are unique. -/
def GraphWF (graph : GraphData) : Prop :=
  (∀ kn ∈ graph.nodes, kn.2.id = kn.1) ∧ (graph.nodes.map Prod.fst).Nodup

/-- Admissibility of the fixed heuristic for a goal node: the estimate never
exceeds the weight of any path to the goal. -/
def Admissible (graph : GraphData) (endNode : ℤ) : Prop :=
  ∀ n p c, IsPathCost graph n endNode p c →
    heuristicDistance graph n endNode ≤ ((c : ℝ) : JsNum)

/-- Consistency of the fixed heuristic for a goal node along every adjacency
entry. -/
def Consistent (graph : GraphData) (endNode : ℤ) : Prop :=
  ∀ u entry, entry ∈ buildAdjacencyList graph u →
    heuristicDistance graph u endNode ≤
      ((entry.weight : ℝ) : JsNum) + heuristicDistance graph entry.node endNode

/-- Iterating `.next` steps of the search; `none` once a terminal step is hit
before `k` iterations. -/
def aStarIter (graph : GraphData) (adj : ℤ → List AdjEntry) (endNode : ℤ)
    (recFuel : ℕ) : ℕ → AState → Option AState
  | 0, st => some st
  | k + 1, st =>
      match aStarStep graph adj endNode recFuel st with
      | .next st' => aStarIter graph adj endNode recFuel k st'
      | _ => none

/-- Every id that can ever enter the open or closed set: the start node and
the edge targets. -/
def candidateIds (graph : GraphData) (startNode : ℤ) : List ℤ :=
  startNode :: graph.edges.map (fun e => e.to_)

/-- The prefix of `previous`-links that the reconstruction walk follows,
including the truncation at a falsy (absent, `null`, or `0`) predecessor. -/
inductive PrevChain (previous : ℤ → Option (Option ℤ)) : ℤ → List ℤ → Prop where
  | stop (n : ℤ) : jsOrNull (previous n) = none → PrevChain previous n [n]
  | link (n p : ℤ) (P : List ℤ) : jsOrNull (previous n) = some p →
      PrevChain previous p P → PrevChain previous n (P ++ [n])

/-- The haversine distance from a query point to a node-mapping entry. -/
def queryDistance (point : Coordinate) (kn : ℤ × GraphNode) : ℝ :=
  haversineDistance point.lat point.lon kn.2.lat kn.2.lon

/-- A graph with no nodes at all. -/
def emptyGraphData : GraphData := { nodes := [], edges := [] }

/-- The three-node chain of the weight-selection scenario, on the equator. -/
def chainGraph : GraphData :=
  { nodes := [(1, ⟨1, 0, 0⟩), (2, ⟨2, 0, 1⟩), (3, ⟨3, 0, 2⟩)]
    edges := [⟨1, 2, 1, 5, none⟩, ⟨2, 3, 20, 0, none⟩] }

/-- A single node and no edges. -/
def oneNodeGraph : GraphData := { nodes := [(5, ⟨5, 0, 0⟩)], edges := [] }

/-- Two nodes and no edges: the start node has no outgoing edges. -/
def noEdgeGraph : GraphData :=
  { nodes := [(1, ⟨1, 0, 0⟩), (2, ⟨2, 0, 1⟩)], edges := [] }

/-- A graph routing through a node with id `0` (falsy in JavaScript). -/
def zeroIdGraph : GraphData :=
  { nodes := [(0, ⟨0, 0, 1⟩), (1, ⟨1, 0, 0⟩), (2, ⟨2, 0, 2⟩)]
    edges := [⟨1, 0, 1, 1, none⟩, ⟨0, 2, 1, 1, none⟩] }

/-- A graph holding a single real node whose id is the `-1` sentinel value:
every query snaps to it. -/
def sentinelGraph : GraphData := { nodes := [(-1, ⟨-1, 0, 0⟩)], edges := [] }

/-- A graph with a real node whose id is the `-1` sentinel value; it is listed
last, as JavaScript iterates the non-index key `"-1"` after the index keys. -/
def minusOneGraph : GraphData :=
  { nodes := [(1, ⟨1, 0, 0⟩), (2, ⟨2, 0, 1⟩), (-1, ⟨-1, 0, 2⟩)]
    edges := [⟨1, -1, 1, 1, none⟩, ⟨-1, 2, 1, 1, none⟩] }

/-- A graph whose node-mapping keys disagree with the stored `id` fields:
keys `1`/`2` hold the nodes with ids `10`/`20` (used for snapping), while keys
`10`/`20` hold nodes at one shared position (used by the heuristic lookups). -/
def mismatchGraph : GraphData :=
  { nodes := [(1, ⟨10, 0, 1⟩), (2, ⟨20, 0, 2⟩), (10, ⟨10, 0, 5⟩), (20, ⟨20, 0, 5⟩)]
    edges := [⟨10, 20, 1, 1, none⟩] }

/-- The admissible-but-inconsistent scenario: start `1`, detour node `2`,
goal `3`, and node `4` sharing the goal's position. The cheap route to `4`
goes through `2`, but `4` is closed before `2` is expanded. -/
def cexGraph : GraphData :=
  { nodes := [(1, ⟨1, 0, 5 / (4 * 12742)⟩), (2, ⟨2, 0, 15 / (4 * 12742)⟩),
      (3, ⟨3, 0, 0⟩), (4, ⟨4, 0, 0⟩)]
    edges := [⟨1, 2, 1, 1, none⟩, ⟨1, 4, 3, 3, none⟩, ⟨2, 4, 1, 1, none⟩,
      ⟨4, 3, 2, 2, none⟩] }

/-- A two-node graph whose single edge weight dominates the heuristic, making
the heuristic consistent. -/
def consGraph : GraphData :=
  { nodes := [(1, ⟨1, 0, 0⟩), (2, ⟨2, 0, 1⟩)]
    edges := [⟨1, 2, 10000, 10000, none⟩] }

/-- Structural well-formedness of the search state: the open and closed sets
are duplicate-free and disjoint, contain only candidate ids, and the start
node is the sole open node until the first iteration closes it. -/
structure SetInv (graph : GraphData) (startNode : ℤ) (st : AState) : Prop where
  open_nodup : st.openSet.Nodup
  closed_nodup : st.closedSet.Nodup
  disj : ∀ n ∈ st.openSet, n ∉ st.closedSet
  open_sub : ∀ n ∈ st.openSet, n ∈ candidateIds graph startNode
  closed_sub : ∀ n ∈ st.closedSet, n ∈ candidateIds graph startNode
  start_first : st.closedSet = [] → st.openSet = [startNode]
  start_closed : st.closedSet ≠ [] → startNode ∈ st.closedSet

/-- The per-node score-and-chain invariant: every open or closed node stores a
finite gScore realised by its predecessor chain, the stored fScore is
gScore + heuristic, the chain's strict prefix is closed, and the chain is
short enough for the reconstruction fuel. -/
def ChainInv (graph : GraphData) (startNode endNode : ℤ) (st : AState) : Prop :=
  (st.gScore startNode = some 0 ∧ st.previous startNode = some none) ∧
  ∀ n, (n ∈ st.openSet ∨ n ∈ st.closedSet) →
    ∃ (gv : ℝ) (P : List ℤ),
      st.gScore n = some ((gv : ℝ) : JsNum) ∧
      st.fScore n = some (((gv : ℝ) : JsNum) + heuristicDistance graph n endNode) ∧
      PrevChain st.previous n P ∧
      IsPathCost graph startNode n P gv ∧
      (∀ x ∈ P, x ≠ n → x ∈ st.closedSet) ∧
      (n ∈ st.closedSet → P.length ≤ st.closedSet.length) ∧
      P.length ≤ st.closedSet.length + 1

/-- Strict positivity of every weight the adjacency structure can serve. -/
def PosWeights (graph : GraphData) : Prop :=
  ∀ (q : ℤ) (entry : AdjEntry), entry ∈ buildAdjacencyList graph q → 0 < entry.weight

/-- The optimality invariant of the search under a consistent heuristic and
positive weights: every open non-start node stores a strictly positive gScore,
every closed node stores a gScore no larger than any path cost reaching it,
and every adjacency entry of a closed node has been relaxed. -/
def OptInv (graph : GraphData) (startNode : ℤ) (st : AState) : Prop :=
  (∀ n ∈ st.openSet, n ≠ startNode →
    ∀ gv : ℝ, st.gScore n = some ((gv : ℝ) : JsNum) → 0 < gv) ∧
  (∀ n ∈ st.closedSet, ∀ gv : ℝ, st.gScore n = some ((gv : ℝ) : JsNum) →
    ∀ P k, IsPathCost graph startNode n P k → gv ≤ k) ∧
  (∀ c ∈ st.closedSet, ∀ entry ∈ buildAdjacencyList graph c,
    (entry.node ∈ st.openSet ∨ entry.node ∈ st.closedSet) ∧
    ∀ gc gn : ℝ, st.gScore c = some ((gc : ℝ) : JsNum) →
      st.gScore entry.node = some ((gn : ℝ) : JsNum) → gn ≤ gc + entry.weight)

end

/-! ## Basic facts about the geometric helpers -/

theorem atan2_sin_cos {θ : ℝ} (h0 : 0 ≤ θ) (h1 : θ ≤ Real.pi / 2) :
    atan2 (Real.sin θ) (Real.cos θ) = θ := by
  rcases lt_or_eq_of_le h1 with h | h
  · have hcos : 0 < Real.cos θ :=
      Real.cos_pos_of_mem_Ioo ⟨by linarith [Real.pi_pos], h⟩
    rw [atan2, if_pos hcos, ← Real.tan_eq_sin_div_cos,
      Real.arctan_tan (by linarith [Real.pi_pos]) h]
  · subst h
    rw [atan2, Real.cos_pi_div_two, Real.sin_pi_div_two]
    norm_num

theorem arctan_nonneg_of_nonneg {z : ℝ} (hz : 0 ≤ z) : 0 ≤ Real.arctan z := by
  have := Real.arctan_strictMono.monotone hz
  rwa [Real.arctan_zero] at this

theorem atan2_nonneg {y x : ℝ} (hy : 0 ≤ y) : 0 ≤ atan2 y x := by
  unfold atan2
  split_ifs with h1 h2 h3 h4
  · exact arctan_nonneg_of_nonneg (div_nonneg hy (le_of_lt h1))
  · linarith [Real.neg_pi_div_two_lt_arctan (y / x), Real.pi_pos]
  · linarith [Real.pi_pos]
  · linarith
  · exact le_refl 0

theorem haversineDistance_nonneg (lat1 lon1 lat2 lon2 : ℝ) :
    0 ≤ haversineDistance lat1 lon1 lat2 lon2 := by
  have key : ∀ a : ℝ, 0 ≤ (6371 : ℝ) * (2 * atan2 (Real.sqrt a) (Real.sqrt (1 - a))) := by
    intro a
    have h := atan2_nonneg (x := Real.sqrt (1 - a)) (Real.sqrt_nonneg a)
    linarith
  exact key _

theorem haversineDistance_self (lat lon : ℝ) : haversineDistance lat lon lat lon = 0 := by
  unfold haversineDistance toRadians atan2
  norm_num

theorem haversineDistance_equator {l1 l2 : ℝ} (h1 : l1 ≤ l2) (h2 : l2 - l1 ≤ 180) :
    haversineDistance 0 l1 0 l2 = 6371 * ((l2 - l1) * (Real.pi / 180)) := by
  have hpi := Real.pi_pos
  set θ : ℝ := (l2 - l1) * (Real.pi / 180) / 2 with hθ
  have hθ0 : 0 ≤ θ := by
    apply div_nonneg _ (by norm_num)
    exact mul_nonneg (by linarith) (by positivity)
  have hθhalf : θ ≤ Real.pi / 2 := by
    rw [hθ]
    rw [div_le_div_iff_of_pos_right (by norm_num : (0:ℝ) < 2)]
    calc (l2 - l1) * (Real.pi / 180) ≤ 180 * (Real.pi / 180) := by
          exact mul_le_mul_of_nonneg_right h2 (by positivity)
      _ = Real.pi := by ring
  have hsin : 0 ≤ Real.sin θ :=
    Real.sin_nonneg_of_nonneg_of_le_pi hθ0 (by linarith)
  have hcos : 0 ≤ Real.cos θ :=
    Real.cos_nonneg_of_mem_Icc ⟨by linarith, hθhalf⟩
  have hsq : 1 - Real.sin θ * Real.sin θ = Real.cos θ * Real.cos θ := by
    nlinarith [Real.sin_sq_add_cos_sq θ]
  show (6371 : ℝ) * (2 * atan2
      (Real.sqrt (Real.sin (((0:ℝ) - 0) * (Real.pi / 180) / 2) *
          Real.sin (((0:ℝ) - 0) * (Real.pi / 180) / 2) +
        Real.cos ((0:ℝ) * (Real.pi / 180)) * Real.cos ((0:ℝ) * (Real.pi / 180)) *
          Real.sin ((l2 - l1) * (Real.pi / 180) / 2) *
          Real.sin ((l2 - l1) * (Real.pi / 180) / 2)))
      (Real.sqrt (1 - (Real.sin (((0:ℝ) - 0) * (Real.pi / 180) / 2) *
          Real.sin (((0:ℝ) - 0) * (Real.pi / 180) / 2) +
        Real.cos ((0:ℝ) * (Real.pi / 180)) * Real.cos ((0:ℝ) * (Real.pi / 180)) *
          Real.sin ((l2 - l1) * (Real.pi / 180) / 2) *
          Real.sin ((l2 - l1) * (Real.pi / 180) / 2))))) =
    6371 * ((l2 - l1) * (Real.pi / 180))
  rw [show ((0:ℝ) - 0) * (Real.pi / 180) / 2 = 0 by ring, Real.sin_zero,
    show (0:ℝ) * (Real.pi / 180) = 0 by ring, Real.cos_zero]
  rw [show (0:ℝ) * 0 + 1 * 1 * Real.sin ((l2 - l1) * (Real.pi / 180) / 2) *
      Real.sin ((l2 - l1) * (Real.pi / 180) / 2) = Real.sin θ * Real.sin θ by rw [hθ]; ring]
  rw [hsq, Real.sqrt_mul_self hsin, Real.sqrt_mul_self hcos, atan2_sin_cos hθ0 hθhalf]
  rw [hθ]; ring

/-! ## The adjacency list -/

theorem buildAdjacency_foldl (edges : List GraphEdge) (m : ℤ → List AdjEntry) (k : ℤ) :
    (edges.foldl
      (fun adjacencyList edge =>
        let weight := if edge.travel_time > 0 then edge.travel_time else edge.length
        fun k' =>
          if k' = edge.from_ then adjacencyList k' ++ [⟨edge.to_, weight⟩]
          else adjacencyList k') m) k
    = m k ++ (edges.filter (fun e => e.from_ = k)).map
        (fun e => ⟨e.to_, if e.travel_time > 0 then e.travel_time else e.length⟩) := by
  induction edges generalizing m with
  | nil => simp
  | cons e es ih =>
      simp only [List.foldl_cons, List.filter_cons]
      rw [ih]
      by_cases h : e.from_ = k
      · simp [h, List.append_assoc]
      · have h' : ¬ k = e.from_ := fun hk => h hk.symm
        simp [h, h']

theorem buildAdjacencyList_apply (graph : GraphData) (k : ℤ) :
    buildAdjacencyList graph k = (graph.edges.filter (fun e => e.from_ = k)).map
      (fun e => ⟨e.to_, if e.travel_time > 0 then e.travel_time else e.length⟩) := by
  unfold buildAdjacencyList
  rw [buildAdjacency_foldl]
  simp

theorem buildAdjacencyList_empty (graph : GraphData) (k : ℤ)
    (h : ∀ e ∈ graph.edges, e.from_ ≠ k) : buildAdjacencyList graph k = [] := by
  rw [buildAdjacencyList_apply]
  rw [List.filter_eq_nil_iff.mpr]
  · rfl
  · intro e he
    simp [h e he]

/-! ## Small step lemmas for the A* loop -/

theorem aStarStep_empty {graph : GraphData} {adj : ℤ → List AdjEntry} {endNode : ℤ}
    {recFuel : ℕ} {st : AState} (h : st.openSet = []) :
    aStarStep graph adj endNode recFuel st = .noPath := by
  unfold aStarStep
  rw [if_pos h]

theorem aStarStep_break {graph : GraphData} {adj : ℤ → List AdjEntry} {endNode : ℤ}
    {recFuel : ℕ} {st : AState} {c : ℤ} {m : JsNum}
    (hscan : scanMin st.fScore st.openSet (-1, ⊤) = (c, m))
    (h : c = -1 ∨ m = ⊤) :
    aStarStep graph adj endNode recFuel st = .noPath := by
  unfold aStarStep
  by_cases he : st.openSet = []
  · rw [if_pos he]
  · rw [if_neg he]
    simp only [hscan]
    rw [if_pos h]

theorem aStarStep_found {graph : GraphData} {adj : ℤ → List AdjEntry} {endNode : ℤ}
    {recFuel : ℕ} {st : AState} {c : ℤ} {m : JsNum}
    (hne : st.openSet ≠ [])
    (hscan : scanMin st.fScore st.openSet (-1, ⊤) = (c, m))
    (hc : c ≠ -1) (hm : m ≠ ⊤) (hgoal : c = endNode) :
    aStarStep graph adj endNode recFuel st =
      .found (reconstructPath st.previous recFuel endNode) := by
  unfold aStarStep
  rw [if_neg hne]
  simp only [hscan]
  rw [if_neg (by simp [hc, hm]), if_pos hgoal]

theorem aStarStep_next {graph : GraphData} {adj : ℤ → List AdjEntry} {endNode : ℤ}
    {recFuel : ℕ} {st : AState} {c : ℤ} {m : JsNum}
    (hne : st.openSet ≠ [])
    (hscan : scanMin st.fScore st.openSet (-1, ⊤) = (c, m))
    (hc : c ≠ -1) (hm : m ≠ ⊤) (hgoal : c ≠ endNode) :
    aStarStep graph adj endNode recFuel st =
      .next (relaxNeighbors graph endNode c (adj c)
        { st with openSet := setDelete st.openSet c
                  closedSet := setAdd st.closedSet c }) := by
  unfold aStarStep
  rw [if_neg hne]
  simp only [hscan]
  rw [if_neg (by simp [hc, hm]), if_neg hgoal]

theorem aStarLoop_found {graph : GraphData} {adj : ℤ → List AdjEntry} {endNode : ℤ}
    {recFuel fuel : ℕ} {st : AState} {p : List ℤ}
    (h : aStarStep graph adj endNode recFuel st = .found p) :
    aStarLoop graph adj endNode recFuel (fuel + 1) st = some p := by
  unfold aStarLoop
  rw [h]

theorem aStarLoop_noPath {graph : GraphData} {adj : ℤ → List AdjEntry} {endNode : ℤ}
    {recFuel fuel : ℕ} {st : AState}
    (h : aStarStep graph adj endNode recFuel st = .noPath) :
    aStarLoop graph adj endNode recFuel (fuel + 1) st = none := by
  unfold aStarLoop
  rw [h]

theorem aStarLoop_next {graph : GraphData} {adj : ℤ → List AdjEntry} {endNode : ℤ}
    {recFuel fuel : ℕ} {st st' : AState}
    (h : aStarStep graph adj endNode recFuel st = .next st') :
    aStarLoop graph adj endNode recFuel (fuel + 1) st =
      aStarLoop graph adj endNode recFuel fuel st' := by
  have hdef : aStarLoop graph adj endNode recFuel (fuel + 1) st =
      match aStarStep graph adj endNode recFuel st with
      | .found path => some path
      | .noPath => none
      | .next st2 => aStarLoop graph adj endNode recFuel fuel st2 := rfl
  rw [hdef, h]

theorem searchFuel_succ (graph : GraphData) :
    searchFuel graph = (graph.nodes.length + graph.edges.length) + 1 := rfl

/-! ## Claims C6, C8, C9, C10 -/

/-- C6: with zero nodes in the graph, `calculateRoute` fails with the distinct
nearest-node-not-found outcome; the `-1` sentinel of nearest-node resolution
is caught before any downstream use. -/
theorem calculateRoute_empty_nearestNodeNotFound (graph : GraphData) (s e : Coordinate)
    (h : graph.nodes = []) :
    calculateRoute graph s e = .error .nearestNodeNotFound := by
  have hs : findNearestNode graph s = -1 := by
    unfold findNearestNode
    rw [h]
    rfl
  simp [calculateRoute, calculateRouteFuel, hs]

/-- C6 witness: the empty graph. -/
theorem calculateRoute_empty_nearestNodeNotFound_witness :
    emptyGraphData.nodes = [] ∧
      calculateRoute emptyGraphData ⟨0, 0⟩ ⟨0, 0⟩ = .error .nearestNodeNotFound :=
  ⟨rfl, calculateRoute_empty_nearestNodeNotFound emptyGraphData ⟨0, 0⟩ ⟨0, 0⟩ rfl⟩

/-- C8: route computation is deterministic — two calls with identical graph
and coordinates produce identical outcomes. In the embedding every iteration
order of the source (object keys, `Map`/`Set` insertion order) is a fixed list
order, so `calculateRoute` is a pure function of its arguments. -/
theorem calculateRoute_deterministic (g g' : GraphData) (s s' e e' : Coordinate)
    (hg : g = g') (hs : s = s') (he : e = e') :
    calculateRoute g s e = calculateRoute g' s' e' := by
  rw [hg, hs, he]

/-- C8 witness: two identical calls on a concrete graph agree. -/
theorem calculateRoute_deterministic_witness :
    calculateRoute oneNodeGraph ⟨0, 0⟩ ⟨0, 0⟩ = calculateRoute oneNodeGraph ⟨0, 0⟩ ⟨0, 0⟩ :=
  calculateRoute_deterministic oneNodeGraph oneNodeGraph ⟨0, 0⟩ ⟨0, 0⟩ ⟨0, 0⟩ ⟨0, 0⟩
    rfl rfl rfl

/-- C9: the heuristic estimate is the haversine distance (radius 6371 km, via
`haversineDistance`) divided by 50 km/h and converted to seconds, and is
`Infinity` exactly when either node id is absent from the node mapping. -/
theorem heuristicDistance_spec (graph : GraphData) (nodeId endNodeId : ℤ) :
    (∀ node endNode, jsGet graph.nodes nodeId = some node →
        jsGet graph.nodes endNodeId = some endNode →
        heuristicDistance graph nodeId endNodeId =
          (((haversineDistance node.lat node.lon endNode.lat endNode.lon / 50) * 3600 : ℝ) :
            JsNum)) ∧
    ((jsGet graph.nodes nodeId = none ∨ jsGet graph.nodes endNodeId = none) →
      heuristicDistance graph nodeId endNodeId = ⊤) := by
  constructor
  · intro node endNode h1 h2
    unfold heuristicDistance
    rw [h1, h2]
  · intro h
    rcases h with h | h
    · unfold heuristicDistance
      rw [h]
    · cases hx : jsGet graph.nodes nodeId with
      | none => unfold heuristicDistance; rw [hx]
      | some node => unfold heuristicDistance; rw [hx, h]

/-- C9 witness: both branches on a concrete graph. -/
theorem heuristicDistance_spec_witness :
    jsGet oneNodeGraph.nodes 5 = some ⟨5, 0, 0⟩ ∧
    heuristicDistance oneNodeGraph 5 5 =
      (((haversineDistance 0 0 0 0 / 50) * 3600 : ℝ) : JsNum) ∧
    jsGet oneNodeGraph.nodes 7 = none ∧
    heuristicDistance oneNodeGraph 5 7 = ⊤ := by
  have h5 : jsGet oneNodeGraph.nodes 5 = some ⟨5, 0, 0⟩ := by
    simp [oneNodeGraph, jsGet]
  have h7 : jsGet oneNodeGraph.nodes 7 = none := by
    simp [oneNodeGraph, jsGet]
  refine ⟨h5, ?_, h7, ?_⟩
  · exact (heuristicDistance_spec oneNodeGraph 5 5).1 ⟨5, 0, 0⟩ ⟨5, 0, 0⟩ h5 h5
  · exact (heuristicDistance_spec oneNodeGraph 5 7).2 (Or.inr h7)

/-! ## Evaluation lemmas for the JavaScript readers and the scan -/

theorem jsOrInf_none : jsOrInf none = ⊤ := rfl

theorem jsOrInf_some_zero : jsOrInf (some 0) = ⊤ := by
  simp [jsOrInf]

theorem jsOrInf_some_ne {x : JsNum} (h : x ≠ 0) : jsOrInf (some x) = x := by
  simp [jsOrInf, h]

theorem jsOrZero_none : jsOrZero none = 0 := rfl

theorem jsOrZero_some (x : JsNum) : jsOrZero (some x) = x := by
  simp only [jsOrZero]
  split_ifs with h
  · exact h.symm
  · rfl

theorem jsOrNull_some_ne {i : ℤ} (h : i ≠ 0) : jsOrNull (some (some i)) = some i := by
  simp [jsOrNull, h]

theorem jsOrNull_some_zero : jsOrNull (some (some 0)) = none := by
  simp [jsOrNull]

theorem jsOrNull_null : jsOrNull (some none) = none := rfl

theorem jsOrNull_undef : jsOrNull none = none := rfl

theorem scanMin_nil (f : ℤ → Option JsNum) (acc : ℤ × JsNum) : scanMin f [] acc = acc := rfl

theorem scanMin_cons_lt {f : ℤ → Option JsNum} {n : ℤ} {rest : List ℤ} {acc : ℤ × JsNum}
    (h : jsOrInf (f n) < acc.2) :
    scanMin f (n :: rest) acc = scanMin f rest (n, jsOrInf (f n)) := by
  simp only [scanMin]
  rw [if_pos h]

theorem scanMin_cons_ge {f : ℤ → Option JsNum} {n : ℤ} {rest : List ℤ} {acc : ℤ × JsNum}
    (h : ¬ jsOrInf (f n) < acc.2) :
    scanMin f (n :: rest) acc = scanMin f rest acc := by
  simp only [scanMin]
  rw [if_neg h]

theorem initState_openSet (graph : GraphData) (a b : ℤ) :
    (initState graph a b).openSet = [a] := rfl

theorem initState_closedSet (graph : GraphData) (a b : ℤ) :
    (initState graph a b).closedSet = [] := rfl

theorem initState_fScore_start (graph : GraphData) (a b : ℤ) :
    (initState graph a b).fScore a = some (heuristicDistance graph a b) := by
  unfold initState mapSet
  simp

theorem initState_gScore_start (graph : GraphData) (a b : ℤ) :
    (initState graph a b).gScore a = some 0 := by
  unfold initState mapSet
  simp

/-- C10: if the snapped start and end ids are distinct but the node-mapping
coordinates looked up for them lie at haversine distance zero, the start's
stored fScore is `0`, the `|| Infinity` read turns it into `Infinity`, the
minimum scan never selects the start node, and the call fails with the
no-path outcome even when a path exists. -/
theorem zeroHeuristicStart_noPathFound (graph : GraphData) (s e : Coordinate) (a b : ℤ)
    (hsa : findNearestNode graph s = a) (heb : findNearestNode graph e = b)
    (hne : a ≠ b) (ha : a ≠ -1) (hb : b ≠ -1)
    (na nb : GraphNode) (hna : jsGet graph.nodes a = some na)
    (hnb : jsGet graph.nodes b = some nb)
    (hzero : haversineDistance na.lat na.lon nb.lat nb.lon = 0)
    (hpath : ∃ p c, IsPathCost graph a b p c) :
    calculateRoute graph s e = .error .noPathFound := by
  have hh : heuristicDistance graph a b = ((0 : ℝ) : JsNum) := by
    unfold heuristicDistance
    rw [hna, hnb]
    simp [hzero]
  have hf : (initState graph a b).fScore a = some 0 := by
    rw [initState_fScore_start, hh]
    norm_num
  have hscan : scanMin (initState graph a b).fScore [a] (-1, ⊤) = (-1, ⊤) := by
    rw [scanMin_cons_ge, scanMin_nil]
    rw [hf, jsOrInf_some_zero]
    exact lt_irrefl ⊤
  have hstep : ∀ recFuel, aStarStep graph (buildAdjacencyList graph) b recFuel
      (initState graph a b) = .noPath := by
    intro recFuel
    exact aStarStep_break hscan (Or.inl rfl)
  simp only [calculateRoute, calculateRouteFuel, hsa, heb]
  rw [if_neg (by simp [ha, hb]), if_neg hne]
  rw [searchFuel_succ]
  rw [aStarLoop_noPath (hstep _)]

theorem haversineDistance_equator' {l1 l2 : ℝ} (h1 : l2 ≤ l1) (h2 : l1 - l2 ≤ 180) :
    haversineDistance 0 l1 0 l2 = 6371 * ((l1 - l2) * (Real.pi / 180)) := by
  have hpi := Real.pi_pos
  set θ : ℝ := (l1 - l2) * (Real.pi / 180) / 2 with hθ
  have hθ0 : 0 ≤ θ := by
    apply div_nonneg _ (by norm_num)
    exact mul_nonneg (by linarith) (by positivity)
  have hθhalf : θ ≤ Real.pi / 2 := by
    rw [hθ]
    rw [div_le_div_iff_of_pos_right (by norm_num : (0:ℝ) < 2)]
    calc (l1 - l2) * (Real.pi / 180) ≤ 180 * (Real.pi / 180) := by
          exact mul_le_mul_of_nonneg_right h2 (by positivity)
      _ = Real.pi := by ring
  have hsin : 0 ≤ Real.sin θ :=
    Real.sin_nonneg_of_nonneg_of_le_pi hθ0 (by linarith)
  have hcos : 0 ≤ Real.cos θ :=
    Real.cos_nonneg_of_mem_Icc ⟨by linarith, hθhalf⟩
  have hsq : 1 - Real.sin θ * Real.sin θ = Real.cos θ * Real.cos θ := by
    nlinarith [Real.sin_sq_add_cos_sq θ]
  show (6371 : ℝ) * (2 * atan2
      (Real.sqrt (Real.sin (((0:ℝ) - 0) * (Real.pi / 180) / 2) *
          Real.sin (((0:ℝ) - 0) * (Real.pi / 180) / 2) +
        Real.cos ((0:ℝ) * (Real.pi / 180)) * Real.cos ((0:ℝ) * (Real.pi / 180)) *
          Real.sin ((l2 - l1) * (Real.pi / 180) / 2) *
          Real.sin ((l2 - l1) * (Real.pi / 180) / 2)))
      (Real.sqrt (1 - (Real.sin (((0:ℝ) - 0) * (Real.pi / 180) / 2) *
          Real.sin (((0:ℝ) - 0) * (Real.pi / 180) / 2) +
        Real.cos ((0:ℝ) * (Real.pi / 180)) * Real.cos ((0:ℝ) * (Real.pi / 180)) *
          Real.sin ((l2 - l1) * (Real.pi / 180) / 2) *
          Real.sin ((l2 - l1) * (Real.pi / 180) / 2))))) =
    6371 * ((l1 - l2) * (Real.pi / 180))
  rw [show ((0:ℝ) - 0) * (Real.pi / 180) / 2 = 0 by ring, Real.sin_zero,
    show (0:ℝ) * (Real.pi / 180) = 0 by ring, Real.cos_zero]
  rw [show (l2 - l1) * (Real.pi / 180) / 2 = -θ by rw [hθ]; ring, Real.sin_neg]
  rw [show (0:ℝ) * 0 + 1 * 1 * -Real.sin θ * -Real.sin θ = Real.sin θ * Real.sin θ by ring]
  rw [hsq, Real.sqrt_mul_self hsin, Real.sqrt_mul_self hcos, atan2_sin_cos hθ0 hθhalf]
  rw [hθ]; ring

theorem findNearestScan_nil (p : Coordinate) (m : JsNum) (c : ℤ) :
    findNearestScan p [] m c = c := rfl

theorem findNearestScan_cons_of_lt {plat plon nlat nlon : ℝ} {nid k : ℤ}
    {rest : List (ℤ × GraphNode)} {m : JsNum} {c : ℤ} {d : ℝ}
    (hd : haversineDistance plat plon nlat nlon = d)
    (h : (d : JsNum) < m) :
    findNearestScan ⟨plat, plon⟩ ((k, ⟨nid, nlat, nlon⟩) :: rest) m c =
      findNearestScan ⟨plat, plon⟩ rest (d : JsNum) nid := by
  simp only [findNearestScan, hd]
  rw [if_pos h]

theorem findNearestScan_cons_of_ge {plat plon nlat nlon : ℝ} {nid k : ℤ}
    {rest : List (ℤ × GraphNode)} {m : JsNum} {c : ℤ} {d : ℝ}
    (hd : haversineDistance plat plon nlat nlon = d)
    (h : ¬ (d : JsNum) < m) :
    findNearestScan ⟨plat, plon⟩ ((k, ⟨nid, nlat, nlon⟩) :: rest) m c =
      findNearestScan ⟨plat, plon⟩ rest m c := by
  simp only [findNearestScan, hd]
  rw [if_neg h]

theorem mismatchGraph_snap_start : findNearestNode mismatchGraph ⟨0, 1⟩ = 10 := by
  have hpi := Real.pi_pos
  have d1 : haversineDistance (0:ℝ) 1 0 1 = 0 := haversineDistance_self 0 1
  have d2 : haversineDistance (0:ℝ) 1 0 2 = 6371 * ((2 - 1) * (Real.pi / 180)) :=
    haversineDistance_equator (by norm_num) (by norm_num)
  have d3 : haversineDistance (0:ℝ) 1 0 5 = 6371 * ((5 - 1) * (Real.pi / 180)) :=
    haversineDistance_equator (by norm_num) (by norm_num)
  show findNearestScan ⟨0, 1⟩ mismatchGraph.nodes ⊤ (-1) = 10
  rw [show mismatchGraph.nodes = [(1, ⟨10, 0, 1⟩), (2, ⟨20, 0, 2⟩), (10, ⟨10, 0, 5⟩),
    (20, ⟨20, 0, 5⟩)] from rfl]
  rw [findNearestScan_cons_of_lt d1 (WithTop.coe_lt_top 0)]
  rw [findNearestScan_cons_of_ge d2 (by
    rw [WithTop.coe_lt_coe]
    intro hlt
    nlinarith)]
  rw [findNearestScan_cons_of_ge d3 (by
    rw [WithTop.coe_lt_coe]
    intro hlt
    nlinarith)]
  rw [findNearestScan_cons_of_ge d3 (by
    rw [WithTop.coe_lt_coe]
    intro hlt
    nlinarith)]
  rfl

theorem mismatchGraph_snap_end : findNearestNode mismatchGraph ⟨0, 2⟩ = 20 := by
  have hpi := Real.pi_pos
  have d1 : haversineDistance (0:ℝ) 2 0 1 = 6371 * ((2 - 1) * (Real.pi / 180)) :=
    haversineDistance_equator' (by norm_num) (by norm_num)
  have d2 : haversineDistance (0:ℝ) 2 0 2 = 0 := haversineDistance_self 0 2
  have d3 : haversineDistance (0:ℝ) 2 0 5 = 6371 * ((5 - 2) * (Real.pi / 180)) :=
    haversineDistance_equator (by norm_num) (by norm_num)
  show findNearestScan ⟨0, 2⟩ mismatchGraph.nodes ⊤ (-1) = 20
  rw [show mismatchGraph.nodes = [(1, ⟨10, 0, 1⟩), (2, ⟨20, 0, 2⟩), (10, ⟨10, 0, 5⟩),
    (20, ⟨20, 0, 5⟩)] from rfl]
  rw [findNearestScan_cons_of_lt d1 (WithTop.coe_lt_top _)]
  rw [findNearestScan_cons_of_lt d2 (by
    rw [WithTop.coe_lt_coe]
    nlinarith)]
  rw [findNearestScan_cons_of_ge d3 (by
    rw [WithTop.coe_lt_coe]
    intro hlt
    nlinarith)]
  rw [findNearestScan_cons_of_ge d3 (by
    rw [WithTop.coe_lt_coe]
    intro hlt
    nlinarith)]
  rfl

/-- C10 witness: the scenario is realised by `mismatchGraph`, whose snapped
ids `10 ≠ 20` look up two entries at the same position;
the call fails with `noPathFound` although the edge `10 → 20` exists. -/
theorem zeroHeuristicStart_noPathFound_witness :
    findNearestNode mismatchGraph ⟨0, 1⟩ = 10 ∧
    findNearestNode mismatchGraph ⟨0, 2⟩ = 20 ∧
    haversineDistance (0:ℝ) 5 0 5 = 0 ∧
    calculateRoute mismatchGraph ⟨0, 1⟩ ⟨0, 2⟩ = .error .noPathFound := by
  have hg10 : jsGet mismatchGraph.nodes 10 = some ⟨10, 0, 5⟩ := by
    simp [mismatchGraph, jsGet]
  have hg20 : jsGet mismatchGraph.nodes 20 = some ⟨20, 0, 5⟩ := by
    simp [mismatchGraph, jsGet]
  have hmem : (⟨20, 1⟩ : AdjEntry) ∈ buildAdjacencyList mismatchGraph 10 := by
    rw [buildAdjacencyList_apply]
    norm_num [mismatchGraph]
  refine ⟨mismatchGraph_snap_start, mismatchGraph_snap_end, haversineDistance_self 0 5, ?_⟩
  exact zeroHeuristicStart_noPathFound mismatchGraph ⟨0, 1⟩ ⟨0, 2⟩ 10 20
    mismatchGraph_snap_start mismatchGraph_snap_end (by norm_num) (by norm_num) (by norm_num)
    ⟨10, 0, 5⟩ ⟨20, 0, 5⟩ hg10 hg20 (haversineDistance_self 0 5)
    ⟨[10] ++ [20], 0 + 1, IsPathCost.cons ⟨20, 1⟩ hmem rfl (IsPathCost.single 10)⟩

/-! ## Claim C7: nearest-node correctness -/

theorem findNearestScan_spec (point : Coordinate) :
    ∀ (l : List (ℤ × GraphNode)) (m : JsNum) (c : ℤ),
      (findNearestScan point l m c = c ∧
        ∀ kn ∈ l, ¬ ((queryDistance point kn : ℝ) : JsNum) < m) ∨
      (∃ i : Fin l.length,
        findNearestScan point l m c = (l.get i).2.id ∧
        ((queryDistance point (l.get i) : ℝ) : JsNum) < m ∧
        (∀ j : Fin l.length, queryDistance point (l.get i) ≤ queryDistance point (l.get j)) ∧
        (∀ j : Fin l.length, (j : ℕ) < (i : ℕ) →
          queryDistance point (l.get i) < queryDistance point (l.get j))) := by
  intro l
  induction l with
  | nil =>
      intro m c
      left
      exact ⟨rfl, by simp⟩
  | cons kn rest ih =>
      intro m c
      obtain ⟨k, n⟩ := kn
      have hscan : ∀ (m' : JsNum) (c' : ℤ),
          ((queryDistance point (k, n) : ℝ) : JsNum) < m' →
            findNearestScan point ((k, n) :: rest) m' c' =
              findNearestScan point rest ((queryDistance point (k, n) : ℝ) : JsNum) n.id := by
        intro m' c' h
        simp only [queryDistance] at h ⊢
        simp only [findNearestScan]
        rw [if_pos h]
      have hscan' : ∀ (m' : JsNum) (c' : ℤ),
          ¬ ((queryDistance point (k, n) : ℝ) : JsNum) < m' →
            findNearestScan point ((k, n) :: rest) m' c' =
              findNearestScan point rest m' c' := by
        intro m' c' h
        simp only [queryDistance] at h ⊢
        simp only [findNearestScan]
        rw [if_neg h]
      by_cases hlt : ((queryDistance point (k, n) : ℝ) : JsNum) < m
      · rw [hscan m c hlt]
        rcases ih ((queryDistance point (k, n) : ℝ) : JsNum) n.id with ⟨heq, hall⟩ |
          ⟨i', heq, hlt', hmin, hstrict⟩
        · right
          refine ⟨⟨0, by simp⟩, ?_, ?_, ?_, ?_⟩
          · simpa using heq
          · simpa using hlt
          · intro j
            refine Fin.cases ?_ ?_ j
            · simp
            · intro j'
              have := hall (rest.get j') (List.get_mem rest _ j'.2)
              rw [WithTop.coe_lt_coe, not_lt] at this
              simpa using this
          · intro j hj
            simp at hj
        · right
          refine ⟨i'.succ, ?_, ?_, ?_, ?_⟩
          · simpa using heq
          · exact lt_trans hlt' hlt
          · intro j
            refine Fin.cases ?_ ?_ j
            · have := hlt'
              rw [WithTop.coe_lt_coe] at this
              simpa using le_of_lt this
            · intro j'
              simpa using hmin j'
          · intro j
            refine Fin.cases ?_ ?_ j
            · intro hj
              have := hlt'
              rw [WithTop.coe_lt_coe] at this
              simpa using this
            · intro j' hj'
              have hj'' : (j' : ℕ) < (i' : ℕ) := by simpa using hj'
              simpa using hstrict j' hj''
      · rw [hscan' m c hlt]
        rcases ih m c with ⟨heq, hall⟩ | ⟨i', heq, hlt', hmin, hstrict⟩
        · left
          refine ⟨heq, ?_⟩
          intro kn' hkn'
          rcases List.mem_cons.mp hkn' with hc | hc
          · rw [hc]
            exact hlt
          · exact hall kn' hc
        · right
          have hdi' : queryDistance point (rest.get i') < queryDistance point (k, n) := by
            have h1 : ((queryDistance point (rest.get i') : ℝ) : JsNum) <
                ((queryDistance point (k, n) : ℝ) : JsNum) :=
              lt_of_lt_of_le hlt' (not_lt.mp hlt)
            rwa [WithTop.coe_lt_coe] at h1
          refine ⟨i'.succ, ?_, hlt', ?_, ?_⟩
          · simpa using heq
          · intro j
            refine Fin.cases ?_ ?_ j
            · simpa using le_of_lt hdi'
            · intro j'
              simpa using hmin j'
          · intro j
            refine Fin.cases ?_ ?_ j
            · intro hj
              simpa using hdi'
            · intro j' hj'
              have hj'' : (j' : ℕ) < (i' : ℕ) := by simpa using hj'
              simpa using hstrict j' hj''

/-- C7: for a non-empty graph, `findNearestNode` returns the `id` of a node
whose haversine distance to the query is minimal, and among the minima it is
the first in iteration order: every strictly earlier entry is strictly
farther. -/
theorem findNearestNode_nearest (graph : GraphData) (point : Coordinate)
    (h : graph.nodes ≠ []) :
    ∃ i : Fin graph.nodes.length,
      (graph.nodes.get i).2.id = findNearestNode graph point ∧
      (∀ j : Fin graph.nodes.length,
        queryDistance point (graph.nodes.get i) ≤ queryDistance point (graph.nodes.get j)) ∧
      (∀ j : Fin graph.nodes.length, (j : ℕ) < (i : ℕ) →
        queryDistance point (graph.nodes.get i) < queryDistance point (graph.nodes.get j)) := by
  rcases findNearestScan_spec point graph.nodes ⊤ (-1) with ⟨heq, hall⟩ |
    ⟨i, heq, hlt, hmin, hstrict⟩
  · exfalso
    rcases List.exists_mem_of_ne_nil graph.nodes h with ⟨kn, hkn⟩
    exact hall kn hkn (WithTop.coe_lt_top _)
  · exact ⟨i, heq.symm, hmin, hstrict⟩

/-- C7 witness: on a concrete two-node graph the first (distance-zero) node is
returned. -/
theorem findNearestNode_nearest_witness :
    noEdgeGraph.nodes ≠ [] ∧
    (∃ i : Fin noEdgeGraph.nodes.length,
      (noEdgeGraph.nodes.get i).2.id = findNearestNode noEdgeGraph ⟨0, 0⟩ ∧
      (∀ j : Fin noEdgeGraph.nodes.length,
        queryDistance ⟨0, 0⟩ (noEdgeGraph.nodes.get i) ≤
          queryDistance ⟨0, 0⟩ (noEdgeGraph.nodes.get j)) ∧
      (∀ j : Fin noEdgeGraph.nodes.length, (j : ℕ) < (i : ℕ) →
        queryDistance ⟨0, 0⟩ (noEdgeGraph.nodes.get i) <
          queryDistance ⟨0, 0⟩ (noEdgeGraph.nodes.get j))) :=
  ⟨by simp [noEdgeGraph], findNearestNode_nearest noEdgeGraph ⟨0, 0⟩ (by simp [noEdgeGraph])⟩

/-! ## Evaluation lemmas for the relaxation loop -/

theorem mapSet_eq {α : Type} (m : ℤ → Option α) (k : ℤ) (v : α) :
    mapSet m k v k = some v := by
  simp [mapSet]

theorem mapSet_ne {α : Type} (m : ℤ → Option α) (k : ℤ) (v : α) {x : ℤ} (h : x ≠ k) :
    mapSet m k v x = m x := by
  simp [mapSet, h]

theorem setAdd_nil (n : ℤ) : setAdd [] n = [n] := by
  simp [setAdd]

theorem relaxNeighbors_nil (graph : GraphData) (endNode currentNode : ℤ) (st : AState) :
    relaxNeighbors graph endNode currentNode [] st = st := rfl

theorem relaxNeighbors_cons_closed {graph : GraphData} {endNode currentNode nbnode : ℤ}
    {nbweight : ℝ} {rest : List AdjEntry} {st : AState}
    (h : nbnode ∈ st.closedSet) :
    relaxNeighbors graph endNode currentNode (⟨nbnode, nbweight⟩ :: rest) st =
      relaxNeighbors graph endNode currentNode rest st := by
  simp only [relaxNeighbors]
  rw [if_pos h]

theorem relaxNeighbors_cons_skip {graph : GraphData} {endNode currentNode nbnode : ℤ}
    {nbweight : ℝ} {rest : List AdjEntry} {st : AState}
    (h1 : nbnode ∉ st.closedSet) (h2 : nbnode ∈ st.openSet)
    (h3 : jsOrInf (st.gScore nbnode) ≤ jsOrZero (st.gScore currentNode) + (nbweight : JsNum)) :
    relaxNeighbors graph endNode currentNode (⟨nbnode, nbweight⟩ :: rest) st =
      relaxNeighbors graph endNode currentNode rest st := by
  simp only [relaxNeighbors]
  rw [if_neg h1, if_pos ⟨h2, h3⟩]

theorem relaxNeighbors_cons_update {graph : GraphData} {endNode currentNode nbnode : ℤ}
    {nbweight : ℝ} {rest : List AdjEntry} {st : AState}
    (h1 : nbnode ∉ st.closedSet)
    (h2 : ¬ (nbnode ∈ st.openSet ∧
      jsOrInf (st.gScore nbnode) ≤ jsOrZero (st.gScore currentNode) + (nbweight : JsNum))) :
    relaxNeighbors graph endNode currentNode (⟨nbnode, nbweight⟩ :: rest) st =
      relaxNeighbors graph endNode currentNode rest
        { gScore := mapSet st.gScore nbnode
            (jsOrZero (st.gScore currentNode) + (nbweight : JsNum))
          fScore := mapSet st.fScore nbnode
            ((jsOrZero (st.gScore currentNode) + (nbweight : JsNum)) +
              heuristicDistance graph nbnode endNode)
          previous := mapSet st.previous nbnode (some currentNode)
          openSet := if nbnode ∈ st.openSet then st.openSet else st.openSet ++ [nbnode]
          closedSet := st.closedSet } := by
  simp only [relaxNeighbors]
  rw [if_neg h1, if_neg h2]

theorem relaxNeighbors_cons_discover {graph : GraphData} {endNode currentNode nbnode : ℤ}
    {nbweight : ℝ} {rest : List AdjEntry} {st : AState}
    (h1 : nbnode ∉ st.closedSet) (h2 : nbnode ∉ st.openSet) :
    relaxNeighbors graph endNode currentNode (⟨nbnode, nbweight⟩ :: rest) st =
      relaxNeighbors graph endNode currentNode rest
        { gScore := mapSet st.gScore nbnode
            (jsOrZero (st.gScore currentNode) + (nbweight : JsNum))
          fScore := mapSet st.fScore nbnode
            ((jsOrZero (st.gScore currentNode) + (nbweight : JsNum)) +
              heuristicDistance graph nbnode endNode)
          previous := mapSet st.previous nbnode (some currentNode)
          openSet := st.openSet ++ [nbnode]
          closedSet := st.closedSet } := by
  rw [relaxNeighbors_cons_update h1 (fun hc => h2 hc.1)]
  rw [if_neg h2]

/-! ## Claim C2: weight policy and the three-node chain -/

theorem reconstructPath_stop {previous : ℤ → Option (Option ℤ)} {fuel : ℕ} {n : ℤ}
    (h : jsOrNull (previous n) = none) :
    reconstructPath previous (fuel + 1) n = [n] := by
  simp only [reconstructPath, h]

theorem reconstructPath_link {previous : ℤ → Option (Option ℤ)} {fuel : ℕ} {n p : ℤ}
    (h : jsOrNull (previous n) = some p) :
    reconstructPath previous (fuel + 1) n = reconstructPath previous fuel p ++ [n] := by
  simp only [reconstructPath, h]

theorem initState_previous (graph : GraphData) (a b x : ℤ) :
    (initState graph a b).previous x =
      (if x ∈ nodeIdList graph then some none else none) := rfl

theorem chainGraph_snap_start : findNearestNode chainGraph ⟨0, 0⟩ = 1 := by
  have hpi := Real.pi_pos
  have d1 : haversineDistance (0:ℝ) 0 0 0 = 0 := haversineDistance_self 0 0
  have d2 : haversineDistance (0:ℝ) 0 0 1 = 6371 * ((1 - 0) * (Real.pi / 180)) :=
    haversineDistance_equator (by norm_num) (by norm_num)
  have d3 : haversineDistance (0:ℝ) 0 0 2 = 6371 * ((2 - 0) * (Real.pi / 180)) :=
    haversineDistance_equator (by norm_num) (by norm_num)
  show findNearestScan ⟨0, 0⟩ chainGraph.nodes ⊤ (-1) = 1
  rw [show chainGraph.nodes = [(1, ⟨1, 0, 0⟩), (2, ⟨2, 0, 1⟩), (3, ⟨3, 0, 2⟩)] from rfl]
  rw [findNearestScan_cons_of_lt d1 (WithTop.coe_lt_top 0)]
  rw [findNearestScan_cons_of_ge d2 (by
    rw [WithTop.coe_lt_coe]
    intro hlt
    nlinarith)]
  rw [findNearestScan_cons_of_ge d3 (by
    rw [WithTop.coe_lt_coe]
    intro hlt
    nlinarith)]
  rfl

theorem chainGraph_snap_end : findNearestNode chainGraph ⟨0, 2⟩ = 3 := by
  have hpi := Real.pi_pos
  have d1 : haversineDistance (0:ℝ) 2 0 0 = 6371 * ((2 - 0) * (Real.pi / 180)) :=
    haversineDistance_equator' (by norm_num) (by norm_num)
  have d2 : haversineDistance (0:ℝ) 2 0 1 = 6371 * ((2 - 1) * (Real.pi / 180)) :=
    haversineDistance_equator' (by norm_num) (by norm_num)
  have d3 : haversineDistance (0:ℝ) 2 0 2 = 0 := haversineDistance_self 0 2
  show findNearestScan ⟨0, 2⟩ chainGraph.nodes ⊤ (-1) = 3
  rw [show chainGraph.nodes = [(1, ⟨1, 0, 0⟩), (2, ⟨2, 0, 1⟩), (3, ⟨3, 0, 2⟩)] from rfl]
  rw [findNearestScan_cons_of_lt d1 (WithTop.coe_lt_top _)]
  rw [findNearestScan_cons_of_lt d2 (by
    rw [WithTop.coe_lt_coe]
    nlinarith)]
  rw [findNearestScan_cons_of_lt d3 (by
    rw [WithTop.coe_lt_coe]
    nlinarith)]
  rfl

theorem chainGraph_adj1 : buildAdjacencyList chainGraph 1 = [⟨2, 5⟩] := by
  rw [buildAdjacencyList_apply]
  norm_num [chainGraph]

theorem chainGraph_adj2 : buildAdjacencyList chainGraph 2 = [⟨3, 20⟩] := by
  rw [buildAdjacencyList_apply]
  norm_num [chainGraph]

theorem chainGraph_H13 : heuristicDistance chainGraph 1 3 =
    (((6371 * ((2 - 0) * (Real.pi / 180)) / 50) * 3600 : ℝ) : JsNum) := by
  have g1 : jsGet chainGraph.nodes 1 = some ⟨1, 0, 0⟩ := by simp [chainGraph, jsGet]
  have g3 : jsGet chainGraph.nodes 3 = some ⟨3, 0, 2⟩ := by simp [chainGraph, jsGet]
  have e13 : haversineDistance (0:ℝ) 0 0 2 = 6371 * ((2 - 0) * (Real.pi / 180)) :=
    haversineDistance_equator (by norm_num) (by norm_num)
  unfold heuristicDistance
  rw [g1, g3]
  simp [e13]

theorem chainGraph_H23 : heuristicDistance chainGraph 2 3 =
    (((6371 * ((2 - 1) * (Real.pi / 180)) / 50) * 3600 : ℝ) : JsNum) := by
  have g2 : jsGet chainGraph.nodes 2 = some ⟨2, 0, 1⟩ := by simp [chainGraph, jsGet]
  have g3 : jsGet chainGraph.nodes 3 = some ⟨3, 0, 2⟩ := by simp [chainGraph, jsGet]
  have e23 : haversineDistance (0:ℝ) 1 0 2 = 6371 * ((2 - 1) * (Real.pi / 180)) :=
    haversineDistance_equator (by norm_num) (by norm_num)
  unfold heuristicDistance
  rw [g2, g3]
  simp [e23]

theorem chainGraph_H33 : heuristicDistance chainGraph 3 3 = 0 := by
  have g3 : jsGet chainGraph.nodes 3 = some ⟨3, 0, 2⟩ := by simp [chainGraph, jsGet]
  unfold heuristicDistance
  rw [g3]
  simp [haversineDistance_self]

theorem chainGraph_loop :
    aStarLoop chainGraph (buildAdjacencyList chainGraph) 3 7 6
      (initState chainGraph 1 3) = some [1, 2, 3] := by
  have hpi := Real.pi_pos
  have h13ne : ((6371 * ((2 - 0) * (Real.pi / 180)) / 50) * 3600 : ℝ) ≠ 0 := by nlinarith
  have h23pos : (0:ℝ) < (6371 * ((2 - 1) * (Real.pi / 180)) / 50) * 3600 := by nlinarith
  -- iteration 1: pop the start node 1 and discover node 2
  have hf1 : jsOrInf ((initState chainGraph 1 3).fScore 1) =
      (((6371 * ((2 - 0) * (Real.pi / 180)) / 50) * 3600 : ℝ) : JsNum) := by
    rw [initState_fScore_start, chainGraph_H13, jsOrInf_some_ne (by exact_mod_cast h13ne)]
  have hscan1 : scanMin (initState chainGraph 1 3).fScore [1] (-1, ⊤) =
      (1, (((6371 * ((2 - 0) * (Real.pi / 180)) / 50) * 3600 : ℝ) : JsNum)) := by
    rw [scanMin_cons_lt (by rw [hf1]; exact WithTop.coe_lt_top _), scanMin_nil, hf1]
  rw [show (6:ℕ) = 5 + 1 from rfl,
    aStarLoop_next (aStarStep_next (by rw [initState_openSet]; simp) hscan1
      (by norm_num) (WithTop.coe_ne_top) (by norm_num))]
  rw [initState_openSet, initState_closedSet]
  rw [show setDelete [(1:ℤ)] 1 = [] by simp [setDelete], setAdd_nil]
  rw [chainGraph_adj1]
  rw [relaxNeighbors_cons_discover (by simp) (by simp), relaxNeighbors_nil]
  dsimp only
  rw [initState_gScore_start, jsOrZero_some, zero_add, chainGraph_H23, ← WithTop.coe_add,
    List.nil_append]
  -- iteration 2: pop node 2 and discover node 3
  have hval2ne : ((5 + (6371 * ((2 - 1) * (Real.pi / 180)) / 50) * 3600 : ℝ)) ≠ 0 := by
    nlinarith
  have hf2 : jsOrInf ((mapSet (initState chainGraph 1 3).fScore 2
      (((5 + (6371 * ((2 - 1) * (Real.pi / 180)) / 50) * 3600 : ℝ)) : JsNum)) 2) =
      (((5 + (6371 * ((2 - 1) * (Real.pi / 180)) / 50) * 3600 : ℝ)) : JsNum) := by
    rw [mapSet_eq, jsOrInf_some_ne (by exact_mod_cast hval2ne)]
  have hscan2 : scanMin (mapSet (initState chainGraph 1 3).fScore 2
      (((5 + (6371 * ((2 - 1) * (Real.pi / 180)) / 50) * 3600 : ℝ)) : JsNum)) [2] (-1, ⊤) =
      (2, (((5 + (6371 * ((2 - 1) * (Real.pi / 180)) / 50) * 3600 : ℝ)) : JsNum)) := by
    rw [scanMin_cons_lt (by rw [hf2]; exact WithTop.coe_lt_top _), scanMin_nil, hf2]
  rw [show (5:ℕ) = 4 + 1 from rfl,
    aStarLoop_next (aStarStep_next (by simp) hscan2
      (by norm_num) (WithTop.coe_ne_top) (by norm_num))]
  dsimp only
  rw [show setDelete [(2:ℤ)] 2 = [] by simp [setDelete],
    show setAdd [(1:ℤ)] 2 = [1, 2] by simp [setAdd]]
  rw [chainGraph_adj2]
  rw [relaxNeighbors_cons_discover (by simp) (by simp), relaxNeighbors_nil]
  dsimp only
  rw [mapSet_eq, jsOrZero_some, ← WithTop.coe_add, chainGraph_H33, add_zero]
  rw [show ((5:ℝ) + 20) = 25 by norm_num, List.nil_append]
  -- iteration 3: node 3 is the goal; reconstruct the path
  have hf3 : jsOrInf ((mapSet (mapSet (initState chainGraph 1 3).fScore 2
      (((5 + (6371 * ((2 - 1) * (Real.pi / 180)) / 50) * 3600 : ℝ)) : JsNum)) 3
      ((25:ℝ) : JsNum)) 3) = ((25:ℝ) : JsNum) := by
    rw [mapSet_eq, jsOrInf_some_ne (by exact_mod_cast (by norm_num : (25:ℝ) ≠ 0))]
  have hscan3 : scanMin (mapSet (mapSet (initState chainGraph 1 3).fScore 2
      (((5 + (6371 * ((2 - 1) * (Real.pi / 180)) / 50) * 3600 : ℝ)) : JsNum)) 3
      ((25:ℝ) : JsNum)) [3] (-1, ⊤) = (3, ((25:ℝ) : JsNum)) := by
    rw [scanMin_cons_lt (by rw [hf3]; exact WithTop.coe_lt_top _), scanMin_nil, hf3]
  rw [show (4:ℕ) = 3 + 1 from rfl,
    aStarLoop_found (aStarStep_found (by simp) hscan3 (by norm_num) (WithTop.coe_ne_top) rfl)]
  dsimp only
  rw [show (7:ℕ) = 6 + 1 from rfl, reconstructPath_link (by
    rw [mapSet_eq]
    exact jsOrNull_some_ne (by norm_num))]
  rw [show (6:ℕ) = 5 + 1 from rfl, reconstructPath_link (by
    rw [mapSet_ne _ _ _ (by norm_num : (2:ℤ) ≠ 3), mapSet_eq]
    exact jsOrNull_some_ne (by norm_num))]
  rw [show (5:ℕ) = 4 + 1 from rfl, reconstructPath_stop (by
    rw [mapSet_ne _ _ _ (by norm_num : (1:ℤ) ≠ 3), mapSet_ne _ _ _ (by norm_num : (1:ℤ) ≠ 2),
      initState_previous]
    simp [nodeIdList, chainGraph, jsOrNull])]
  rfl

theorem chainGraph_route :
    calculateRoute chainGraph ⟨0, 0⟩ ⟨0, 2⟩ = .ok [⟨0, 0⟩, ⟨0, 1⟩, ⟨0, 2⟩] := by
  simp only [calculateRoute, calculateRouteFuel, chainGraph_snap_start, chainGraph_snap_end]
  rw [if_neg (by norm_num), if_neg (by norm_num)]
  rw [show searchFuel chainGraph = 6 from rfl, show (6:ℕ) + 1 = 7 from rfl, chainGraph_loop]
  simp [pathToCoords, chainGraph, jsGet]

/-- C2: the weight used by the search is `travel_time` when strictly positive
and `length` otherwise, independently per edge; on the three-node chain with
edges 1→2 (travel_time 5, length 1) and 2→3 (travel_time 0, length 20) the
search finds the path 1, 2, 3, whose total weight is 25. -/
theorem weightPolicy_and_chain :
    (∀ (graph : GraphData) (k : ℤ),
      buildAdjacencyList graph k = (graph.edges.filter (fun e => e.from_ = k)).map
        (fun e => ⟨e.to_, if e.travel_time > 0 then e.travel_time else e.length⟩)) ∧
    aStarLoop chainGraph (buildAdjacencyList chainGraph) 3 7 6 (initState chainGraph 1 3) =
      some [1, 2, 3] ∧
    IsPathCost chainGraph 1 3 [1, 2, 3] 25 ∧
    calculateRoute chainGraph ⟨0, 0⟩ ⟨0, 2⟩ = .ok [⟨0, 0⟩, ⟨0, 1⟩, ⟨0, 2⟩] := by
  refine ⟨buildAdjacencyList_apply, chainGraph_loop, ?_, chainGraph_route⟩
  have hcost : ((0:ℝ) + 5) + 20 = 25 := by norm_num
  rw [← hcost, show ([1, 2, 3] : List ℤ) = ([1] ++ [2]) ++ [3] from rfl]
  exact IsPathCost.cons ⟨3, 20⟩ (by rw [chainGraph_adj2]; simp) rfl
    (IsPathCost.cons ⟨2, 5⟩ (by rw [chainGraph_adj1]; simp) rfl (IsPathCost.single 1))

/-! ## Claim C4: same-node short-circuit -/

theorem jsGet_eq_of_mem {nodes : List (ℤ × GraphNode)} {kn : ℤ × GraphNode}
    (hnd : (nodes.map Prod.fst).Nodup) (hmem : kn ∈ nodes) :
    jsGet nodes kn.1 = some kn.2 := by
  induction nodes with
  | nil => cases hmem
  | cons hd tl ih =>
      obtain ⟨k, v⟩ := hd
      rcases List.mem_cons.mp hmem with heq | hmem'
      · rw [heq]
        simp [jsGet]
      · have hk : k ≠ kn.1 := by
          intro hkk
          have h1 : kn.1 ∈ tl.map Prod.fst := List.mem_map_of_mem Prod.fst hmem'
          have h2 : k ∉ tl.map Prod.fst := by
            have := hnd
            simp only [List.map_cons, List.nodup_cons] at this
            exact this.1
          rw [hkk] at h2
          exact h2 h1
        have hnd' : (tl.map Prod.fst).Nodup := by
          simp only [List.map_cons, List.nodup_cons] at hnd
          exact hnd.2
        simp only [jsGet, if_neg hk]
        exact ih hnd' hmem'

theorem findNearestNode_mem {graph : GraphData} {p : Coordinate} {n : ℤ}
    (h : findNearestNode graph p = n) (hn : n ≠ -1) :
    ∃ kn ∈ graph.nodes, kn.2.id = n := by
  rcases findNearestScan_spec p graph.nodes ⊤ (-1) with ⟨heq, _⟩ | ⟨i, heq, _, _, _⟩
  · exfalso
    apply hn
    rw [← h]
    exact heq
  · refine ⟨graph.nodes.get i, List.get_mem _ _ _, ?_⟩
    rw [← h]
    exact heq.symm

/-- C4 (amended): when both coordinates snap to the same node id distinct from
the `-1` sentinel, the result is exactly the one-element sequence holding that
node's coordinate, for every loop fuel including zero — the A* search loop is
never entered. -/
theorem sameNode_shortCircuit (graph : GraphData) (s e : Coordinate) (n : ℤ)
    (hwf : GraphWF graph)
    (hs : findNearestNode graph s = n) (he : findNearestNode graph e = n) (hn : n ≠ -1) :
    ∃ kn ∈ graph.nodes, kn.1 = n ∧ kn.2.id = n ∧
      (∀ fuel recFuel, calculateRouteFuel fuel recFuel graph s e =
        .ok [Coordinate.mk kn.2.lat kn.2.lon]) ∧
      calculateRoute graph s e = .ok [Coordinate.mk kn.2.lat kn.2.lon] := by
  obtain ⟨kn, hmem, hid⟩ := findNearestNode_mem hs hn
  have hkey : kn.1 = n := by
    rw [← hid]
    exact (hwf.1 kn hmem).symm
  have hget : jsGet graph.nodes n = some kn.2 := by
    rw [← hkey]
    exact jsGet_eq_of_mem hwf.2 hmem
  have hfuel : ∀ fuel recFuel, calculateRouteFuel fuel recFuel graph s e =
      .ok [Coordinate.mk kn.2.lat kn.2.lon] := by
    intro fuel recFuel
    simp only [calculateRouteFuel, hs, he]
    rw [if_neg (by simp [hn])]
    simp only [if_true, hget]
  exact ⟨kn, hmem, hkey, hid, hfuel, hfuel _ _⟩

/-- C4 witness: a single-node graph where both queries snap to node 5. -/
theorem sameNode_shortCircuit_witness :
    GraphWF oneNodeGraph ∧
    findNearestNode oneNodeGraph ⟨0, 0⟩ = 5 ∧
    (∃ kn ∈ oneNodeGraph.nodes, kn.1 = 5 ∧ kn.2.id = 5 ∧
      (∀ fuel recFuel, calculateRouteFuel fuel recFuel oneNodeGraph ⟨0, 0⟩ ⟨0, 0⟩ =
        .ok [Coordinate.mk kn.2.lat kn.2.lon]) ∧
      calculateRoute oneNodeGraph ⟨0, 0⟩ ⟨0, 0⟩ = .ok [Coordinate.mk kn.2.lat kn.2.lon]) := by
  have hwf : GraphWF oneNodeGraph := by
    constructor
    · intro kn hkn
      simp only [oneNodeGraph, List.mem_singleton] at hkn
      rw [hkn]
    · simp [oneNodeGraph]
  have hsnap : findNearestNode oneNodeGraph ⟨0, 0⟩ = 5 := by
    show findNearestScan ⟨0, 0⟩ oneNodeGraph.nodes ⊤ (-1) = 5
    rw [show oneNodeGraph.nodes = [(5, ⟨5, 0, 0⟩)] from rfl]
    rw [findNearestScan_cons_of_lt (haversineDistance_self 0 0) (WithTop.coe_lt_top 0)]
    rfl
  exact ⟨hwf, hsnap,
    sameNode_shortCircuit oneNodeGraph ⟨0, 0⟩ ⟨0, 0⟩ 5 hwf hsnap hsnap (by norm_num)⟩

/-! ## Claim C3: endpoints of a successful route -/

theorem zeroIdGraph_snap_start : findNearestNode zeroIdGraph ⟨0, 0⟩ = 1 := by
  have hpi := Real.pi_pos
  have d0 : haversineDistance (0:ℝ) 0 0 1 = 6371 * ((1 - 0) * (Real.pi / 180)) :=
    haversineDistance_equator (by norm_num) (by norm_num)
  have d1 : haversineDistance (0:ℝ) 0 0 0 = 0 := haversineDistance_self 0 0
  have d2 : haversineDistance (0:ℝ) 0 0 2 = 6371 * ((2 - 0) * (Real.pi / 180)) :=
    haversineDistance_equator (by norm_num) (by norm_num)
  show findNearestScan ⟨0, 0⟩ zeroIdGraph.nodes ⊤ (-1) = 1
  rw [show zeroIdGraph.nodes = [(0, ⟨0, 0, 1⟩), (1, ⟨1, 0, 0⟩), (2, ⟨2, 0, 2⟩)] from rfl]
  rw [findNearestScan_cons_of_lt d0 (WithTop.coe_lt_top _)]
  rw [findNearestScan_cons_of_lt d1 (by
    rw [WithTop.coe_lt_coe]
    nlinarith)]
  rw [findNearestScan_cons_of_ge d2 (by
    rw [WithTop.coe_lt_coe]
    intro hlt
    nlinarith)]
  rfl

theorem zeroIdGraph_snap_end : findNearestNode zeroIdGraph ⟨0, 2⟩ = 2 := by
  have hpi := Real.pi_pos
  have d0 : haversineDistance (0:ℝ) 2 0 1 = 6371 * ((2 - 1) * (Real.pi / 180)) :=
    haversineDistance_equator' (by norm_num) (by norm_num)
  have d1 : haversineDistance (0:ℝ) 2 0 0 = 6371 * ((2 - 0) * (Real.pi / 180)) :=
    haversineDistance_equator' (by norm_num) (by norm_num)
  have d2 : haversineDistance (0:ℝ) 2 0 2 = 0 := haversineDistance_self 0 2
  show findNearestScan ⟨0, 2⟩ zeroIdGraph.nodes ⊤ (-1) = 2
  rw [show zeroIdGraph.nodes = [(0, ⟨0, 0, 1⟩), (1, ⟨1, 0, 0⟩), (2, ⟨2, 0, 2⟩)] from rfl]
  rw [findNearestScan_cons_of_lt d0 (WithTop.coe_lt_top _)]
  rw [findNearestScan_cons_of_ge d1 (by
    rw [WithTop.coe_lt_coe]
    intro hlt
    nlinarith)]
  rw [findNearestScan_cons_of_lt d2 (by
    rw [WithTop.coe_lt_coe]
    nlinarith)]
  rfl

theorem zeroIdGraph_adj1 : buildAdjacencyList zeroIdGraph 1 = [⟨0, 1⟩] := by
  rw [buildAdjacencyList_apply]
  norm_num [zeroIdGraph]

theorem zeroIdGraph_adj0 : buildAdjacencyList zeroIdGraph 0 = [⟨2, 1⟩] := by
  rw [buildAdjacencyList_apply]
  norm_num [zeroIdGraph]

theorem zeroIdGraph_H12 : heuristicDistance zeroIdGraph 1 2 =
    (((6371 * ((2 - 0) * (Real.pi / 180)) / 50) * 3600 : ℝ) : JsNum) := by
  have g1 : jsGet zeroIdGraph.nodes 1 = some ⟨1, 0, 0⟩ := by simp [zeroIdGraph, jsGet]
  have g2 : jsGet zeroIdGraph.nodes 2 = some ⟨2, 0, 2⟩ := by simp [zeroIdGraph, jsGet]
  have e : haversineDistance (0:ℝ) 0 0 2 = 6371 * ((2 - 0) * (Real.pi / 180)) :=
    haversineDistance_equator (by norm_num) (by norm_num)
  unfold heuristicDistance
  rw [g1, g2]
  simp [e]

theorem zeroIdGraph_H02 : heuristicDistance zeroIdGraph 0 2 =
    (((6371 * ((2 - 1) * (Real.pi / 180)) / 50) * 3600 : ℝ) : JsNum) := by
  have g0 : jsGet zeroIdGraph.nodes 0 = some ⟨0, 0, 1⟩ := by simp [zeroIdGraph, jsGet]
  have g2 : jsGet zeroIdGraph.nodes 2 = some ⟨2, 0, 2⟩ := by simp [zeroIdGraph, jsGet]
  have e : haversineDistance (0:ℝ) 1 0 2 = 6371 * ((2 - 1) * (Real.pi / 180)) :=
    haversineDistance_equator (by norm_num) (by norm_num)
  unfold heuristicDistance
  rw [g0, g2]
  simp [e]

theorem zeroIdGraph_H22 : heuristicDistance zeroIdGraph 2 2 = 0 := by
  have g2 : jsGet zeroIdGraph.nodes 2 = some ⟨2, 0, 2⟩ := by simp [zeroIdGraph, jsGet]
  unfold heuristicDistance
  rw [g2]
  simp [haversineDistance_self]

theorem zeroIdGraph_loop :
    aStarLoop zeroIdGraph (buildAdjacencyList zeroIdGraph) 2 7 6
      (initState zeroIdGraph 1 2) = some [2] := by
  have hpi := Real.pi_pos
  have h12ne : ((6371 * ((2 - 0) * (Real.pi / 180)) / 50) * 3600 : ℝ) ≠ 0 := by nlinarith
  have hf1 : jsOrInf ((initState zeroIdGraph 1 2).fScore 1) =
      (((6371 * ((2 - 0) * (Real.pi / 180)) / 50) * 3600 : ℝ) : JsNum) := by
    rw [initState_fScore_start, zeroIdGraph_H12, jsOrInf_some_ne (by exact_mod_cast h12ne)]
  have hscan1 : scanMin (initState zeroIdGraph 1 2).fScore [1] (-1, ⊤) =
      (1, (((6371 * ((2 - 0) * (Real.pi / 180)) / 50) * 3600 : ℝ) : JsNum)) := by
    rw [scanMin_cons_lt (by rw [hf1]; exact WithTop.coe_lt_top _), scanMin_nil, hf1]
  rw [show (6:ℕ) = 5 + 1 from rfl,
    aStarLoop_next (aStarStep_next (by rw [initState_openSet]; simp) hscan1
      (by norm_num) (WithTop.coe_ne_top) (by norm_num))]
  rw [initState_openSet, initState_closedSet]
  rw [show setDelete [(1:ℤ)] 1 = [] by simp [setDelete], setAdd_nil]
  rw [zeroIdGraph_adj1]
  rw [relaxNeighbors_cons_discover (by simp) (by simp), relaxNeighbors_nil]
  dsimp only
  rw [initState_gScore_start, jsOrZero_some, zero_add, zeroIdGraph_H02, ← WithTop.coe_add,
    List.nil_append]
  -- iteration 2: pop node 0, discover node 2
  have hval2ne : ((1 + (6371 * ((2 - 1) * (Real.pi / 180)) / 50) * 3600 : ℝ)) ≠ 0 := by
    nlinarith
  have hf0 : jsOrInf ((mapSet (initState zeroIdGraph 1 2).fScore 0
      (((1 + (6371 * ((2 - 1) * (Real.pi / 180)) / 50) * 3600 : ℝ)) : JsNum)) 0) =
      (((1 + (6371 * ((2 - 1) * (Real.pi / 180)) / 50) * 3600 : ℝ)) : JsNum) := by
    rw [mapSet_eq, jsOrInf_some_ne (by exact_mod_cast hval2ne)]
  have hscan2 : scanMin (mapSet (initState zeroIdGraph 1 2).fScore 0
      (((1 + (6371 * ((2 - 1) * (Real.pi / 180)) / 50) * 3600 : ℝ)) : JsNum)) [0] (-1, ⊤) =
      (0, (((1 + (6371 * ((2 - 1) * (Real.pi / 180)) / 50) * 3600 : ℝ)) : JsNum)) := by
    rw [scanMin_cons_lt (by rw [hf0]; exact WithTop.coe_lt_top _), scanMin_nil, hf0]
  rw [show (5:ℕ) = 4 + 1 from rfl,
    aStarLoop_next (aStarStep_next (by simp) hscan2
      (by norm_num) (WithTop.coe_ne_top) (by norm_num))]
  dsimp only
  rw [show setDelete [(0:ℤ)] 0 = [] by simp [setDelete],
    show setAdd [(1:ℤ)] 0 = [1, 0] by simp [setAdd]]
  rw [zeroIdGraph_adj0]
  rw [relaxNeighbors_cons_discover (by simp) (by simp), relaxNeighbors_nil]
  dsimp only
  rw [mapSet_eq, jsOrZero_some, ← WithTop.coe_add, zeroIdGraph_H22, add_zero]
  rw [show ((1:ℝ) + 1) = 2 by norm_num, List.nil_append]
  -- iteration 3: node 2 is the goal; reconstruction truncates at predecessor 0
  have hf2 : jsOrInf ((mapSet (mapSet (initState zeroIdGraph 1 2).fScore 0
      (((1 + (6371 * ((2 - 1) * (Real.pi / 180)) / 50) * 3600 : ℝ)) : JsNum)) 2
      ((2:ℝ) : JsNum)) 2) = ((2:ℝ) : JsNum) := by
    rw [mapSet_eq, jsOrInf_some_ne (by exact_mod_cast (by norm_num : (2:ℝ) ≠ 0))]
  have hscan3 : scanMin (mapSet (mapSet (initState zeroIdGraph 1 2).fScore 0
      (((1 + (6371 * ((2 - 1) * (Real.pi / 180)) / 50) * 3600 : ℝ)) : JsNum)) 2
      ((2:ℝ) : JsNum)) [2] (-1, ⊤) = (2, ((2:ℝ) : JsNum)) := by
    rw [scanMin_cons_lt (by rw [hf2]; exact WithTop.coe_lt_top _), scanMin_nil, hf2]
  rw [show (4:ℕ) = 3 + 1 from rfl,
    aStarLoop_found (aStarStep_found (by simp) hscan3 (by norm_num) (WithTop.coe_ne_top) rfl)]
  dsimp only
  rw [show (7:ℕ) = 6 + 1 from rfl, reconstructPath_stop (by
    rw [mapSet_eq]
    exact jsOrNull_some_zero)]

theorem zeroIdGraph_route :
    calculateRoute zeroIdGraph ⟨0, 0⟩ ⟨0, 2⟩ = .ok [⟨0, 2⟩] := by
  simp only [calculateRoute, calculateRouteFuel, zeroIdGraph_snap_start, zeroIdGraph_snap_end]
  rw [if_neg (by norm_num), if_neg (by norm_num)]
  rw [show searchFuel zeroIdGraph = 6 from rfl, show (6:ℕ) + 1 = 7 from rfl, zeroIdGraph_loop]
  simp [pathToCoords, zeroIdGraph, jsGet]

/-- C3 counterexample: on `zeroIdGraph` the route passes through the node with
id `0`; the reconstruction reads its falsy predecessor entry as `null` and
truncates, so the successful result's first entry is the coordinate of the
snapped end node, not of the snapped start node (which sits at `(0, 0)`). -/
theorem routeEndpoints_counterexample :
    findNearestNode zeroIdGraph ⟨0, 0⟩ = 1 ∧
    jsGet zeroIdGraph.nodes 1 = some ⟨1, 0, 0⟩ ∧
    calculateRoute zeroIdGraph ⟨0, 0⟩ ⟨0, 2⟩ = .ok [⟨0, 2⟩] ∧
    (⟨0, 2⟩ : Coordinate) ≠ (⟨0, 0⟩ : Coordinate) := by
  refine ⟨zeroIdGraph_snap_start, by simp [zeroIdGraph, jsGet], zeroIdGraph_route, ?_⟩
  intro h
  have := congrArg Coordinate.lon h
  norm_num at this

/-! ## Generic facts about the scan, relaxation and chains -/

theorem scanMin_result (f : ℤ → Option JsNum) :
    ∀ (l : List ℤ) (acc : ℤ × JsNum),
      (scanMin f l acc = acc ∧ ∀ n ∈ l, ¬ jsOrInf (f n) < acc.2) ∨
      ((scanMin f l acc).1 ∈ l ∧
        (scanMin f l acc).2 = jsOrInf (f ((scanMin f l acc).1)) ∧
        (scanMin f l acc).2 < acc.2 ∧
        ∀ n ∈ l, ¬ jsOrInf (f n) < (scanMin f l acc).2) := by
  intro l
  induction l with
  | nil =>
      intro acc
      left
      exact ⟨rfl, by simp⟩
  | cons x rest ih =>
      intro acc
      by_cases hx : jsOrInf (f x) < acc.2
      · rw [scanMin_cons_lt hx]
        rcases ih (x, jsOrInf (f x)) with ⟨heq, hall⟩ | ⟨hmem, hval, hlt, hall⟩
        · right
          rw [heq]
          refine ⟨List.mem_cons_self x rest, rfl, hx, ?_⟩
          intro n hn
          rcases List.mem_cons.mp hn with rfl | hn'
          · exact lt_irrefl _
          · exact hall n hn'
        · right
          refine ⟨List.mem_cons_of_mem x hmem, hval, lt_trans hlt hx, ?_⟩
          intro n hn
          rcases List.mem_cons.mp hn with rfl | hn'
          · intro hcon
            exact lt_irrefl _ (lt_trans hcon hlt)
          · exact hall n hn'
      · rw [scanMin_cons_ge hx]
        rcases ih acc with ⟨heq, hall⟩ | ⟨hmem, hval, hlt, hall⟩
        · left
          refine ⟨heq, ?_⟩
          intro n hn
          rcases List.mem_cons.mp hn with rfl | hn'
          · exact hx
          · exact hall n hn'
        · right
          refine ⟨List.mem_cons_of_mem x hmem, hval, hlt, ?_⟩
          intro n hn
          rcases List.mem_cons.mp hn with rfl | hn'
          · intro hcon
            exact hx (lt_trans hcon hlt)
          · exact hall n hn'

theorem aStarStep_next_inv {graph : GraphData} {adj : ℤ → List AdjEntry} {endNode : ℤ}
    {recFuel : ℕ} {st st' : AState}
    (h : aStarStep graph adj endNode recFuel st = .next st') :
    st.openSet ≠ [] ∧
    ∃ c m, scanMin st.fScore st.openSet (-1, ⊤) = (c, m) ∧ c ≠ -1 ∧ m ≠ ⊤ ∧ c ≠ endNode ∧
      st' = relaxNeighbors graph endNode c (adj c)
        { st with openSet := setDelete st.openSet c
                  closedSet := setAdd st.closedSet c } := by
  by_cases he : st.openSet = []
  · rw [aStarStep_empty he] at h
    cases h
  · refine ⟨he, ?_⟩
    rcases hsc : scanMin st.fScore st.openSet (-1, ⊤) with ⟨c, m⟩
    by_cases hbr : c = -1 ∨ m = ⊤
    · rw [aStarStep_break hsc hbr] at h
      cases h
    · push_neg at hbr
      by_cases hgoal : c = endNode
      · rw [aStarStep_found he hsc hbr.1 hbr.2 hgoal] at h
        cases h
      · rw [aStarStep_next he hsc hbr.1 hbr.2 hgoal] at h
        cases h
        exact ⟨c, m, rfl, hbr.1, hbr.2, hgoal, rfl⟩

theorem aStarStep_found_inv {graph : GraphData} {adj : ℤ → List AdjEntry} {endNode : ℤ}
    {recFuel : ℕ} {st : AState} {p : List ℤ}
    (h : aStarStep graph adj endNode recFuel st = .found p) :
    st.openSet ≠ [] ∧
    ∃ c m, scanMin st.fScore st.openSet (-1, ⊤) = (c, m) ∧ c ≠ -1 ∧ m ≠ ⊤ ∧ c = endNode ∧
      p = reconstructPath st.previous recFuel endNode := by
  by_cases he : st.openSet = []
  · rw [aStarStep_empty he] at h
    cases h
  · refine ⟨he, ?_⟩
    rcases hsc : scanMin st.fScore st.openSet (-1, ⊤) with ⟨c, m⟩
    by_cases hbr : c = -1 ∨ m = ⊤
    · rw [aStarStep_break hsc hbr] at h
      cases h
    · push_neg at hbr
      by_cases hgoal : c = endNode
      · rw [aStarStep_found he hsc hbr.1 hbr.2 hgoal] at h
        cases h
        exact ⟨c, m, rfl, hbr.1, hbr.2, hgoal, rfl⟩
      · rw [aStarStep_next he hsc hbr.1 hbr.2 hgoal] at h
        cases h

theorem scanMin_pop {f : ℤ → Option JsNum} {l : List ℤ} {c : ℤ} {m : JsNum}
    (hsc : scanMin f l (-1, ⊤) = (c, m)) (hc : c ≠ -1) :
    c ∈ l ∧ m = jsOrInf (f c) ∧ ∀ n ∈ l, m ≤ jsOrInf (f n) := by
  rcases scanMin_result f l (-1, ⊤) with ⟨heq, _⟩ | ⟨hmem, hval, _, hall⟩
  · rw [heq] at hsc
    exact absurd (congrArg Prod.fst hsc).symm hc
  · rw [hsc] at hmem hval hall
    exact ⟨hmem, hval, fun n hn => not_lt.mp (hall n hn)⟩

theorem relaxNeighbors_closedSet (graph : GraphData) (endNode currentNode : ℤ) :
    ∀ (l : List AdjEntry) (st : AState),
      (relaxNeighbors graph endNode currentNode l st).closedSet = st.closedSet := by
  intro l
  induction l with
  | nil => intro st; rfl
  | cons nb rest ih =>
      intro st
      obtain ⟨nbnode, nbweight⟩ := nb
      by_cases h1 : nbnode ∈ st.closedSet
      · rw [relaxNeighbors_cons_closed h1]
        exact ih st
      · by_cases h2 : nbnode ∈ st.openSet ∧
          jsOrInf (st.gScore nbnode) ≤ jsOrZero (st.gScore currentNode) + (nbweight : JsNum)
        · rw [relaxNeighbors_cons_skip h1 h2.1 h2.2]
          exact ih st
        · rw [relaxNeighbors_cons_update h1 h2]
          exact ih _

theorem adjEntry_to_mem {graph : GraphData} {k : ℤ} {entry : AdjEntry}
    (h : entry ∈ buildAdjacencyList graph k) :
    entry.node ∈ graph.edges.map (fun e => e.to_) := by
  rw [buildAdjacencyList_apply] at h
  rcases List.mem_map.mp h with ⟨e, hmem, heq⟩
  rcases List.mem_filter.mp hmem with ⟨he, _⟩
  rw [← heq]
  exact List.mem_map_of_mem _ he

theorem PrevChain_mapSet {previous : ℤ → Option (Option ℤ)} {n q : ℤ} {P : List ℤ}
    {v : Option ℤ} (h : PrevChain previous n P) (hq : q ∉ P) :
    PrevChain (mapSet previous q v) n P := by
  induction h with
  | stop n hn =>
      refine PrevChain.stop n ?_
      rw [mapSet_ne _ _ _ (by intro hnq; exact hq (by simp [hnq]))]
      exact hn
  | link n p P hn hp ih =>
      refine PrevChain.link n p P ?_ (ih (fun hx => hq (List.mem_append_left _ hx)))
      rw [mapSet_ne _ _ _ (fun hnq => hq (by rw [hnq]; exact List.mem_append_right _ (by simp)))]
      exact hn

theorem PrevChain_ne_nil {previous : ℤ → Option (Option ℤ)} {n : ℤ} {P : List ℤ}
    (h : PrevChain previous n P) : P ≠ [] := by
  cases h with
  | stop _ _ => simp
  | link _ _ _ _ _ => simp

theorem reconstructPath_eq_chain {previous : ℤ → Option (Option ℤ)} {n : ℤ} {P : List ℤ}
    (h : PrevChain previous n P) :
    ∀ fuel : ℕ, P.length ≤ fuel + 1 → reconstructPath previous fuel n = P := by
  induction h with
  | stop n hn =>
      intro fuel _
      cases fuel with
      | zero => rfl
      | succ f => exact reconstructPath_stop hn
  | link n p P hn hp ih =>
      intro fuel hlen
      cases fuel with
      | zero =>
          exfalso
          have := PrevChain_ne_nil hp
          have h1 : 1 ≤ P.length := List.length_pos.mpr this
          simp only [List.length_append, List.length_singleton] at hlen
          omega
      | succ f =>
          rw [reconstructPath_link hn, ih f (by
            have := PrevChain_ne_nil hp
            simp only [List.length_append, List.length_singleton] at hlen
            omega)]

theorem IsPathCost_head {graph : GraphData} {u v : ℤ} {P : List ℤ} {c : ℝ}
    (h : IsPathCost graph u v P c) : ∃ Q, P = u :: Q := by
  induction h with
  | single => exact ⟨[], rfl⟩
  | cons entry hmem hnode hp ih =>
      rcases ih with ⟨Q, hQ⟩
      subst hQ
      exact ⟨_, rfl⟩

theorem IsPathCost_last {graph : GraphData} {u v : ℤ} {P : List ℤ} {c : ℝ}
    (h : IsPathCost graph u v P c) : ∃ Q, P = Q ++ [v] := by
  cases h with
  | single => exact ⟨[], rfl⟩
  | cons entry hmem hnode hp => exact ⟨_, rfl⟩

theorem relax_preserves {graph : GraphData} {a b c : ℤ}
    (hz : (0:ℤ) ∉ candidateIds graph a) :
    ∀ (l : List AdjEntry) (stM : AState),
      (∀ e ∈ l, e ∈ buildAdjacencyList graph c) →
      SetInv graph a stM →
      ChainInv graph a b stM →
      stM.closedSet ≠ [] →
      c ∈ stM.closedSet →
      SetInv graph a (relaxNeighbors graph b c l stM) ∧
      ChainInv graph a b (relaxNeighbors graph b c l stM) := by
  intro l
  induction l with
  | nil =>
      intro stM _ hset hchain _ _
      exact ⟨hset, hchain⟩
  | cons nb rest ih =>
      intro stM hmem hset hchain hne hc
      obtain ⟨nbnode, nbweight⟩ := nb
      by_cases h1 : nbnode ∈ stM.closedSet
      · rw [relaxNeighbors_cons_closed h1]
        exact ih stM (fun e he => hmem e (List.mem_cons_of_mem _ he)) hset hchain hne hc
      · by_cases h2 : nbnode ∈ stM.openSet ∧
          jsOrInf (stM.gScore nbnode) ≤ jsOrZero (stM.gScore c) + (nbweight : JsNum)
        · rw [relaxNeighbors_cons_skip h1 h2.1 h2.2]
          exact ih stM (fun e he => hmem e (List.mem_cons_of_mem _ he)) hset hchain hne hc
        · rw [relaxNeighbors_cons_update h1 h2]
          have hcand : nbnode ∈ candidateIds graph a := by
            have := adjEntry_to_mem (hmem ⟨nbnode, nbweight⟩ (List.mem_cons_self _ _))
            exact List.mem_cons_of_mem _ this
          have hstarta : a ∈ stM.closedSet := hset.start_closed hne
          have hanb : a ≠ nbnode := fun h => h1 (h ▸ hstarta)
          -- the invariant entry of the current node c
          obtain ⟨gc, Pc, hgc, hfc, hPc, hcostc, hsubc, hlenc, _⟩ :=
            hchain.2 c (Or.inr hc)
          have hPcclosed : ∀ x ∈ Pc, x ∈ stM.closedSet := by
            intro x hx
            by_cases hxc : x = c
            · rw [hxc]; exact hc
            · exact hsubc x hx hxc
          have hnbPc : nbnode ∉ Pc := fun hx => h1 (hPcclosed nbnode hx)
          have hc0 : c ≠ 0 := by
            intro hc0
            exact hz (hc0 ▸ hset.closed_sub c hc)
          have hv : jsOrZero (stM.gScore c) + (nbweight : JsNum) =
              (((gc + nbweight : ℝ)) : JsNum) := by
            rw [hgc, jsOrZero_some, WithTop.coe_add]
          refine ih _ (fun e he => hmem e (List.mem_cons_of_mem _ he)) ?_ ?_ hne hc
          · -- SetInv of the updated state
            constructor
            · by_cases hopen : nbnode ∈ stM.openSet
              · simpa [hopen] using hset.open_nodup
              · dsimp only
                rw [if_neg hopen]
                exact List.Nodup.append hset.open_nodup (by simp)
                  (fun x hx1 hx2 => hopen ((List.mem_singleton.mp hx2) ▸ hx1))
            · exact hset.closed_nodup
            · intro n hn
              dsimp only at hn ⊢
              by_cases hopen : nbnode ∈ stM.openSet
              · rw [if_pos hopen] at hn
                exact hset.disj n hn
              · rw [if_neg hopen] at hn
                rcases List.mem_append.mp hn with hn' | hn'
                · exact hset.disj n hn'
                · rw [List.mem_singleton.mp hn']
                  exact h1
            · intro n hn
              dsimp only at hn
              by_cases hopen : nbnode ∈ stM.openSet
              · rw [if_pos hopen] at hn
                exact hset.open_sub n hn
              · rw [if_neg hopen] at hn
                rcases List.mem_append.mp hn with hn' | hn'
                · exact hset.open_sub n hn'
                · rw [List.mem_singleton.mp hn']
                  exact hcand
            · exact hset.closed_sub
            · intro hcl
              exact absurd hcl hne
            · intro _
              exact hstarta
          · -- ChainInv of the updated state
            refine ⟨⟨?_, ?_⟩, ?_⟩
            · dsimp only
              rw [mapSet_ne _ _ _ hanb]
              exact hchain.1.1
            · dsimp only
              rw [mapSet_ne _ _ _ hanb]
              exact hchain.1.2
            · intro n hn
              dsimp only at hn ⊢
              by_cases hnnb : n = nbnode
              · subst hnnb
                refine ⟨gc + nbweight, Pc ++ [n], ?_, ?_, ?_, ?_, ?_, ?_, ?_⟩
                · rw [mapSet_eq, hv]
                · rw [mapSet_eq, hv]
                · refine PrevChain.link n c Pc ?_ (PrevChain_mapSet hPc hnbPc)
                  rw [mapSet_eq]
                  exact jsOrNull_some_ne hc0
                · exact IsPathCost.cons ⟨n, nbweight⟩
                    (hmem ⟨n, nbweight⟩ (List.mem_cons_self _ _)) rfl hcostc
                · intro x hx hxn
                  rcases List.mem_append.mp hx with hx' | hx'
                  · exact hPcclosed x hx'
                  · exact absurd (List.mem_singleton.mp hx') hxn
                · intro hcl
                  exact absurd hcl h1
                · have hPclen : Pc.length ≤ stM.closedSet.length := hlenc hc
                  simp only [List.length_append, List.length_singleton]
                  omega
              · have hn' : n ∈ stM.openSet ∨ n ∈ stM.closedSet := by
                  rcases hn with hn | hn
                  · left
                    by_cases hopen : nbnode ∈ stM.openSet
                    · rwa [if_pos hopen] at hn
                    · rw [if_neg hopen] at hn
                      rcases List.mem_append.mp hn with hn' | hn'
                      · exact hn'
                      · exact absurd (List.mem_singleton.mp hn') hnnb
                  · exact Or.inr hn
                obtain ⟨gv, P, hg, hf, hP, hcost, hsub, hlen0, hlen1⟩ := hchain.2 n hn'
                have hnbP : nbnode ∉ P := by
                  intro hx
                  by_cases hxn : nbnode = n
                  · exact hnnb hxn.symm
                  · exact h1 (hsub nbnode hx hxn)
                exact ⟨gv, P, by rw [mapSet_ne _ _ _ hnnb]; exact hg,
                  by rw [mapSet_ne _ _ _ hnnb]; exact hf,
                  PrevChain_mapSet hP hnbP, hcost, hsub, hlen0, hlen1⟩

/-! ## Preservation of the structural invariants across one loop iteration -/

theorem setDelete_nodup {s : List ℤ} {n : ℤ} (h : s.Nodup) : (setDelete s n).Nodup :=
  h.filter _

theorem mem_setDelete {s : List ℤ} {n x : ℤ} : x ∈ setDelete s n ↔ x ∈ s ∧ x ≠ n := by
  simp [setDelete]

theorem setAdd_not_mem {s : List ℤ} {n : ℤ} (h : n ∉ s) : setAdd s n = s ++ [n] := by
  rw [setAdd, if_neg h]

theorem step_preserves {graph : GraphData} {a b : ℤ} {recFuel : ℕ} {st st' : AState}
    (hz : (0:ℤ) ∉ candidateIds graph a)
    (hset : SetInv graph a st) (hchain : ChainInv graph a b st)
    (h : aStarStep graph (buildAdjacencyList graph) b recFuel st = .next st') :
    SetInv graph a st' ∧ ChainInv graph a b st' ∧
    ∃ c ∈ st.openSet, st'.closedSet = st.closedSet ++ [c] := by
  obtain ⟨hne, c, m, hsc, hc1, hm, hcb, hst'⟩ := aStarStep_next_inv h
  obtain ⟨hcopen, hmval, hmmin⟩ := scanMin_pop hsc hc1
  have hccl : c ∉ st.closedSet := hset.disj c hcopen
  have hadd : setAdd st.closedSet c = st.closedSet ++ [c] := setAdd_not_mem hccl
  have hsetM : SetInv graph a
      { st with openSet := setDelete st.openSet c, closedSet := setAdd st.closedSet c } := by
    constructor
    · exact setDelete_nodup hset.open_nodup
    · dsimp only
      rw [hadd]
      exact List.Nodup.append hset.closed_nodup (by simp)
        (fun x hx1 hx2 => hccl ((List.mem_singleton.mp hx2) ▸ hx1))
    · intro n hn
      dsimp only at hn ⊢
      rw [hadd]
      rcases mem_setDelete.mp hn with ⟨hno, hnc⟩
      intro hmem
      rcases List.mem_append.mp hmem with h' | h'
      · exact hset.disj n hno h'
      · exact hnc (List.mem_singleton.mp h')
    · intro n hn
      exact hset.open_sub n (mem_setDelete.mp hn).1
    · intro n hn
      dsimp only at hn
      rw [hadd] at hn
      rcases List.mem_append.mp hn with h' | h'
      · exact hset.closed_sub n h'
      · rw [List.mem_singleton.mp h']
        exact hset.open_sub c hcopen
    · intro habs
      dsimp only at habs
      rw [hadd] at habs
      exact absurd habs (by simp)
    · intro _
      dsimp only
      rw [hadd]
      by_cases hcl : st.closedSet = []
      · have hopen : st.openSet = [a] := hset.start_first hcl
        have : c = a := List.mem_singleton.mp (hopen ▸ hcopen)
        rw [this]
        exact List.mem_append_right _ (by simp)
      · exact List.mem_append_left _ (hset.start_closed hcl)
  have hchainM : ChainInv graph a b
      { st with openSet := setDelete st.openSet c, closedSet := setAdd st.closedSet c } := by
    refine ⟨hchain.1, ?_⟩
    intro n hn
    dsimp only at hn ⊢
    have hn' : n ∈ st.openSet ∨ n ∈ st.closedSet := by
      rcases hn with hn | hn
      · exact Or.inl (mem_setDelete.mp hn).1
      · rw [hadd] at hn
        rcases List.mem_append.mp hn with h' | h'
        · exact Or.inr h'
        · exact Or.inl ((List.mem_singleton.mp h') ▸ hcopen)
    obtain ⟨gv, P, hg, hf, hP, hcost, hsub, hlen0, hlen1⟩ := hchain.2 n hn'
    refine ⟨gv, P, hg, hf, hP, hcost, ?_, ?_, ?_⟩
    · intro x hx hxn
      rw [hadd]
      exact List.mem_append_left _ (hsub x hx hxn)
    · intro _
      rw [hadd]
      simp only [List.length_append, List.length_singleton]
      omega
    · rw [hadd]
      simp only [List.length_append, List.length_singleton]
      omega
  have hkey := relax_preserves hz (buildAdjacencyList graph c)
    { st with openSet := setDelete st.openSet c, closedSet := setAdd st.closedSet c }
    (fun e he => he) hsetM hchainM
    (by dsimp only; rw [hadd]; simp)
    (by dsimp only; rw [hadd]; exact List.mem_append_right _ (by simp))
  rw [hst']
  refine ⟨hkey.1, hkey.2, c, hcopen, ?_⟩
  rw [relaxNeighbors_closedSet]
  dsimp only
  exact hadd

theorem initState_SetInv (graph : GraphData) (a b : ℤ) :
    SetInv graph a (initState graph a b) := by
  constructor
  · rw [initState_openSet]
    simp
  · rw [initState_closedSet]
    exact List.nodup_nil
  · intro n hn
    rw [initState_closedSet]
    simp
  · intro n hn
    rw [initState_openSet] at hn
    rw [List.mem_singleton.mp hn]
    exact List.mem_cons_self _ _
  · intro n hn
    rw [initState_closedSet] at hn
    cases hn
  · intro _
    exact initState_openSet graph a b
  · intro habs
    exact absurd (initState_closedSet graph a b) habs

theorem initState_ChainInv (graph : GraphData) (a b : ℤ) (ha : a ∈ nodeIdList graph) :
    ChainInv graph a b (initState graph a b) := by
  have hprev : (initState graph a b).previous a = some none := by
    rw [initState_previous, if_pos ha]
  refine ⟨⟨initState_gScore_start graph a b, hprev⟩, ?_⟩
  intro n hn
  rw [initState_openSet, initState_closedSet] at hn
  have hna : n = a := by
    rcases hn with hn | hn
    · exact List.mem_singleton.mp hn
    · cases hn
  subst hna
  refine ⟨0, [n], ?_, ?_, ?_, IsPathCost.single n, ?_, ?_, ?_⟩
  · rw [initState_gScore_start]
    norm_num
  · rw [initState_fScore_start]
    norm_num
  · exact PrevChain.stop n (by rw [hprev]; rfl)
  · intro x hx hxn
    exact absurd (List.mem_singleton.mp hx) hxn
  · intro hmem
    rw [initState_closedSet] at hmem
    cases hmem
  · rw [initState_closedSet]
    simp

theorem candidateIds_length (graph : GraphData) (a : ℤ) :
    (candidateIds graph a).length = graph.edges.length + 1 := by
  simp [candidateIds]

theorem closed_length_le {graph : GraphData} {a : ℤ} {st : AState}
    (hset : SetInv graph a st) : st.closedSet.length ≤ graph.edges.length + 1 := by
  have := (List.Nodup.subperm hset.closed_nodup
    (fun x hx => hset.closed_sub x hx)).length_le
  rw [candidateIds_length] at this
  exact this

theorem aStarLoop_success {graph : GraphData} {a b : ℤ} {recFuel : ℕ}
    (hz : (0:ℤ) ∉ candidateIds graph a)
    (hrec : graph.edges.length + 2 ≤ recFuel + 1) :
    ∀ (fuel : ℕ) (st : AState) (p : List ℤ),
      SetInv graph a st → ChainInv graph a b st →
      aStarLoop graph (buildAdjacencyList graph) b recFuel fuel st = some p →
      ∃ gv, IsPathCost graph a b p gv := by
  intro fuel
  induction fuel with
  | zero =>
      intro st p _ _ h
      simp [aStarLoop] at h
  | succ fuel ih =>
      intro st p hset hchain h
      cases hrw : aStarStep graph (buildAdjacencyList graph) b recFuel st with
      | found path =>
          rw [aStarLoop_found hrw] at h
          obtain ⟨hne, c, m, hsc, hc1, hm, hcb, hpath⟩ := aStarStep_found_inv hrw
          subst hcb
          obtain ⟨hcopen, _, _⟩ := scanMin_pop hsc hc1
          obtain ⟨gv, P, hg, hf, hP, hcost, hsub, hlen0, hlen1⟩ := hchain.2 c (Or.inl hcopen)
          have hlen : P.length ≤ recFuel + 1 := by
            have h1 := closed_length_le hset
            omega
          have hrec' : reconstructPath st.previous recFuel c = P :=
            reconstructPath_eq_chain hP recFuel hlen
          have hpP : p = P := by
            rw [← Option.some_inj.mp h, hpath, hrec']
          rw [hpP]
          exact ⟨gv, hcost⟩
      | noPath =>
          rw [aStarLoop_noPath hrw] at h
          cases h
      | next st2 =>
          rw [aStarLoop_next hrw] at h
          obtain ⟨hset', hchain', _⟩ := step_preserves hz hset hchain hrw
          exact ih st2 p hset' hchain' h

theorem jsGet_mem {nodes : List (ℤ × GraphNode)} {k : ℤ} {v : GraphNode}
    (h : jsGet nodes k = some v) : ∃ kn ∈ nodes, kn.2 = v := by
  induction nodes with
  | nil => cases h
  | cons hd tl ih =>
      obtain ⟨k', nd⟩ := hd
      by_cases hk : k' = k
      · refine ⟨(k', nd), List.mem_cons_self _ _, ?_⟩
        simp only [jsGet, if_pos hk] at h
        exact Option.some_inj.mp h
      · simp only [jsGet, if_neg hk] at h
        obtain ⟨kn, hkn, hv⟩ := ih h
        exact ⟨kn, List.mem_cons_of_mem _ hkn, hv⟩

/-- C3 (amended): when the node mapping is well-formed and no candidate node id
is `0`, a successful route starts at the snapped start node's coordinate, ends
at the snapped end node's coordinate, and every entry is the position of some
node of the mapping. -/
theorem routeEndpoints_amended {graph : GraphData} {s e : Coordinate}
    {route : List Coordinate}
    (hwf : GraphWF graph)
    (hz : (0:ℤ) ∉ candidateIds graph (findNearestNode graph s))
    (hok : calculateRoute graph s e = .ok route) :
    (∃ nodeA, jsGet graph.nodes (findNearestNode graph s) = some nodeA ∧
        route.head? = some (Coordinate.mk nodeA.lat nodeA.lon)) ∧
    (∃ nodeB, jsGet graph.nodes (findNearestNode graph e) = some nodeB ∧
        route.getLast? = some (Coordinate.mk nodeB.lat nodeB.lon)) ∧
    (∀ coord ∈ route, ∃ kn ∈ graph.nodes, coord = Coordinate.mk kn.2.lat kn.2.lon) := by
  simp only [calculateRoute, calculateRouteFuel] at hok
  by_cases hguard : findNearestNode graph s = -1 ∨ findNearestNode graph e = -1
  · rw [if_pos hguard] at hok
    cases hok
  · rw [if_neg hguard] at hok
    push_neg at hguard
    obtain ⟨knA, hknA, hidA⟩ := findNearestNode_mem rfl hguard.1
    obtain ⟨knB, hknB, hidB⟩ := findNearestNode_mem rfl hguard.2
    have hgetA : jsGet graph.nodes (findNearestNode graph s) = some knA.2 := by
      rw [← hidA, hwf.1 knA hknA]
      exact jsGet_eq_of_mem hwf.2 hknA
    have hgetB : jsGet graph.nodes (findNearestNode graph e) = some knB.2 := by
      rw [← hidB, hwf.1 knB hknB]
      exact jsGet_eq_of_mem hwf.2 hknB
    by_cases hsame : findNearestNode graph s = findNearestNode graph e
    · rw [if_pos hsame] at hok
      rw [hsame, hgetB] at hok
      have hroute' : route = [Coordinate.mk knB.2.lat knB.2.lon] := by
        cases hok
        rfl
      refine ⟨⟨knB.2, by rw [hsame]; exact hgetB, by rw [hroute']; rfl⟩,
        ⟨knB.2, hgetB, by rw [hroute']; rfl⟩, ?_⟩
      intro coord hcoord
      rw [hroute'] at hcoord
      rcases List.mem_singleton.mp hcoord with rfl
      exact ⟨knB, hknB, rfl⟩
    · rw [if_neg hsame] at hok
      cases hloop : aStarLoop graph (buildAdjacencyList graph)
          (findNearestNode graph e) (searchFuel graph + 1) (searchFuel graph)
          (initState graph (findNearestNode graph s) (findNearestNode graph e)) with
      | none =>
          rw [hloop] at hok
          cases hok
      | some p =>
          rw [hloop] at hok
          have hroute : route = pathToCoords graph p := by
            cases hok
            rfl
          have hamem : findNearestNode graph s ∈ nodeIdList graph :=
            List.mem_map.mpr ⟨knA, hknA, hidA⟩
          obtain ⟨gv, hcost⟩ := aStarLoop_success hz
            (by rw [searchFuel_succ]; omega) (searchFuel graph) _ p
            (initState_SetInv graph _ _) (initState_ChainInv graph _ _ hamem) hloop
          obtain ⟨Q, hQ⟩ := IsPathCost_head hcost
          obtain ⟨Q', hQ'⟩ := IsPathCost_last hcost
          refine ⟨⟨knA.2, hgetA, ?_⟩, ⟨knB.2, hgetB, ?_⟩, ?_⟩
          · rw [hroute, hQ]
            simp [pathToCoords, List.filterMap_cons, hgetA]
          · rw [hroute, hQ']
            simp only [pathToCoords, List.filterMap_append]
            rw [show List.filterMap (fun nodeId => (jsGet graph.nodes nodeId).map
                (fun node => Coordinate.mk node.lat node.lon)) [findNearestNode graph e] =
              [Coordinate.mk knB.2.lat knB.2.lon] by simp [List.filterMap_cons, hgetB]]
            exact List.getLast?_concat _
          · intro coord hcoord
            rw [hroute] at hcoord
            simp only [pathToCoords, List.mem_filterMap] at hcoord
            obtain ⟨nodeId, _, hmap⟩ := hcoord
            rcases Option.map_eq_some'.mp hmap with ⟨nd, hget, hcoordEq⟩
            obtain ⟨kn, hkn, hv⟩ := jsGet_mem hget
            exact ⟨kn, hkn, by rw [← hcoordEq, hv]⟩

/-! ## The consistent two-node graph: snap, adjacency, heuristic and full run -/

theorem consGraph_wf : GraphWF consGraph := by
  constructor
  · intro kn hkn
    simp only [consGraph, List.mem_cons, List.not_mem_nil, or_false] at hkn
    rcases hkn with rfl | rfl <;> rfl
  · simp [consGraph]

theorem consGraph_snap_start : findNearestNode consGraph ⟨0, 0⟩ = 1 := by
  have hpi := Real.pi_pos
  have d1 : haversineDistance (0:ℝ) 0 0 0 = 0 := haversineDistance_self 0 0
  have d2 : haversineDistance (0:ℝ) 0 0 1 = 6371 * ((1 - 0) * (Real.pi / 180)) :=
    haversineDistance_equator (by norm_num) (by norm_num)
  show findNearestScan ⟨0, 0⟩ consGraph.nodes ⊤ (-1) = 1
  rw [show consGraph.nodes = [(1, ⟨1, 0, 0⟩), (2, ⟨2, 0, 1⟩)] from rfl]
  rw [findNearestScan_cons_of_lt d1 (WithTop.coe_lt_top 0)]
  rw [findNearestScan_cons_of_ge d2 (by
    rw [WithTop.coe_lt_coe]
    intro hlt
    nlinarith)]
  rfl

theorem consGraph_snap_end : findNearestNode consGraph ⟨0, 1⟩ = 2 := by
  have hpi := Real.pi_pos
  have d1 : haversineDistance (0:ℝ) 1 0 0 = 6371 * ((1 - 0) * (Real.pi / 180)) :=
    haversineDistance_equator' (by norm_num) (by norm_num)
  have d2 : haversineDistance (0:ℝ) 1 0 1 = 0 := haversineDistance_self 0 1
  show findNearestScan ⟨0, 1⟩ consGraph.nodes ⊤ (-1) = 2
  rw [show consGraph.nodes = [(1, ⟨1, 0, 0⟩), (2, ⟨2, 0, 1⟩)] from rfl]
  rw [findNearestScan_cons_of_lt d1 (WithTop.coe_lt_top _)]
  rw [findNearestScan_cons_of_lt d2 (by
    rw [WithTop.coe_lt_coe]
    nlinarith)]
  rfl

theorem consGraph_adj1 : buildAdjacencyList consGraph 1 = [⟨2, 10000⟩] := by
  rw [buildAdjacencyList_apply]
  norm_num [consGraph]

theorem consGraph_H12 : heuristicDistance consGraph 1 2 =
    (((6371 * ((1 - 0) * (Real.pi / 180)) / 50) * 3600 : ℝ) : JsNum) := by
  have g1 : jsGet consGraph.nodes 1 = some ⟨1, 0, 0⟩ := by simp [consGraph, jsGet]
  have g2 : jsGet consGraph.nodes 2 = some ⟨2, 0, 1⟩ := by simp [consGraph, jsGet]
  have e12 : haversineDistance (0:ℝ) 0 0 1 = 6371 * ((1 - 0) * (Real.pi / 180)) :=
    haversineDistance_equator (by norm_num) (by norm_num)
  unfold heuristicDistance
  rw [g1, g2]
  simp [e12]

theorem consGraph_H22 : heuristicDistance consGraph 2 2 = 0 := by
  have g2 : jsGet consGraph.nodes 2 = some ⟨2, 0, 1⟩ := by simp [consGraph, jsGet]
  unfold heuristicDistance
  rw [g2]
  simp [haversineDistance_self]

theorem consGraph_loop :
    aStarLoop consGraph (buildAdjacencyList consGraph) 2 5 4
      (initState consGraph 1 2) = some [1, 2] := by
  have hpi := Real.pi_pos
  have h12ne : ((6371 * ((1 - 0) * (Real.pi / 180)) / 50) * 3600 : ℝ) ≠ 0 := by nlinarith
  -- iteration 1: pop the start node 1 and discover node 2
  have hf1 : jsOrInf ((initState consGraph 1 2).fScore 1) =
      (((6371 * ((1 - 0) * (Real.pi / 180)) / 50) * 3600 : ℝ) : JsNum) := by
    rw [initState_fScore_start, consGraph_H12, jsOrInf_some_ne (by exact_mod_cast h12ne)]
  have hscan1 : scanMin (initState consGraph 1 2).fScore [1] (-1, ⊤) =
      (1, (((6371 * ((1 - 0) * (Real.pi / 180)) / 50) * 3600 : ℝ) : JsNum)) := by
    rw [scanMin_cons_lt (by rw [hf1]; exact WithTop.coe_lt_top _), scanMin_nil, hf1]
  rw [show (4:ℕ) = 3 + 1 from rfl,
    aStarLoop_next (aStarStep_next (by rw [initState_openSet]; simp) hscan1
      (by norm_num) (WithTop.coe_ne_top) (by norm_num))]
  rw [initState_openSet, initState_closedSet]
  rw [show setDelete [(1:ℤ)] 1 = [] by simp [setDelete], setAdd_nil]
  rw [consGraph_adj1]
  rw [relaxNeighbors_cons_discover (by simp) (by simp), relaxNeighbors_nil]
  dsimp only
  rw [initState_gScore_start, jsOrZero_some, zero_add, consGraph_H22, add_zero,
    List.nil_append]
  -- iteration 2: node 2 is the goal; reconstruct the path
  have hf2 : jsOrInf ((mapSet (initState consGraph 1 2).fScore 2
      (((10000:ℝ)) : JsNum)) 2) = (((10000:ℝ)) : JsNum) := by
    rw [mapSet_eq, jsOrInf_some_ne (by exact_mod_cast (by norm_num : (10000:ℝ) ≠ 0))]
  have hscan2 : scanMin (mapSet (initState consGraph 1 2).fScore 2
      (((10000:ℝ)) : JsNum)) [2] (-1, ⊤) = (2, (((10000:ℝ)) : JsNum)) := by
    rw [scanMin_cons_lt (by rw [hf2]; exact WithTop.coe_lt_top _), scanMin_nil, hf2]
  rw [show (3:ℕ) = 2 + 1 from rfl,
    aStarLoop_found (aStarStep_found (by simp) hscan2 (by norm_num) (WithTop.coe_ne_top) rfl)]
  dsimp only
  rw [show (5:ℕ) = 4 + 1 from rfl, reconstructPath_link (by
    rw [mapSet_eq]
    exact jsOrNull_some_ne (by norm_num))]
  rw [show (4:ℕ) = 3 + 1 from rfl, reconstructPath_stop (by
    rw [mapSet_ne _ _ _ (by norm_num : (1:ℤ) ≠ 2), initState_previous]
    simp [nodeIdList, consGraph, jsOrNull])]
  rfl

theorem consGraph_route :
    calculateRoute consGraph ⟨0, 0⟩ ⟨0, 1⟩ = .ok [⟨0, 0⟩, ⟨0, 1⟩] := by
  simp only [calculateRoute, calculateRouteFuel, consGraph_snap_start, consGraph_snap_end]
  rw [if_neg (by norm_num), if_neg (by norm_num)]
  rw [show searchFuel consGraph = 4 from rfl, show (4:ℕ) + 1 = 5 from rfl, consGraph_loop]
  simp [pathToCoords, consGraph, jsGet]

/-- C3 witness: on the two-node graph the amended theorem applies at the
concrete run, giving the snapped endpoints of the returned route. -/
theorem routeEndpoints_amended_witness :
    GraphWF consGraph ∧
    (0:ℤ) ∉ candidateIds consGraph (findNearestNode consGraph ⟨0, 0⟩) ∧
    calculateRoute consGraph ⟨0, 0⟩ ⟨0, 1⟩ = .ok [⟨0, 0⟩, ⟨0, 1⟩] ∧
    ((∃ nodeA, jsGet consGraph.nodes (findNearestNode consGraph ⟨0, 0⟩) = some nodeA ∧
        ([(⟨0, 0⟩ : Coordinate), ⟨0, 1⟩]).head? = some (Coordinate.mk nodeA.lat nodeA.lon)) ∧
     (∃ nodeB, jsGet consGraph.nodes (findNearestNode consGraph ⟨0, 1⟩) = some nodeB ∧
        ([(⟨0, 0⟩ : Coordinate), ⟨0, 1⟩]).getLast? = some (Coordinate.mk nodeB.lat nodeB.lon)) ∧
     (∀ coord ∈ [(⟨0, 0⟩ : Coordinate), ⟨0, 1⟩],
        ∃ kn ∈ consGraph.nodes, coord = Coordinate.mk kn.2.lat kn.2.lon)) := by
  have hz : (0:ℤ) ∉ candidateIds consGraph (findNearestNode consGraph ⟨0, 0⟩) := by
    rw [consGraph_snap_start]
    decide
  exact ⟨consGraph_wf, hz, consGraph_route,
    routeEndpoints_amended consGraph_wf hz consGraph_route⟩

/-! ## Claim C5: the no-path outcome -/

theorem aStarIter_zero (graph : GraphData) (adj : ℤ → List AdjEntry) (endNode : ℤ)
    (recFuel : ℕ) (st : AState) :
    aStarIter graph adj endNode recFuel 0 st = some st := rfl

theorem aStarIter_next {graph : GraphData} {adj : ℤ → List AdjEntry} {endNode : ℤ}
    {recFuel k : ℕ} {st st' : AState}
    (h : aStarStep graph adj endNode recFuel st = .next st') :
    aStarIter graph adj endNode recFuel (k + 1) st =
      aStarIter graph adj endNode recFuel k st' := by
  have hdef : aStarIter graph adj endNode recFuel (k + 1) st =
      match aStarStep graph adj endNode recFuel st with
      | .next st2 => aStarIter graph adj endNode recFuel k st2
      | _ => none := rfl
  rw [hdef, h]

theorem minusOneGraph_snap_start : findNearestNode minusOneGraph ⟨0, 0⟩ = 1 := by
  have hpi := Real.pi_pos
  have d1 : haversineDistance (0:ℝ) 0 0 0 = 0 := haversineDistance_self 0 0
  have d2 : haversineDistance (0:ℝ) 0 0 1 = 6371 * ((1 - 0) * (Real.pi / 180)) :=
    haversineDistance_equator (by norm_num) (by norm_num)
  have d3 : haversineDistance (0:ℝ) 0 0 2 = 6371 * ((2 - 0) * (Real.pi / 180)) :=
    haversineDistance_equator (by norm_num) (by norm_num)
  show findNearestScan ⟨0, 0⟩ minusOneGraph.nodes ⊤ (-1) = 1
  rw [show minusOneGraph.nodes = [(1, ⟨1, 0, 0⟩), (2, ⟨2, 0, 1⟩), (-1, ⟨-1, 0, 2⟩)] from rfl]
  rw [findNearestScan_cons_of_lt d1 (WithTop.coe_lt_top 0)]
  rw [findNearestScan_cons_of_ge d2 (by
    rw [WithTop.coe_lt_coe]
    intro hlt
    nlinarith)]
  rw [findNearestScan_cons_of_ge d3 (by
    rw [WithTop.coe_lt_coe]
    intro hlt
    nlinarith)]
  rfl

theorem minusOneGraph_snap_end : findNearestNode minusOneGraph ⟨0, 1⟩ = 2 := by
  have hpi := Real.pi_pos
  have d1 : haversineDistance (0:ℝ) 1 0 0 = 6371 * ((1 - 0) * (Real.pi / 180)) :=
    haversineDistance_equator' (by norm_num) (by norm_num)
  have d2 : haversineDistance (0:ℝ) 1 0 1 = 0 := haversineDistance_self 0 1
  have d3 : haversineDistance (0:ℝ) 1 0 2 = 6371 * ((2 - 1) * (Real.pi / 180)) :=
    haversineDistance_equator (by norm_num) (by norm_num)
  show findNearestScan ⟨0, 1⟩ minusOneGraph.nodes ⊤ (-1) = 2
  rw [show minusOneGraph.nodes = [(1, ⟨1, 0, 0⟩), (2, ⟨2, 0, 1⟩), (-1, ⟨-1, 0, 2⟩)] from rfl]
  rw [findNearestScan_cons_of_lt d1 (WithTop.coe_lt_top _)]
  rw [findNearestScan_cons_of_lt d2 (by
    rw [WithTop.coe_lt_coe]
    nlinarith)]
  rw [findNearestScan_cons_of_ge d3 (by
    rw [WithTop.coe_lt_coe]
    intro hlt
    nlinarith)]
  rfl

theorem minusOneGraph_adj1 : buildAdjacencyList minusOneGraph 1 = [⟨-1, 1⟩] := by
  rw [buildAdjacencyList_apply]
  norm_num [minusOneGraph]

theorem minusOneGraph_adjm1 : buildAdjacencyList minusOneGraph (-1) = [⟨2, 1⟩] := by
  rw [buildAdjacencyList_apply]
  norm_num [minusOneGraph]

theorem minusOneGraph_H12 : heuristicDistance minusOneGraph 1 2 =
    (((6371 * ((1 - 0) * (Real.pi / 180)) / 50) * 3600 : ℝ) : JsNum) := by
  have g1 : jsGet minusOneGraph.nodes 1 = some ⟨1, 0, 0⟩ := by simp [minusOneGraph, jsGet]
  have g2 : jsGet minusOneGraph.nodes 2 = some ⟨2, 0, 1⟩ := by simp [minusOneGraph, jsGet]
  have e12 : haversineDistance (0:ℝ) 0 0 1 = 6371 * ((1 - 0) * (Real.pi / 180)) :=
    haversineDistance_equator (by norm_num) (by norm_num)
  unfold heuristicDistance
  rw [g1, g2]
  simp [e12]

theorem minusOneGraph_Hm12 : heuristicDistance minusOneGraph (-1) 2 =
    (((6371 * ((2 - 1) * (Real.pi / 180)) / 50) * 3600 : ℝ) : JsNum) := by
  have gm : jsGet minusOneGraph.nodes (-1) = some ⟨-1, 0, 2⟩ := by
    simp [minusOneGraph, jsGet]
  have g2 : jsGet minusOneGraph.nodes 2 = some ⟨2, 0, 1⟩ := by simp [minusOneGraph, jsGet]
  have em : haversineDistance (0:ℝ) 2 0 1 = 6371 * ((2 - 1) * (Real.pi / 180)) :=
    haversineDistance_equator' (by norm_num) (by norm_num)
  unfold heuristicDistance
  rw [gm, g2]
  simp [em]

theorem minusOneGraph_path : IsPathCost minusOneGraph 1 2 [1, -1, 2] 2 := by
  have h1 : IsPathCost minusOneGraph 1 1 [1] 0 := IsPathCost.single 1
  have h2 : IsPathCost minusOneGraph 1 (-1) ([1] ++ [-1]) (0 + 1) :=
    IsPathCost.cons ⟨-1, 1⟩ (by rw [minusOneGraph_adj1]; simp) rfl h1
  have h3 : IsPathCost minusOneGraph 1 2 (([1] ++ [-1]) ++ [2]) ((0 + 1) + 1) :=
    IsPathCost.cons ⟨2, 1⟩ (by rw [minusOneGraph_adjm1]; simp) rfl h2
  norm_num at h3
  exact h3

theorem minusOneGraph_step1 :
    aStarStep minusOneGraph (buildAdjacencyList minusOneGraph) 2 7
      (initState minusOneGraph 1 2) = .next
      { gScore := mapSet (initState minusOneGraph 1 2).gScore (-1) (((1:ℝ)) : JsNum)
        fScore := mapSet (initState minusOneGraph 1 2).fScore (-1)
          (((1 + (6371 * ((2 - 1) * (Real.pi / 180)) / 50) * 3600 : ℝ)) : JsNum)
        previous := mapSet (initState minusOneGraph 1 2).previous (-1) (some 1)
        openSet := [-1]
        closedSet := [1] } := by
  have hpi := Real.pi_pos
  have h12ne : ((6371 * ((1 - 0) * (Real.pi / 180)) / 50) * 3600 : ℝ) ≠ 0 := by nlinarith
  have hf1 : jsOrInf ((initState minusOneGraph 1 2).fScore 1) =
      (((6371 * ((1 - 0) * (Real.pi / 180)) / 50) * 3600 : ℝ) : JsNum) := by
    rw [initState_fScore_start, minusOneGraph_H12, jsOrInf_some_ne (by exact_mod_cast h12ne)]
  have hscan1 : scanMin (initState minusOneGraph 1 2).fScore [1] (-1, ⊤) =
      (1, (((6371 * ((1 - 0) * (Real.pi / 180)) / 50) * 3600 : ℝ) : JsNum)) := by
    rw [scanMin_cons_lt (by rw [hf1]; exact WithTop.coe_lt_top _), scanMin_nil, hf1]
  rw [aStarStep_next (by rw [initState_openSet]; simp) hscan1
    (by norm_num) (WithTop.coe_ne_top) (by norm_num)]
  rw [initState_openSet, initState_closedSet]
  rw [show setDelete [(1:ℤ)] 1 = [] by simp [setDelete], setAdd_nil]
  rw [minusOneGraph_adj1]
  rw [relaxNeighbors_cons_discover (by simp) (by simp), relaxNeighbors_nil]
  dsimp only
  rw [initState_gScore_start, jsOrZero_some, zero_add, minusOneGraph_Hm12,
    ← WithTop.coe_add, List.nil_append]

theorem minusOneGraph_step2 :
    aStarStep minusOneGraph (buildAdjacencyList minusOneGraph) 2 7
      { gScore := mapSet (initState minusOneGraph 1 2).gScore (-1) (((1:ℝ)) : JsNum)
        fScore := mapSet (initState minusOneGraph 1 2).fScore (-1)
          (((1 + (6371 * ((2 - 1) * (Real.pi / 180)) / 50) * 3600 : ℝ)) : JsNum)
        previous := mapSet (initState minusOneGraph 1 2).previous (-1) (some 1)
        openSet := [-1]
        closedSet := [1] } = .noPath := by
  have hpi := Real.pi_pos
  have hvne : ((1 + (6371 * ((2 - 1) * (Real.pi / 180)) / 50) * 3600 : ℝ)) ≠ 0 := by
    nlinarith
  have hf2 : jsOrInf ((mapSet (initState minusOneGraph 1 2).fScore (-1)
      (((1 + (6371 * ((2 - 1) * (Real.pi / 180)) / 50) * 3600 : ℝ)) : JsNum)) (-1)) =
      (((1 + (6371 * ((2 - 1) * (Real.pi / 180)) / 50) * 3600 : ℝ)) : JsNum) := by
    rw [mapSet_eq, jsOrInf_some_ne (by exact_mod_cast hvne)]
  have hscan2 : scanMin (mapSet (initState minusOneGraph 1 2).fScore (-1)
      (((1 + (6371 * ((2 - 1) * (Real.pi / 180)) / 50) * 3600 : ℝ)) : JsNum)) [-1] (-1, ⊤) =
      (-1, (((1 + (6371 * ((2 - 1) * (Real.pi / 180)) / 50) * 3600 : ℝ)) : JsNum)) := by
    rw [scanMin_cons_lt (by rw [hf2]; exact WithTop.coe_lt_top _), scanMin_nil, hf2]
  exact aStarStep_break hscan2 (Or.inl rfl)

theorem minusOneGraph_loop :
    aStarLoop minusOneGraph (buildAdjacencyList minusOneGraph) 2 7 6
      (initState minusOneGraph 1 2) = none := by
  rw [show (6:ℕ) = 5 + 1 from rfl, aStarLoop_next minusOneGraph_step1,
    show (5:ℕ) = 4 + 1 from rfl, aStarLoop_noPath minusOneGraph_step2]

theorem minusOneGraph_route :
    calculateRoute minusOneGraph ⟨0, 0⟩ ⟨0, 1⟩ = .error .noPathFound := by
  simp only [calculateRoute, calculateRouteFuel, minusOneGraph_snap_start,
    minusOneGraph_snap_end]
  rw [if_neg (by norm_num), if_neg (by norm_num)]
  rw [show searchFuel minusOneGraph = 6 from rfl, show (6:ℕ) + 1 = 7 from rfl,
    minusOneGraph_loop]

/-- C5 counterexample: on a graph holding a real node with id `-1` on the only
route, the search breaks out and reports no-path although a path to the goal
exists and the open set still holds that node with a finite read fScore — the
failure is not raised "exactly when the open set is exhausted or holds only
infinite-fScore nodes". -/
theorem noPathCharacterization_counterexample :
    calculateRoute minusOneGraph ⟨0, 0⟩ ⟨0, 1⟩ = .error .noPathFound ∧
    IsPathCost minusOneGraph 1 2 [1, -1, 2] 2 ∧
    findNearestNode minusOneGraph ⟨0, 0⟩ = 1 ∧
    findNearestNode minusOneGraph ⟨0, 1⟩ = 2 ∧
    ∃ st, aStarIter minusOneGraph (buildAdjacencyList minusOneGraph) 2 7 1
        (initState minusOneGraph 1 2) = some st ∧
      aStarStep minusOneGraph (buildAdjacencyList minusOneGraph) 2 7 st = .noPath ∧
      st.openSet = [-1] ∧ jsOrInf (st.fScore (-1)) ≠ ⊤ := by
  have hpi := Real.pi_pos
  have hvne : ((1 + (6371 * ((2 - 1) * (Real.pi / 180)) / 50) * 3600 : ℝ)) ≠ 0 := by
    nlinarith
  refine ⟨minusOneGraph_route, minusOneGraph_path, minusOneGraph_snap_start,
    minusOneGraph_snap_end,
    { gScore := mapSet (initState minusOneGraph 1 2).gScore (-1) (((1:ℝ)) : JsNum)
      fScore := mapSet (initState minusOneGraph 1 2).fScore (-1)
        (((1 + (6371 * ((2 - 1) * (Real.pi / 180)) / 50) * 3600 : ℝ)) : JsNum)
      previous := mapSet (initState minusOneGraph 1 2).previous (-1) (some 1)
      openSet := [-1]
      closedSet := [1] }, ?_, minusOneGraph_step2, rfl, ?_⟩
  · rw [aStarIter_next minusOneGraph_step1, aStarIter_zero]
  · dsimp only
    rw [mapSet_eq, jsOrInf_some_ne (by exact_mod_cast hvne)]
    exact WithTop.coe_ne_top

/-- C5 (amended): when neither snapped id is the `-1` sentinel, the two ids
differ and the snapped start node has zero outgoing edges, `calculateRoute`
fails with the distinct no-path outcome, never returning a partial or default
route. -/
theorem noOutgoing_noPathFound {graph : GraphData} {s e : Coordinate} {a b : ℤ}
    (hs : findNearestNode graph s = a) (he : findNearestNode graph e = b)
    (ha : a ≠ -1) (hb : b ≠ -1) (hne : a ≠ b)
    (hadj : buildAdjacencyList graph a = []) :
    calculateRoute graph s e = .error .noPathFound := by
  have hnodes : graph.nodes ≠ [] := by
    intro hnil
    apply ha
    rw [← hs]
    show findNearestScan s graph.nodes ⊤ (-1) = -1
    rw [hnil, findNearestScan_nil]
  obtain ⟨k, hk⟩ : ∃ k, searchFuel graph = k + 2 := by
    have hpos : 0 < graph.nodes.length := List.length_pos.mpr hnodes
    exact ⟨graph.nodes.length + graph.edges.length - 1, by
      rw [searchFuel_succ]; omega⟩
  have hloop : aStarLoop graph (buildAdjacencyList graph) b (searchFuel graph + 1)
      (searchFuel graph) (initState graph a b) = none := by
    rw [hk]
    by_cases hlt : jsOrInf ((initState graph a b).fScore a) < ⊤
    · have hscan : scanMin (initState graph a b).fScore [a] (-1, ⊤) =
          (a, jsOrInf ((initState graph a b).fScore a)) := by
        rw [scanMin_cons_lt hlt, scanMin_nil]
      have hstep : ∀ rf : ℕ, aStarStep graph (buildAdjacencyList graph) b rf
          (initState graph a b) = .next (relaxNeighbors graph b a
            (buildAdjacencyList graph a)
            { initState graph a b with
                openSet := setDelete (initState graph a b).openSet a
                closedSet := setAdd (initState graph a b).closedSet a }) :=
        fun rf => aStarStep_next (by rw [initState_openSet]; simp)
          (by rw [initState_openSet]; exact hscan) ha (LT.lt.ne hlt) hne
      rw [show k + 2 = (k + 1) + 1 from rfl, aStarLoop_next (hstep _)]
      have hopen' : (relaxNeighbors graph b a (buildAdjacencyList graph a)
          { initState graph a b with
              openSet := setDelete (initState graph a b).openSet a
              closedSet := setAdd (initState graph a b).closedSet a }).openSet = [] := by
        rw [hadj, relaxNeighbors_nil]
        dsimp only
        rw [initState_openSet]
        simp [setDelete]
      rw [show k + 1 = k + 1 from rfl, aStarLoop_noPath (aStarStep_empty hopen')]
    · have htop : jsOrInf ((initState graph a b).fScore a) = ⊤ := by
        by_contra hne'
        exact hlt (lt_top_iff_ne_top.mpr hne')
      have hscan : scanMin (initState graph a b).fScore [a] (-1, ⊤) = (-1, ⊤) := by
        rw [scanMin_cons_ge (by rw [htop]; exact lt_irrefl _), scanMin_nil]
      rw [show k + 2 = (k + 1) + 1 from rfl,
        aStarLoop_noPath (aStarStep_break (by rw [initState_openSet]; exact hscan)
          (Or.inl rfl))]
  simp only [calculateRoute, calculateRouteFuel, hs, he]
  rw [if_neg (by simp [ha, hb]), if_neg hne, hloop]

theorem noEdgeGraph_snap_start : findNearestNode noEdgeGraph ⟨0, 0⟩ = 1 := by
  have hpi := Real.pi_pos
  have d1 : haversineDistance (0:ℝ) 0 0 0 = 0 := haversineDistance_self 0 0
  have d2 : haversineDistance (0:ℝ) 0 0 1 = 6371 * ((1 - 0) * (Real.pi / 180)) :=
    haversineDistance_equator (by norm_num) (by norm_num)
  show findNearestScan ⟨0, 0⟩ noEdgeGraph.nodes ⊤ (-1) = 1
  rw [show noEdgeGraph.nodes = [(1, ⟨1, 0, 0⟩), (2, ⟨2, 0, 1⟩)] from rfl]
  rw [findNearestScan_cons_of_lt d1 (WithTop.coe_lt_top 0)]
  rw [findNearestScan_cons_of_ge d2 (by
    rw [WithTop.coe_lt_coe]
    intro hlt
    nlinarith)]
  rfl

theorem noEdgeGraph_snap_end : findNearestNode noEdgeGraph ⟨0, 1⟩ = 2 := by
  have hpi := Real.pi_pos
  have d1 : haversineDistance (0:ℝ) 1 0 0 = 6371 * ((1 - 0) * (Real.pi / 180)) :=
    haversineDistance_equator' (by norm_num) (by norm_num)
  have d2 : haversineDistance (0:ℝ) 1 0 1 = 0 := haversineDistance_self 0 1
  show findNearestScan ⟨0, 1⟩ noEdgeGraph.nodes ⊤ (-1) = 2
  rw [show noEdgeGraph.nodes = [(1, ⟨1, 0, 0⟩), (2, ⟨2, 0, 1⟩)] from rfl]
  rw [findNearestScan_cons_of_lt d1 (WithTop.coe_lt_top _)]
  rw [findNearestScan_cons_of_lt d2 (by
    rw [WithTop.coe_lt_coe]
    nlinarith)]
  rfl

/-- C5 witness: on the two-node graph with no edges at all, the snapped start
node 1 has zero outgoing edges and the run reports the no-path failure. -/
theorem noOutgoing_noPathFound_witness :
    findNearestNode noEdgeGraph ⟨0, 0⟩ = 1 ∧
    findNearestNode noEdgeGraph ⟨0, 1⟩ = 2 ∧
    buildAdjacencyList noEdgeGraph 1 = [] ∧
    calculateRoute noEdgeGraph ⟨0, 0⟩ ⟨0, 1⟩ = .error .noPathFound := by
  have hadj : buildAdjacencyList noEdgeGraph 1 = [] :=
    buildAdjacencyList_empty noEdgeGraph 1 (by intro e he; cases he)
  exact ⟨noEdgeGraph_snap_start, noEdgeGraph_snap_end, hadj,
    noOutgoing_noPathFound noEdgeGraph_snap_start noEdgeGraph_snap_end
      (by norm_num) (by norm_num) (by norm_num) hadj⟩

/-! ## Claim C1: the admissible-but-inconsistent counterexample graph -/

theorem cexGraph_snap_start : findNearestNode cexGraph ⟨0, 5/(4*12742)⟩ = 1 := by
  have hpi := Real.pi_pos
  have d1 : haversineDistance (0:ℝ) (5/(4*12742)) 0 (5/(4*12742)) = 0 :=
    haversineDistance_self 0 (5/(4*12742))
  have d2 : haversineDistance (0:ℝ) (5/(4*12742)) 0 (15/(4*12742)) =
      6371 * ((15/(4*12742) - 5/(4*12742)) * (Real.pi / 180)) :=
    haversineDistance_equator (by norm_num) (by norm_num)
  have d3 : haversineDistance (0:ℝ) (5/(4*12742)) 0 0 =
      6371 * ((5/(4*12742) - 0) * (Real.pi / 180)) :=
    haversineDistance_equator' (by norm_num) (by norm_num)
  show findNearestScan ⟨0, 5/(4*12742)⟩ cexGraph.nodes ⊤ (-1) = 1
  rw [show cexGraph.nodes = [(1, ⟨1, 0, 5/(4*12742)⟩), (2, ⟨2, 0, 15/(4*12742)⟩),
    (3, ⟨3, 0, 0⟩), (4, ⟨4, 0, 0⟩)] from rfl]
  rw [findNearestScan_cons_of_lt d1 (WithTop.coe_lt_top 0)]
  rw [findNearestScan_cons_of_ge d2 (by
    rw [WithTop.coe_lt_coe]
    intro hlt
    nlinarith)]
  rw [findNearestScan_cons_of_ge d3 (by
    rw [WithTop.coe_lt_coe]
    intro hlt
    nlinarith)]
  rw [findNearestScan_cons_of_ge d3 (by
    rw [WithTop.coe_lt_coe]
    intro hlt
    nlinarith)]
  rfl

theorem cexGraph_snap_end : findNearestNode cexGraph ⟨0, 0⟩ = 3 := by
  have hpi := Real.pi_pos
  have d1 : haversineDistance (0:ℝ) 0 0 (5/(4*12742)) =
      6371 * ((5/(4*12742) - 0) * (Real.pi / 180)) :=
    haversineDistance_equator (by norm_num) (by norm_num)
  have d2 : haversineDistance (0:ℝ) 0 0 (15/(4*12742)) =
      6371 * ((15/(4*12742) - 0) * (Real.pi / 180)) :=
    haversineDistance_equator (by norm_num) (by norm_num)
  have d3 : haversineDistance (0:ℝ) 0 0 0 = 0 := haversineDistance_self 0 0
  show findNearestScan ⟨0, 0⟩ cexGraph.nodes ⊤ (-1) = 3
  rw [show cexGraph.nodes = [(1, ⟨1, 0, 5/(4*12742)⟩), (2, ⟨2, 0, 15/(4*12742)⟩),
    (3, ⟨3, 0, 0⟩), (4, ⟨4, 0, 0⟩)] from rfl]
  rw [findNearestScan_cons_of_lt d1 (WithTop.coe_lt_top _)]
  rw [findNearestScan_cons_of_ge d2 (by
    rw [WithTop.coe_lt_coe]
    intro hlt
    nlinarith)]
  rw [findNearestScan_cons_of_lt d3 (by
    rw [WithTop.coe_lt_coe]
    nlinarith)]
  rw [findNearestScan_cons_of_ge d3 (by
    rw [WithTop.coe_lt_coe]
    intro hlt
    exact lt_irrefl _ hlt)]
  rfl

theorem cexGraph_adj1 : buildAdjacencyList cexGraph 1 = [⟨2, 1⟩, ⟨4, 3⟩] := by
  rw [buildAdjacencyList_apply]
  norm_num [cexGraph]

theorem cexGraph_adj2 : buildAdjacencyList cexGraph 2 = [⟨4, 1⟩] := by
  rw [buildAdjacencyList_apply]
  norm_num [cexGraph]

theorem cexGraph_adj4 : buildAdjacencyList cexGraph 4 = [⟨3, 2⟩] := by
  rw [buildAdjacencyList_apply]
  norm_num [cexGraph]

theorem cexGraph_H13 : heuristicDistance cexGraph 1 3 = ((Real.pi / 4 : ℝ) : JsNum) := by
  have g1 : jsGet cexGraph.nodes 1 = some ⟨1, 0, 5/(4*12742)⟩ := by simp [cexGraph, jsGet]
  have g3 : jsGet cexGraph.nodes 3 = some ⟨3, 0, 0⟩ := by simp [cexGraph, jsGet]
  have e : haversineDistance (0:ℝ) (5/(4*12742)) 0 0 =
      6371 * ((5/(4*12742) - 0) * (Real.pi / 180)) :=
    haversineDistance_equator' (by norm_num) (by norm_num)
  unfold heuristicDistance
  rw [g1, g3]
  dsimp only
  rw [e, WithTop.coe_eq_coe]
  ring

theorem cexGraph_H23 : heuristicDistance cexGraph 2 3 =
    ((3 * Real.pi / 4 : ℝ) : JsNum) := by
  have g2 : jsGet cexGraph.nodes 2 = some ⟨2, 0, 15/(4*12742)⟩ := by simp [cexGraph, jsGet]
  have g3 : jsGet cexGraph.nodes 3 = some ⟨3, 0, 0⟩ := by simp [cexGraph, jsGet]
  have e : haversineDistance (0:ℝ) (15/(4*12742)) 0 0 =
      6371 * ((15/(4*12742) - 0) * (Real.pi / 180)) :=
    haversineDistance_equator' (by norm_num) (by norm_num)
  unfold heuristicDistance
  rw [g2, g3]
  dsimp only
  rw [e, WithTop.coe_eq_coe]
  ring

theorem cexGraph_H33 : heuristicDistance cexGraph 3 3 = 0 := by
  have g3 : jsGet cexGraph.nodes 3 = some ⟨3, 0, 0⟩ := by simp [cexGraph, jsGet]
  unfold heuristicDistance
  rw [g3]
  simp [haversineDistance_self]

theorem cexGraph_H43 : heuristicDistance cexGraph 4 3 = 0 := by
  have g4 : jsGet cexGraph.nodes 4 = some ⟨4, 0, 0⟩ := by simp [cexGraph, jsGet]
  have g3 : jsGet cexGraph.nodes 3 = some ⟨3, 0, 0⟩ := by simp [cexGraph, jsGet]
  unfold heuristicDistance
  rw [g4, g3]
  simp [haversineDistance_self]

theorem cexGraph_adj_char {q : ℤ} {entry : AdjEntry}
    (h : entry ∈ buildAdjacencyList cexGraph q) :
    (q = 1 ∧ (entry = ⟨2, 1⟩ ∨ entry = ⟨4, 3⟩)) ∨ (q = 2 ∧ entry = ⟨4, 1⟩) ∨
    (q = 4 ∧ entry = ⟨3, 2⟩) := by
  by_cases h1 : q = 1
  · subst h1
    rw [cexGraph_adj1] at h
    refine Or.inl ⟨rfl, ?_⟩
    rcases List.mem_cons.mp h with h' | h'
    · exact Or.inl h'
    · exact Or.inr (List.mem_singleton.mp h')
  · by_cases h2 : q = 2
    · subst h2
      rw [cexGraph_adj2] at h
      exact Or.inr (Or.inl ⟨rfl, List.mem_singleton.mp h⟩)
    · by_cases h4 : q = 4
      · subst h4
        rw [cexGraph_adj4] at h
        exact Or.inr (Or.inr ⟨rfl, List.mem_singleton.mp h⟩)
      · exfalso
        rw [buildAdjacencyList_apply] at h
        have hfil : cexGraph.edges.filter (fun e => e.from_ = q) = [] := by
          rw [List.filter_eq_nil_iff]
          intro e he
          simp only [cexGraph, List.mem_cons, List.not_mem_nil, or_false] at he
          rcases he with rfl | rfl | rfl | rfl <;> simp <;> intro hq
          · exact h1 hq.symm
          · exact h1 hq.symm
          · exact h2 hq.symm
          · exact h4 hq.symm
        rw [hfil] at h
        cases h

theorem cexGraph_path_char : ∀ {u v : ℤ} {P : List ℤ} {k : ℝ},
    IsPathCost cexGraph u v P k →
    (v = u ∧ P = [u] ∧ k = 0) ∨
    (u = 1 ∧ v = 2 ∧ P = [1, 2] ∧ k = 1) ∨
    (u = 1 ∧ v = 4 ∧ P = [1, 4] ∧ k = 3) ∨
    (u = 1 ∧ v = 4 ∧ P = [1, 2, 4] ∧ k = 2) ∨
    (u = 2 ∧ v = 4 ∧ P = [2, 4] ∧ k = 1) ∨
    (u = 4 ∧ v = 3 ∧ P = [4, 3] ∧ k = 2) ∨
    (u = 1 ∧ v = 3 ∧ P = [1, 4, 3] ∧ k = 5) ∨
    (u = 1 ∧ v = 3 ∧ P = [1, 2, 4, 3] ∧ k = 4) ∨
    (u = 2 ∧ v = 3 ∧ P = [2, 4, 3] ∧ k = 3) := by
  intro u v P k h
  induction h with
  | single => exact Or.inl ⟨rfl, rfl, rfl⟩
  | cons entry hmem hnode hp ih =>
      rcases cexGraph_adj_char hmem with ⟨rfl, he⟩ | ⟨rfl, rfl⟩ | ⟨rfl, rfl⟩
      · -- edges out of node 1: only a trivial path can end at 1
        rcases he with rfl | rfl
        · -- edge 1 → 2, weight 1
          cases hnode
          rcases ih with ⟨rfl, rfl, rfl⟩ | ⟨_, hv, _, _⟩ | ⟨_, hv, _, _⟩ | ⟨_, hv, _, _⟩ |
            ⟨_, hv, _, _⟩ | ⟨_, hv, _, _⟩ | ⟨_, hv, _, _⟩ | ⟨_, hv, _, _⟩ | ⟨_, hv, _, _⟩
          · refine Or.inr (Or.inl ⟨rfl, rfl, rfl, by norm_num⟩)
          all_goals exact absurd hv (by norm_num)
        · -- edge 1 → 4, weight 3
          cases hnode
          rcases ih with ⟨rfl, rfl, rfl⟩ | ⟨_, hv, _, _⟩ | ⟨_, hv, _, _⟩ | ⟨_, hv, _, _⟩ |
            ⟨_, hv, _, _⟩ | ⟨_, hv, _, _⟩ | ⟨_, hv, _, _⟩ | ⟨_, hv, _, _⟩ | ⟨_, hv, _, _⟩
          · refine Or.inr (Or.inr (Or.inl ⟨rfl, rfl, rfl, by norm_num⟩))
          all_goals exact absurd hv (by norm_num)
      · -- edge 2 → 4, weight 1
        cases hnode
        rcases ih with ⟨rfl, rfl, rfl⟩ | ⟨rfl, _, rfl, rfl⟩ | ⟨_, hv, _, _⟩ | ⟨_, hv, _, _⟩ |
          ⟨_, hv, _, _⟩ | ⟨_, hv, _, _⟩ | ⟨_, hv, _, _⟩ | ⟨_, hv, _, _⟩ | ⟨_, hv, _, _⟩
        · exact Or.inr (Or.inr (Or.inr (Or.inr (Or.inl ⟨rfl, rfl, rfl, by norm_num⟩))))
        · exact Or.inr (Or.inr (Or.inr (Or.inl ⟨rfl, rfl, rfl, by norm_num⟩)))
        all_goals exact absurd hv (by norm_num)
      · -- edge 4 → 3, weight 2
        cases hnode
        rcases ih with ⟨rfl, rfl, rfl⟩ | ⟨_, hv, _, _⟩ | ⟨rfl, _, rfl, rfl⟩ |
          ⟨rfl, _, rfl, rfl⟩ | ⟨rfl, _, rfl, rfl⟩ | ⟨_, hv, _, _⟩ | ⟨_, hv, _, _⟩ |
          ⟨_, hv, _, _⟩ | ⟨_, hv, _, _⟩
        · exact Or.inr (Or.inr (Or.inr (Or.inr (Or.inr (Or.inl ⟨rfl, rfl, rfl, by norm_num⟩)))))
        · exact absurd hv (by norm_num)
        · exact Or.inr (Or.inr (Or.inr (Or.inr (Or.inr (Or.inr (Or.inl
            ⟨rfl, rfl, rfl, by norm_num⟩))))))
        · exact Or.inr (Or.inr (Or.inr (Or.inr (Or.inr (Or.inr (Or.inr (Or.inl
            ⟨rfl, rfl, rfl, by norm_num⟩)))))))
        · exact Or.inr (Or.inr (Or.inr (Or.inr (Or.inr (Or.inr (Or.inr (Or.inr
            ⟨rfl, rfl, rfl, by norm_num⟩)))))))
        all_goals exact absurd hv (by norm_num)

theorem cexGraph_admissible : Admissible cexGraph 3 := by
  intro n p c h
  have hpi := Real.pi_pos
  have hpi4 := Real.pi_le_four
  rcases cexGraph_path_char h with ⟨rfl, _, rfl⟩ | ⟨_, hv, _, _⟩ | ⟨_, hv, _, _⟩ |
    ⟨_, hv, _, _⟩ | ⟨_, hv, _, _⟩ | ⟨rfl, _, _, rfl⟩ | ⟨rfl, _, _, rfl⟩ |
    ⟨rfl, _, _, rfl⟩ | ⟨rfl, _, _, rfl⟩
  · rw [cexGraph_H33]
    exact_mod_cast le_refl (0:ℝ)
  · exact absurd hv (by norm_num)
  · exact absurd hv (by norm_num)
  · exact absurd hv (by norm_num)
  · exact absurd hv (by norm_num)
  · rw [cexGraph_H43]
    exact_mod_cast (by norm_num : (0:ℝ) ≤ 2)
  · rw [cexGraph_H13]
    exact_mod_cast (by linarith : Real.pi / 4 ≤ 5)
  · rw [cexGraph_H13]
    exact_mod_cast (by linarith : Real.pi / 4 ≤ 4)
  · rw [cexGraph_H23]
    exact_mod_cast (by linarith : 3 * Real.pi / 4 ≤ 3)

theorem cexGraph_path143 : IsPathCost cexGraph 1 3 [1, 4, 3] 5 := by
  have h1 : IsPathCost cexGraph 1 1 [1] 0 := IsPathCost.single 1
  have h2 : IsPathCost cexGraph 1 4 ([1] ++ [4]) (0 + 3) :=
    IsPathCost.cons ⟨4, 3⟩ (by rw [cexGraph_adj1]; simp) rfl h1
  have h3 : IsPathCost cexGraph 1 3 (([1] ++ [4]) ++ [3]) ((0 + 3) + 2) :=
    IsPathCost.cons ⟨3, 2⟩ (by rw [cexGraph_adj4]; simp) rfl h2
  norm_num at h3
  exact h3

theorem cexGraph_path1243 : IsPathCost cexGraph 1 3 [1, 2, 4, 3] 4 := by
  have h1 : IsPathCost cexGraph 1 1 [1] 0 := IsPathCost.single 1
  have h2 : IsPathCost cexGraph 1 2 ([1] ++ [2]) (0 + 1) :=
    IsPathCost.cons ⟨2, 1⟩ (by rw [cexGraph_adj1]; simp) rfl h1
  have h3 : IsPathCost cexGraph 1 4 (([1] ++ [2]) ++ [4]) ((0 + 1) + 1) :=
    IsPathCost.cons ⟨4, 1⟩ (by rw [cexGraph_adj2]; simp) rfl h2
  have h4 : IsPathCost cexGraph 1 3 ((([1] ++ [2]) ++ [4]) ++ [3]) (((0 + 1) + 1) + 2) :=
    IsPathCost.cons ⟨3, 2⟩ (by rw [cexGraph_adj4]; simp) rfl h3
  norm_num at h4
  exact h4

theorem cexGraph_loop :
    aStarLoop cexGraph (buildAdjacencyList cexGraph) 3 10 9 (initState cexGraph 1 3) =
      some [1, 4, 3] := by
  have hpi := Real.pi_pos
  have hgt3 := Real.pi_gt_three
  have hle4 := Real.pi_le_four
  -- iteration 1: pop the start node 1, discover nodes 2 and 4
  have hf1 : jsOrInf ((initState cexGraph 1 3).fScore 1) = ((Real.pi / 4 : ℝ) : JsNum) := by
    rw [initState_fScore_start, cexGraph_H13,
      jsOrInf_some_ne (by exact_mod_cast (by positivity : Real.pi / 4 ≠ 0))]
  have hscan1 : scanMin (initState cexGraph 1 3).fScore [1] (-1, ⊤) =
      (1, ((Real.pi / 4 : ℝ) : JsNum)) := by
    rw [scanMin_cons_lt (by rw [hf1]; exact WithTop.coe_lt_top _), scanMin_nil, hf1]
  rw [show (9:ℕ) = 8 + 1 from rfl,
    aStarLoop_next (aStarStep_next (by rw [initState_openSet]; simp) hscan1
      (by norm_num) (WithTop.coe_ne_top) (by norm_num))]
  rw [initState_openSet, initState_closedSet]
  rw [show setDelete [(1:ℤ)] 1 = [] by simp [setDelete], setAdd_nil, cexGraph_adj1]
  rw [relaxNeighbors_cons_discover (by simp) (by simp)]
  dsimp only
  rw [initState_gScore_start, jsOrZero_some, zero_add, cexGraph_H23, ← WithTop.coe_add,
    List.nil_append]
  rw [relaxNeighbors_cons_discover (by simp) (by simp), relaxNeighbors_nil]
  dsimp only
  rw [mapSet_ne _ _ _ (by norm_num : (1:ℤ) ≠ 2), initState_gScore_start, jsOrZero_some,
    zero_add, cexGraph_H43, add_zero]
  rw [show [(2:ℤ)] ++ [(4:ℤ)] = [2, 4] from rfl]
  -- iteration 2: pop node 4 (3 < 1 + 3π/4 since π > 8/3), discover node 3 with g = 5
  have hf2 : jsOrInf ((mapSet (mapSet (initState cexGraph 1 3).fScore 2
      (((1 + 3 * Real.pi / 4 : ℝ)) : JsNum)) 4 (((3:ℝ)) : JsNum)) 2) =
      (((1 + 3 * Real.pi / 4 : ℝ)) : JsNum) := by
    rw [mapSet_ne _ _ _ (by norm_num : (2:ℤ) ≠ 4), mapSet_eq,
      jsOrInf_some_ne (by exact_mod_cast (by positivity : (1 + 3 * Real.pi / 4 : ℝ) ≠ 0))]
  have hf4 : jsOrInf ((mapSet (mapSet (initState cexGraph 1 3).fScore 2
      (((1 + 3 * Real.pi / 4 : ℝ)) : JsNum)) 4 (((3:ℝ)) : JsNum)) 4) = (((3:ℝ)) : JsNum) := by
    rw [mapSet_eq, jsOrInf_some_ne (by exact_mod_cast (by norm_num : (3:ℝ) ≠ 0))]
  have hscan2 : scanMin (mapSet (mapSet (initState cexGraph 1 3).fScore 2
      (((1 + 3 * Real.pi / 4 : ℝ)) : JsNum)) 4 (((3:ℝ)) : JsNum)) [2, 4] (-1, ⊤) =
      (4, (((3:ℝ)) : JsNum)) := by
    rw [scanMin_cons_lt (by rw [hf2]; exact WithTop.coe_lt_top _)]
    rw [scanMin_cons_lt (by
      rw [hf4, hf2, WithTop.coe_lt_coe]
      nlinarith)]
    rw [scanMin_nil, hf4]
  rw [show (8:ℕ) = 7 + 1 from rfl,
    aStarLoop_next (aStarStep_next (by simp) hscan2
      (by norm_num) (WithTop.coe_ne_top) (by norm_num))]
  dsimp only
  rw [show setDelete [(2:ℤ), 4] 4 = [2] by simp [setDelete],
    show setAdd [(1:ℤ)] 4 = [1, 4] by simp [setAdd], cexGraph_adj4]
  rw [relaxNeighbors_cons_discover (by simp) (by simp), relaxNeighbors_nil]
  dsimp only
  rw [mapSet_eq, jsOrZero_some, ← WithTop.coe_add, show (3:ℝ) + 2 = 5 by norm_num,
    cexGraph_H33, add_zero]
  rw [show [(2:ℤ)] ++ [(3:ℤ)] = [2, 3] from rfl]
  -- iteration 3: pop node 2 (1 + 3π/4 < 5 since π ≤ 4); its edge to 4 is skipped
  have hf2' : jsOrInf ((mapSet (mapSet (mapSet (initState cexGraph 1 3).fScore 2
      (((1 + 3 * Real.pi / 4 : ℝ)) : JsNum)) 4 (((3:ℝ)) : JsNum)) 3 (((5:ℝ)) : JsNum)) 2) =
      (((1 + 3 * Real.pi / 4 : ℝ)) : JsNum) := by
    rw [mapSet_ne _ _ _ (by norm_num : (2:ℤ) ≠ 3), mapSet_ne _ _ _ (by norm_num : (2:ℤ) ≠ 4),
      mapSet_eq,
      jsOrInf_some_ne (by exact_mod_cast (by positivity : (1 + 3 * Real.pi / 4 : ℝ) ≠ 0))]
  have hf3 : jsOrInf ((mapSet (mapSet (mapSet (initState cexGraph 1 3).fScore 2
      (((1 + 3 * Real.pi / 4 : ℝ)) : JsNum)) 4 (((3:ℝ)) : JsNum)) 3 (((5:ℝ)) : JsNum)) 3) =
      (((5:ℝ)) : JsNum) := by
    rw [mapSet_eq, jsOrInf_some_ne (by exact_mod_cast (by norm_num : (5:ℝ) ≠ 0))]
  have hscan3 : scanMin (mapSet (mapSet (mapSet (initState cexGraph 1 3).fScore 2
      (((1 + 3 * Real.pi / 4 : ℝ)) : JsNum)) 4 (((3:ℝ)) : JsNum)) 3 (((5:ℝ)) : JsNum))
      [2, 3] (-1, ⊤) = (2, (((1 + 3 * Real.pi / 4 : ℝ)) : JsNum)) := by
    rw [scanMin_cons_lt (by rw [hf2']; exact WithTop.coe_lt_top _)]
    rw [scanMin_cons_ge (by
      rw [hf3, hf2', WithTop.coe_lt_coe]
      intro hlt
      nlinarith)]
    rw [scanMin_nil, hf2']
  rw [show (7:ℕ) = 6 + 1 from rfl,
    aStarLoop_next (aStarStep_next (by simp) hscan3
      (by norm_num) (WithTop.coe_ne_top) (by norm_num))]
  dsimp only
  rw [show setDelete [(2:ℤ), 3] 2 = [3] by simp [setDelete],
    show setAdd [(1:ℤ), 4] 2 = [1, 4, 2] by simp [setAdd], cexGraph_adj2]
  rw [relaxNeighbors_cons_closed (by simp), relaxNeighbors_nil]
  -- iteration 4: node 3 is the goal; reconstruct 1 ← 4 ← 3
  rw [show (6:ℕ) = 5 + 1 from rfl,
    aStarLoop_found (aStarStep_found (by simp) (by
      rw [scanMin_cons_lt (by rw [hf3]; exact WithTop.coe_lt_top _), scanMin_nil, hf3])
      (by norm_num) (WithTop.coe_ne_top) rfl)]
  dsimp only
  rw [show (10:ℕ) = 9 + 1 from rfl, reconstructPath_link (by
    rw [mapSet_eq]
    exact jsOrNull_some_ne (by norm_num))]
  rw [show (9:ℕ) = 8 + 1 from rfl, reconstructPath_link (by
    rw [mapSet_ne _ _ _ (by norm_num : (4:ℤ) ≠ 3), mapSet_eq]
    exact jsOrNull_some_ne (by norm_num))]
  rw [show (8:ℕ) = 7 + 1 from rfl, reconstructPath_stop (by
    rw [mapSet_ne _ _ _ (by norm_num : (1:ℤ) ≠ 3), mapSet_ne _ _ _ (by norm_num : (1:ℤ) ≠ 4),
      mapSet_ne _ _ _ (by norm_num : (1:ℤ) ≠ 2), initState_previous]
    simp [nodeIdList, cexGraph, jsOrNull])]
  rfl

theorem cexGraph_route :
    calculateRoute cexGraph ⟨0, 5/(4*12742)⟩ ⟨0, 0⟩ =
      .ok [⟨0, 5/(4*12742)⟩, ⟨0, 0⟩, ⟨0, 0⟩] := by
  simp only [calculateRoute, calculateRouteFuel, cexGraph_snap_start, cexGraph_snap_end]
  rw [if_neg (by norm_num), if_neg (by norm_num)]
  rw [show searchFuel cexGraph = 9 from rfl, show (9:ℕ) + 1 = 10 from rfl, cexGraph_loop]
  simp [pathToCoords, cexGraph, jsGet]

/-- C1 counterexample: on a graph whose heuristic is admissible for the snapped
goal, the search closes the goal-adjacent node 4 before the cheap detour
through node 2 is expanded; the closed-set skip then discards the improvement,
and the returned path 1,4,3 has weight 5 although the path 1,2,4,3 of weight 4
exists — the returned weight is not the minimum. -/
theorem optimality_counterexample :
    Admissible cexGraph 3 ∧
    findNearestNode cexGraph ⟨0, 5/(4*12742)⟩ = 1 ∧
    findNearestNode cexGraph ⟨0, 0⟩ = 3 ∧
    aStarLoop cexGraph (buildAdjacencyList cexGraph) 3 10 9 (initState cexGraph 1 3) =
      some [1, 4, 3] ∧
    calculateRoute cexGraph ⟨0, 5/(4*12742)⟩ ⟨0, 0⟩ =
      .ok [⟨0, 5/(4*12742)⟩, ⟨0, 0⟩, ⟨0, 0⟩] ∧
    IsPathCost cexGraph 1 3 [1, 4, 3] 5 ∧
    IsPathCost cexGraph 1 3 [1, 2, 4, 3] 4 ∧
    (4:ℝ) < 5 :=
  ⟨cexGraph_admissible, cexGraph_snap_start, cexGraph_snap_end, cexGraph_loop,
    cexGraph_route, cexGraph_path143, cexGraph_path1243, by norm_num⟩

/-! ## Optimality machinery for the amended claim C1 -/

theorem heuristicDistance_nonneg (graph : GraphData) (x y : ℤ) :
    0 ≤ heuristicDistance graph x y := by
  unfold heuristicDistance
  cases hx : jsGet graph.nodes x with
  | none => exact le_top
  | some n1 =>
      cases hy : jsGet graph.nodes y with
      | none => exact le_top
      | some n2 =>
          dsimp only
          have h := haversineDistance_nonneg n1.lat n1.lon n2.lat n2.lon
          exact_mod_cast
            (by positivity : (0:ℝ) ≤ (haversineDistance n1.lat n1.lon n2.lat n2.lon / 50) * 3600)

theorem IsPathCost_nonneg {graph : GraphData} (hw : PosWeights graph) :
    ∀ {u v : ℤ} {P : List ℤ} {k : ℝ}, IsPathCost graph u v P k → 0 ≤ k := by
  intro u v P k h
  induction h with
  | single => exact le_refl 0
  | cons entry hmem hnode hp ih =>
      have := hw _ entry hmem
      linarith

theorem frontier_bound {graph : GraphData} {a b : ℤ} {st : AState}
    (hset : SetInv graph a st) (hchain : ChainInv graph a b st)
    (hopt : OptInv graph a st) (hcons : Consistent graph b) :
    ∀ {n : ℤ} {P : List ℤ} {k : ℝ}, IsPathCost graph a n P k →
      (n ∈ st.closedSet ∧ ∀ gv : ℝ, st.gScore n = some ((gv : ℝ) : JsNum) → gv ≤ k) ∨
      (∃ y ∈ st.openSet, ∃ gy : ℝ, st.gScore y = some ((gy : ℝ) : JsNum) ∧
        ((gy : ℝ) : JsNum) + heuristicDistance graph y b ≤
          ((k : ℝ) : JsNum) + heuristicDistance graph n b) := by
  intro n P k h
  induction h with
  | single =>
      by_cases hcl : st.closedSet = []
      · right
        have hopen : st.openSet = [a] := hset.start_first hcl
        refine ⟨a, by rw [hopen]; exact List.mem_singleton.mpr rfl, 0, ?_, le_refl _⟩
        rw [hchain.1.1]
        norm_num
      · left
        refine ⟨hset.start_closed hcl, ?_⟩
        intro gv hgv
        have h0 : ((gv : ℝ) : JsNum) = 0 := by
          have := hgv.symm.trans hchain.1.1
          exact Option.some_inj.mp this
        have : gv = 0 := by exact_mod_cast h0
        rw [this]
  | cons entry hmem hnode hp ih =>
      cases hnode
      rcases ih with ⟨hvcl, hvle⟩ | ⟨y, hy, gy, hgy, hle⟩
      · obtain ⟨hmem', hrel⟩ := hopt.2.2 _ hvcl entry hmem
        obtain ⟨gvv, Pv, hgv, _, _, _, _, _⟩ := hchain.2 _ (Or.inr hvcl)
        have hgvv_le : gvv ≤ _ := hvle gvv hgv
        rcases hmem' with hwopen | hwcl
        · obtain ⟨gw, Pw, hgw, _, _, _, _, _⟩ := hchain.2 _ (Or.inl hwopen)
          have hgw_le : gw ≤ gvv + entry.weight := hrel gvv gw hgv hgw
          right
          refine ⟨entry.node, hwopen, gw, hgw, ?_⟩
          exact add_le_add_right (by exact_mod_cast (by linarith : gw ≤ _ + entry.weight)) _
        · left
          refine ⟨hwcl, ?_⟩
          intro gv hgv'
          obtain ⟨gw, Pw, hgw, _, _, _, _, _⟩ := hchain.2 _ (Or.inr hwcl)
          have hgweq : gv = gw := by
            have := hgv'.symm.trans hgw
            exact_mod_cast Option.some_inj.mp this
          have hb2 : gw ≤ gvv + entry.weight := hrel gvv gw hgv hgw
          rw [hgweq]
          linarith
      · right
        refine ⟨y, hy, gy, hgy, ?_⟩
        have hcons' := hcons _ entry hmem
        have hstep := le_trans hle (add_le_add_left hcons' _)
        rwa [← add_assoc, ← WithTop.coe_add] at hstep

theorem pop_bound {graph : GraphData} {a b : ℤ} {st : AState} {c : ℤ} {m : JsNum}
    (hw : PosWeights graph) (hcons : Consistent graph b)
    (hH0 : heuristicDistance graph a b ≠ 0)
    (hset : SetInv graph a st) (hchain : ChainInv graph a b st) (hopt : OptInv graph a st)
    (hsc : scanMin st.fScore st.openSet (-1, ⊤) = (c, m)) (hc : c ≠ -1) (hm : m ≠ ⊤) :
    ∀ gc : ℝ, st.gScore c = some ((gc : ℝ) : JsNum) →
      ∀ P k, IsPathCost graph a c P k → gc ≤ k := by
  obtain ⟨hcopen, hmval, hmmin⟩ := scanMin_pop hsc hc
  have hread : ∀ z ∈ st.openSet, ∀ gz : ℝ, st.gScore z = some ((gz : ℝ) : JsNum) →
      jsOrInf (st.fScore z) = ((gz : ℝ) : JsNum) + heuristicDistance graph z b := by
    intro z hz gz hgz
    obtain ⟨gz', Pz, hgz', hfz, _, _, _, _⟩ := hchain.2 z (Or.inl hz)
    have hzz : gz = gz' := by
      have := hgz.symm.trans hgz'
      exact_mod_cast Option.some_inj.mp this
    rw [← hzz] at hfz
    rw [hfz]
    by_cases hza : z = a
    · subst hza
      have hgz0 : gz = 0 := by
        have := hgz.symm.trans hchain.1.1
        exact_mod_cast Option.some_inj.mp this
      rw [hgz0]
      simp only [WithTop.coe_zero, zero_add]
      rw [jsOrInf_some_ne hH0]
    · have hpos : 0 < gz := hopt.1 z hz hza gz hgz
      have hne : ((gz : ℝ) : JsNum) + heuristicDistance graph z b ≠ 0 := by
        have h1 : (0 : JsNum) < ((gz : ℝ) : JsNum) := by exact_mod_cast hpos
        have h2 : (0 : JsNum) ≤ heuristicDistance graph z b :=
          heuristicDistance_nonneg graph z b
        exact ne_of_gt (lt_of_lt_of_le h1 (le_add_of_nonneg_right h2))
      rw [jsOrInf_some_ne hne]
  intro gc hgc P k hpath
  rcases frontier_bound hset hchain hopt hcons hpath with ⟨hccl, _⟩ |
    ⟨y, hyopen, gy, hgy, hle⟩
  · exact absurd hccl (hset.disj c hcopen)
  · have hfc := hread c hcopen gc hgc
    have hfy := hread y hyopen gy hgy
    have hmin := hmmin y hyopen
    have hchainle : ((gc : ℝ) : JsNum) + heuristicDistance graph c b ≤
        ((k : ℝ) : JsNum) + heuristicDistance graph c b := by
      rw [← hfc, ← hmval]
      exact le_trans hmin (by rw [hfy]; exact hle)
    have hHc : heuristicDistance graph c b ≠ ⊤ := by
      intro htop
      apply hm
      rw [hmval, hfc, htop]
      exact add_top _
    have := (WithTop.add_le_add_iff_right hHc).mp hchainle
    exact_mod_cast this

theorem relax_preserves_opt {graph : GraphData} {a b c : ℤ}
    (hz : (0:ℤ) ∉ candidateIds graph a) (hw : PosWeights graph) :
    ∀ (l : List AdjEntry) (stM : AState),
      (∀ e ∈ l, e ∈ buildAdjacencyList graph c) →
      SetInv graph a stM →
      ChainInv graph a b stM →
      (∀ n ∈ stM.openSet, n ≠ a →
        ∀ gv : ℝ, stM.gScore n = some ((gv : ℝ) : JsNum) → 0 < gv) →
      (∀ n ∈ stM.closedSet, ∀ gv : ℝ, stM.gScore n = some ((gv : ℝ) : JsNum) →
        ∀ P k, IsPathCost graph a n P k → gv ≤ k) →
      (∀ q ∈ stM.closedSet, ∀ entry ∈ buildAdjacencyList graph q,
        (q = c → entry ∉ l) →
        (entry.node ∈ stM.openSet ∨ entry.node ∈ stM.closedSet) ∧
        ∀ gq gn : ℝ, stM.gScore q = some ((gq : ℝ) : JsNum) →
          stM.gScore entry.node = some ((gn : ℝ) : JsNum) → gn ≤ gq + entry.weight) →
      stM.closedSet ≠ [] →
      c ∈ stM.closedSet →
      OptInv graph a (relaxNeighbors graph b c l stM) := by
  intro l
  induction l with
  | nil =>
      intro stM _ hset hchain hpos hclopt hrel hne hc
      rw [relaxNeighbors_nil]
      exact ⟨hpos, hclopt, fun q hq entry he =>
        hrel q hq entry he (fun _ => List.not_mem_nil _)⟩
  | cons nb rest ih =>
      intro stM hmem hset hchain hpos hclopt hrel hne hc
      obtain ⟨nbnode, nbweight⟩ := nb
      have hstarta : a ∈ stM.closedSet := hset.start_closed hne
      obtain ⟨gcv, Pc, hgcv, _, hPc, hcostc, _, _⟩ := hchain.2 c (Or.inr hc)
      have hheadmem : (⟨nbnode, nbweight⟩ : AdjEntry) ∈ buildAdjacencyList graph c :=
        hmem _ (List.mem_cons_self _ _)
      have hwpos : 0 < nbweight := hw c ⟨nbnode, nbweight⟩ hheadmem
      have hgcv_nonneg : 0 ≤ gcv := IsPathCost_nonneg hw hcostc
      have hpathnb : IsPathCost graph a nbnode (Pc ++ [nbnode]) (gcv + nbweight) :=
        IsPathCost.cons ⟨nbnode, nbweight⟩ hheadmem rfl hcostc
      by_cases h1 : nbnode ∈ stM.closedSet
      · rw [relaxNeighbors_cons_closed h1]
        refine ih stM (fun e he => hmem e (List.mem_cons_of_mem _ he)) hset hchain
          hpos hclopt ?_ hne hc
        intro q hq entry he hcond
        by_cases hqc : q = c
        · subst hqc
          by_cases hee : entry = ⟨nbnode, nbweight⟩
          · subst hee
            refine ⟨Or.inr h1, ?_⟩
            intro gq gn hgq hgn
            have hgqeq : gq = gcv := by
              have := hgq.symm.trans hgcv
              exact_mod_cast Option.some_inj.mp this
            have hbound := hclopt nbnode h1 gn hgn _ _ hpathnb
            rw [hgqeq]
            exact hbound
          · refine hrel q hq entry he ?_
            intro _ hmem'
            rcases List.mem_cons.mp hmem' with h' | h'
            · exact hee h'
            · exact (hcond rfl) h'
        · refine hrel q hq entry he ?_
          intro h'
          exact absurd h' hqc
      · by_cases h2 : nbnode ∈ stM.openSet ∧
          jsOrInf (stM.gScore nbnode) ≤ jsOrZero (stM.gScore c) + (nbweight : JsNum)
        · rw [relaxNeighbors_cons_skip h1 h2.1 h2.2]
          refine ih stM (fun e he => hmem e (List.mem_cons_of_mem _ he)) hset hchain
            hpos hclopt ?_ hne hc
          intro q hq entry he hcond
          by_cases hqc : q = c
          · subst hqc
            by_cases hee : entry = ⟨nbnode, nbweight⟩
            · subst hee
              refine ⟨Or.inl h2.1, ?_⟩
              intro gq gn hgq hgn
              have hna : nbnode ≠ a := fun hh => h1 (hh ▸ hstarta)
              have hgnpos : 0 < gn := hpos nbnode h2.1 hna gn hgn
              have h22 := h2.2
              rw [hgn, hgq, jsOrInf_some_ne (by exact_mod_cast ne_of_gt hgnpos),
                jsOrZero_some, ← WithTop.coe_add] at h22
              exact_mod_cast h22
            · refine hrel q hq entry he ?_
              intro _ hmem'
              rcases List.mem_cons.mp hmem' with h' | h'
              · exact hee h'
              · exact (hcond rfl) h'
          · refine hrel q hq entry he ?_
            intro h'
            exact absurd h' hqc
        · rw [relaxNeighbors_cons_update h1 h2]
          have htent : jsOrZero (stM.gScore c) + (nbweight : JsNum) =
              ((gcv + nbweight : ℝ) : JsNum) := by
            rw [hgcv, jsOrZero_some, WithTop.coe_add]
          have hSC := relax_preserves hz [⟨nbnode, nbweight⟩] stM
            (by
              intro e he
              rcases List.mem_cons.mp he with rfl | h'
              · exact hheadmem
              · cases h') hset hchain hne hc
          rw [relaxNeighbors_cons_update h1 h2, relaxNeighbors_nil] at hSC
          push_neg at h2
          have hlift : ∀ q : ℤ, q ∈ stM.closedSet → ∀ entry : AdjEntry,
              entry ∈ buildAdjacencyList graph q →
              ((entry.node ∈ stM.openSet ∨ entry.node ∈ stM.closedSet) ∧
                ∀ gq gn : ℝ, stM.gScore q = some ((gq : ℝ) : JsNum) →
                  stM.gScore entry.node = some ((gn : ℝ) : JsNum) →
                  gn ≤ gq + entry.weight) →
              ((entry.node ∈ (if nbnode ∈ stM.openSet then stM.openSet
                  else stM.openSet ++ [nbnode]) ∨ entry.node ∈ stM.closedSet) ∧
                ∀ gq gn : ℝ,
                  mapSet stM.gScore nbnode
                    (jsOrZero (stM.gScore c) + (nbweight : JsNum)) q =
                      some ((gq : ℝ) : JsNum) →
                  mapSet stM.gScore nbnode
                    (jsOrZero (stM.gScore c) + (nbweight : JsNum)) entry.node =
                      some ((gn : ℝ) : JsNum) →
                  gn ≤ gq + entry.weight) := by
            intro q hq entry he' hold
            obtain ⟨hm', hr'⟩ := hold
            have hqnb : q ≠ nbnode := fun hh => h1 (hh ▸ hq)
            constructor
            · rcases hm' with ho | hcl2
              · left
                by_cases hob : nbnode ∈ stM.openSet
                · rw [if_pos hob]
                  exact ho
                · rw [if_neg hob]
                  exact List.mem_append_left _ ho
              · exact Or.inr hcl2
            · intro gq gn hgq hgn
              rw [mapSet_ne _ _ _ hqnb] at hgq
              by_cases hennb : entry.node = nbnode
              · rw [hennb, mapSet_eq, htent] at hgn
                have hgneq : gn = gcv + nbweight := by
                  have := hgn.symm
                  exact_mod_cast Option.some_inj.mp this
                rcases hm' with ho | hcl2
                · have ho' : nbnode ∈ stM.openSet := hennb ▸ ho
                  have hlt := h2 ho'
                  obtain ⟨gnb, Pnb, hgnb, _, _, _, _, _⟩ := hchain.2 nbnode (Or.inl ho')
                  have hna : nbnode ≠ a := fun hh => h1 (hh ▸ hstarta)
                  have hgnbpos : 0 < gnb := hpos nbnode ho' hna gnb hgnb
                  rw [htent, hgnb,
                    jsOrInf_some_ne (by exact_mod_cast ne_of_gt hgnbpos)] at hlt
                  have hlt' : gcv + nbweight < gnb := by exact_mod_cast hlt
                  have hold2 := hr' gq gnb hgq (by rw [hennb]; exact hgnb)
                  rw [hgneq]
                  linarith
                · exact absurd (hennb ▸ hcl2) h1
              · rw [mapSet_ne _ _ _ hennb] at hgn
                exact hr' gq gn hgq hgn
          refine ih _ (fun e he => hmem e (List.mem_cons_of_mem _ he)) hSC.1 hSC.2
            ?_ ?_ ?_ (by dsimp only; exact hne) (by dsimp only; exact hc)
          · -- positivity of open gScores in the updated state
            intro n hn hna gv hgv
            dsimp only at hn hgv
            by_cases hnnb : n = nbnode
            · subst hnnb
              rw [mapSet_eq, htent] at hgv
              have hgveq : gv = gcv + nbweight := by
                exact_mod_cast (Option.some_inj.mp hgv).symm
              rw [hgveq]
              linarith
            · rw [mapSet_ne _ _ _ hnnb] at hgv
              have hn' : n ∈ stM.openSet := by
                by_cases hob : nbnode ∈ stM.openSet
                · rwa [if_pos hob] at hn
                · rw [if_neg hob] at hn
                  rcases List.mem_append.mp hn with h' | h'
                  · exact h'
                  · exact absurd (List.mem_singleton.mp h') hnnb
              exact hpos n hn' hna gv hgv
          · -- closed-node optimality in the updated state
            intro n hn gv hgv P k hp
            dsimp only at hn hgv
            have hnnb : n ≠ nbnode := fun hh => h1 (hh ▸ hn)
            rw [mapSet_ne _ _ _ hnnb] at hgv
            exact hclopt n hn gv hgv P k hp
          · -- relaxed-closure in the updated state
            intro q hq entry he hcond
            dsimp only at hq ⊢
            by_cases hqc : q = c
            · by_cases hee : entry = ⟨nbnode, nbweight⟩
              · subst hee
                have hcnb : c ≠ nbnode := fun hh => h1 (hh ▸ hc)
                constructor
                · left
                  by_cases hob : nbnode ∈ stM.openSet
                  · rw [if_pos hob]
                    exact hob
                  · rw [if_neg hob]
                    exact List.mem_append_right _ (by simp)
                · intro gq gn hgq hgn
                  rw [hqc, mapSet_ne _ _ _ hcnb] at hgq
                  rw [mapSet_eq, htent] at hgn
                  have hgqeq : gq = gcv := by
                    have := hgq.symm.trans hgcv
                    exact_mod_cast Option.some_inj.mp this
                  have hgneq : gn = gcv + nbweight := by
                    exact_mod_cast (Option.some_inj.mp hgn).symm
                  rw [hgqeq, hgneq]
              · refine hlift q hq entry he (hrel q hq entry he ?_)
                intro hqq hmem'
                rcases List.mem_cons.mp hmem' with h' | h'
                · exact hee h'
                · exact (hcond hqq) h'
            · refine hlift q hq entry he (hrel q hq entry he ?_)
              intro h'
              exact absurd h' hqc

theorem popState_inv {graph : GraphData} {a b : ℤ} {st : AState} {c : ℤ}
    (hset : SetInv graph a st) (hchain : ChainInv graph a b st)
    (hcopen : c ∈ st.openSet) :
    setAdd st.closedSet c = st.closedSet ++ [c] ∧
    SetInv graph a { st with openSet := setDelete st.openSet c
                             closedSet := setAdd st.closedSet c } ∧
    ChainInv graph a b { st with openSet := setDelete st.openSet c
                                 closedSet := setAdd st.closedSet c } := by
  have hccl : c ∉ st.closedSet := hset.disj c hcopen
  have hadd : setAdd st.closedSet c = st.closedSet ++ [c] := setAdd_not_mem hccl
  refine ⟨hadd, ?_, ?_⟩
  · constructor
    · exact setDelete_nodup hset.open_nodup
    · dsimp only
      rw [hadd]
      exact List.Nodup.append hset.closed_nodup (by simp)
        (fun x hx1 hx2 => hccl ((List.mem_singleton.mp hx2) ▸ hx1))
    · intro n hn
      dsimp only at hn ⊢
      rw [hadd]
      rcases mem_setDelete.mp hn with ⟨hno, hnc⟩
      intro hmem
      rcases List.mem_append.mp hmem with h' | h'
      · exact hset.disj n hno h'
      · exact hnc (List.mem_singleton.mp h')
    · intro n hn
      exact hset.open_sub n (mem_setDelete.mp hn).1
    · intro n hn
      dsimp only at hn
      rw [hadd] at hn
      rcases List.mem_append.mp hn with h' | h'
      · exact hset.closed_sub n h'
      · rw [List.mem_singleton.mp h']
        exact hset.open_sub c hcopen
    · intro habs
      dsimp only at habs
      rw [hadd] at habs
      exact absurd habs (by simp)
    · intro _
      dsimp only
      rw [hadd]
      by_cases hcl : st.closedSet = []
      · have hopen : st.openSet = [a] := hset.start_first hcl
        have : c = a := List.mem_singleton.mp (hopen ▸ hcopen)
        rw [this]
        exact List.mem_append_right _ (by simp)
      · exact List.mem_append_left _ (hset.start_closed hcl)
  · refine ⟨hchain.1, ?_⟩
    intro n hn
    dsimp only at hn ⊢
    have hn' : n ∈ st.openSet ∨ n ∈ st.closedSet := by
      rcases hn with hn | hn
      · exact Or.inl (mem_setDelete.mp hn).1
      · rw [hadd] at hn
        rcases List.mem_append.mp hn with h' | h'
        · exact Or.inr h'
        · exact Or.inl ((List.mem_singleton.mp h') ▸ hcopen)
    obtain ⟨gv, P, hg, hf, hP, hcost, hsub, hlen0, hlen1⟩ := hchain.2 n hn'
    refine ⟨gv, P, hg, hf, hP, hcost, ?_, ?_, ?_⟩
    · intro x hx hxn
      rw [hadd]
      exact List.mem_append_left _ (hsub x hx hxn)
    · intro _
      rw [hadd]
      simp only [List.length_append, List.length_singleton]
      omega
    · rw [hadd]
      simp only [List.length_append, List.length_singleton]
      omega

theorem step_preserves_opt {graph : GraphData} {a b : ℤ} {recFuel : ℕ} {st st' : AState}
    (hz : (0:ℤ) ∉ candidateIds graph a) (hw : PosWeights graph)
    (hcons : Consistent graph b) (hH0 : heuristicDistance graph a b ≠ 0)
    (hset : SetInv graph a st) (hchain : ChainInv graph a b st) (hopt : OptInv graph a st)
    (h : aStarStep graph (buildAdjacencyList graph) b recFuel st = .next st') :
    SetInv graph a st' ∧ ChainInv graph a b st' ∧ OptInv graph a st' := by
  obtain ⟨hne, c, m, hsc, hc1, hm, hcb, hst'⟩ := aStarStep_next_inv h
  obtain ⟨hcopen, hmval, hmmin⟩ := scanMin_pop hsc hc1
  obtain ⟨hadd, hsetM, hchainM⟩ := popState_inv hset hchain hcopen
  have hpopt := pop_bound hw hcons hH0 hset hchain hopt hsc hc1 hm
  have hposM : ∀ n ∈ (setDelete st.openSet c), n ≠ a →
      ∀ gv : ℝ, st.gScore n = some ((gv : ℝ) : JsNum) → 0 < gv := by
    intro n hn hna gv hgv
    exact hopt.1 n (mem_setDelete.mp hn).1 hna gv hgv
  have hcloptM : ∀ n ∈ (setAdd st.closedSet c),
      ∀ gv : ℝ, st.gScore n = some ((gv : ℝ) : JsNum) →
      ∀ P k, IsPathCost graph a n P k → gv ≤ k := by
    intro n hn gv hgv P k hp
    rw [hadd] at hn
    rcases List.mem_append.mp hn with h' | h'
    · exact hopt.2.1 n h' gv hgv P k hp
    · rw [List.mem_singleton.mp h'] at hgv hp
      exact hpopt gv hgv P k hp
  have hrelM : ∀ q ∈ (setAdd st.closedSet c), ∀ entry ∈ buildAdjacencyList graph q,
      (q = c → entry ∉ buildAdjacencyList graph c) →
      (entry.node ∈ (setDelete st.openSet c) ∨ entry.node ∈ (setAdd st.closedSet c)) ∧
      ∀ gq gn : ℝ, st.gScore q = some ((gq : ℝ) : JsNum) →
        st.gScore entry.node = some ((gn : ℝ) : JsNum) → gn ≤ gq + entry.weight := by
    intro q hq entry he hcond
    rw [hadd] at hq
    rcases List.mem_append.mp hq with hq' | hq'
    · obtain ⟨hm', hr'⟩ := hopt.2.2 q hq' entry he
      refine ⟨?_, hr'⟩
      rcases hm' with ho | hcl
      · by_cases hec : entry.node = c
        · right
          rw [hadd]
          exact List.mem_append_right _ (by rw [hec]; simp)
        · exact Or.inl (mem_setDelete.mpr ⟨ho, hec⟩)
      · right
        rw [hadd]
        exact List.mem_append_left _ hcl
    · have hqc := List.mem_singleton.mp hq'
      rw [hqc] at he
      exact absurd he (hcond hqc)
  have hnecl : setAdd st.closedSet c ≠ [] := by
    rw [hadd]
    simp
  have hcin : c ∈ setAdd st.closedSet c := by
    rw [hadd]
    exact List.mem_append_right _ (by simp)
  have hSC := relax_preserves hz (buildAdjacencyList graph c)
    { st with openSet := setDelete st.openSet c
              closedSet := setAdd st.closedSet c }
    (fun e he => he) hsetM hchainM hnecl hcin
  have hOpt := relax_preserves_opt hz hw (buildAdjacencyList graph c)
    { st with openSet := setDelete st.openSet c
              closedSet := setAdd st.closedSet c }
    (fun e he => he) hsetM hchainM hposM hcloptM hrelM hnecl hcin
  rw [hst']
  exact ⟨hSC.1, hSC.2, hOpt⟩

theorem initState_OptInv (graph : GraphData) (a b : ℤ) :
    OptInv graph a (initState graph a b) := by
  refine ⟨?_, ?_, ?_⟩
  · intro n hn hna gv _
    rw [initState_openSet] at hn
    exact absurd (List.mem_singleton.mp hn) hna
  · intro n hn
    rw [initState_closedSet] at hn
    cases hn
  · intro q hq
    rw [initState_closedSet] at hq
    cases hq

theorem aStarLoop_optimal {graph : GraphData} {a b : ℤ} {recFuel : ℕ}
    (hz : (0:ℤ) ∉ candidateIds graph a) (hw : PosWeights graph)
    (hcons : Consistent graph b) (hH0 : heuristicDistance graph a b ≠ 0)
    (hrec : graph.edges.length + 2 ≤ recFuel + 1) :
    ∀ (fuel : ℕ) (st : AState) (p : List ℤ),
      SetInv graph a st → ChainInv graph a b st → OptInv graph a st →
      aStarLoop graph (buildAdjacencyList graph) b recFuel fuel st = some p →
      ∃ gv, IsPathCost graph a b p gv ∧
        ∀ P k, IsPathCost graph a b P k → gv ≤ k := by
  intro fuel
  induction fuel with
  | zero =>
      intro st p _ _ _ h
      simp [aStarLoop] at h
  | succ fuel ih =>
      intro st p hset hchain hopt h
      cases hrw : aStarStep graph (buildAdjacencyList graph) b recFuel st with
      | found path =>
          rw [aStarLoop_found hrw] at h
          obtain ⟨hne, c, m, hsc, hc1, hm, hcb, hpath⟩ := aStarStep_found_inv hrw
          subst hcb
          obtain ⟨hcopen, _, _⟩ := scanMin_pop hsc hc1
          obtain ⟨gv, P, hg, hf, hP, hcost, hsub, hlen0, hlen1⟩ := hchain.2 c (Or.inl hcopen)
          have hlen : P.length ≤ recFuel + 1 := by
            have h1 := closed_length_le hset
            omega
          have hrec' : reconstructPath st.previous recFuel c = P :=
            reconstructPath_eq_chain hP recFuel hlen
          have hpP : p = P := by
            rw [← Option.some_inj.mp h, hpath, hrec']
          have hmin := pop_bound hw hcons hH0 hset hchain hopt hsc hc1 hm gv hg
          rw [hpP]
          exact ⟨gv, hcost, hmin⟩
      | noPath =>
          rw [aStarLoop_noPath hrw] at h
          cases h
      | next st2 =>
          rw [aStarLoop_next hrw] at h
          obtain ⟨hset', hchain', hopt'⟩ := step_preserves_opt hz hw hcons hH0
            hset hchain hopt hrw
          exact ih st2 p hset' hchain' hopt' h

/-- C1 (amended): with strictly positive edge weights, a heuristic that is
consistent for the snapped goal, no candidate node id `0`, and a start fScore
that is neither `0` nor `Infinity`, a successful `calculateRoute` returns the
coordinates of an id path from the snapped start to the snapped end whose total
weight is minimal over all such paths. -/
theorem route_optimal_amended {graph : GraphData} {s e : Coordinate}
    {route : List Coordinate}
    (hw : PosWeights graph)
    (hcons : Consistent graph (findNearestNode graph e))
    (hz : (0:ℤ) ∉ candidateIds graph (findNearestNode graph s))
    (hH0 : heuristicDistance graph (findNearestNode graph s) (findNearestNode graph e) ≠ 0)
    (hok : calculateRoute graph s e = .ok route) :
    ∃ p gv, route = pathToCoords graph p ∧
      IsPathCost graph (findNearestNode graph s) (findNearestNode graph e) p gv ∧
      ∀ P k, IsPathCost graph (findNearestNode graph s) (findNearestNode graph e) P k →
        gv ≤ k := by
  simp only [calculateRoute, calculateRouteFuel] at hok
  by_cases hguard : findNearestNode graph s = -1 ∨ findNearestNode graph e = -1
  · rw [if_pos hguard] at hok
    cases hok
  · rw [if_neg hguard] at hok
    push_neg at hguard
    by_cases hsame : findNearestNode graph s = findNearestNode graph e
    · exfalso
      rw [if_pos hsame] at hok
      cases hget : jsGet graph.nodes (findNearestNode graph s) with
      | none =>
          rw [hget] at hok
          cases hok
      | some node =>
          apply hH0
          rw [← hsame]
          unfold heuristicDistance
          rw [hget]
          simp [haversineDistance_self]
    · rw [if_neg hsame] at hok
      obtain ⟨knA, hknA, hidA⟩ := findNearestNode_mem rfl hguard.1
      have hamem : findNearestNode graph s ∈ nodeIdList graph :=
        List.mem_map.mpr ⟨knA, hknA, hidA⟩
      cases hloop : aStarLoop graph (buildAdjacencyList graph)
          (findNearestNode graph e) (searchFuel graph + 1) (searchFuel graph)
          (initState graph (findNearestNode graph s) (findNearestNode graph e)) with
      | none =>
          rw [hloop] at hok
          cases hok
      | some p =>
          rw [hloop] at hok
          have hroute : route = pathToCoords graph p := by
            cases hok
            rfl
          obtain ⟨gv, hcost, hmin⟩ := aStarLoop_optimal hz hw hcons hH0
            (by rw [searchFuel_succ]; omega) (searchFuel graph) _ p
            (initState_SetInv graph _ _) (initState_ChainInv graph _ _ hamem)
            (initState_OptInv graph _ _) hloop
          exact ⟨p, gv, hroute, hcost, hmin⟩

theorem consGraph_adj_char {q : ℤ} {entry : AdjEntry}
    (h : entry ∈ buildAdjacencyList consGraph q) :
    q = 1 ∧ entry = ⟨2, 10000⟩ := by
  by_cases h1 : q = 1
  · subst h1
    rw [consGraph_adj1] at h
    exact ⟨rfl, List.mem_singleton.mp h⟩
  · exfalso
    rw [buildAdjacencyList_apply] at h
    have hfil : consGraph.edges.filter (fun e => e.from_ = q) = [] := by
      rw [List.filter_eq_nil_iff]
      intro e he
      simp only [consGraph, List.mem_cons, List.not_mem_nil, or_false] at he
      rcases he with rfl
      simp
      intro hq
      exact h1 hq.symm
    rw [hfil] at h
    cases h

theorem consGraph_posWeights : PosWeights consGraph := by
  intro q entry h
  rcases consGraph_adj_char h with ⟨_, rfl⟩
  norm_num

theorem consGraph_consistent : Consistent consGraph 2 := by
  intro u entry h
  rcases consGraph_adj_char h with ⟨rfl, rfl⟩
  rw [consGraph_H12, consGraph_H22, add_zero]
  have hpi := Real.pi_lt_315
  have hpi0 := Real.pi_pos
  exact_mod_cast (by nlinarith : ((6371 * ((1 - 0) * (Real.pi / 180)) / 50) * 3600 : ℝ) ≤ 10000)

/-- C1 witness: on the consistent two-node graph the amended theorem applies at
the concrete run, certifying that the returned route 1 → 2 has minimal weight. -/
theorem route_optimal_amended_witness :
    PosWeights consGraph ∧
    Consistent consGraph (findNearestNode consGraph ⟨0, 1⟩) ∧
    (0:ℤ) ∉ candidateIds consGraph (findNearestNode consGraph ⟨0, 0⟩) ∧
    heuristicDistance consGraph (findNearestNode consGraph ⟨0, 0⟩)
      (findNearestNode consGraph ⟨0, 1⟩) ≠ 0 ∧
    calculateRoute consGraph ⟨0, 0⟩ ⟨0, 1⟩ = .ok [⟨0, 0⟩, ⟨0, 1⟩] ∧
    ∃ p gv, ([(⟨0, 0⟩ : Coordinate), ⟨0, 1⟩]) = pathToCoords consGraph p ∧
      IsPathCost consGraph (findNearestNode consGraph ⟨0, 0⟩)
        (findNearestNode consGraph ⟨0, 1⟩) p gv ∧
      ∀ P k, IsPathCost consGraph (findNearestNode consGraph ⟨0, 0⟩)
        (findNearestNode consGraph ⟨0, 1⟩) P k → gv ≤ k := by
  have hcons : Consistent consGraph (findNearestNode consGraph ⟨0, 1⟩) := by
    rw [consGraph_snap_end]
    exact consGraph_consistent
  have hz : (0:ℤ) ∉ candidateIds consGraph (findNearestNode consGraph ⟨0, 0⟩) := by
    rw [consGraph_snap_start]
    decide
  have hH0 : heuristicDistance consGraph (findNearestNode consGraph ⟨0, 0⟩)
      (findNearestNode consGraph ⟨0, 1⟩) ≠ 0 := by
    rw [consGraph_snap_start, consGraph_snap_end, consGraph_H12]
    have hpi := Real.pi_pos
    exact_mod_cast (by nlinarith : ((6371 * ((1 - 0) * (Real.pi / 180)) / 50) * 3600 : ℝ) ≠ 0)
  exact ⟨consGraph_posWeights, hcons, hz, hH0, consGraph_route,
    route_optimal_amended consGraph_posWeights hcons hz hH0 consGraph_route⟩

/-- C4 counterexample: on a well-formed graph whose only (and hence nearest)
node carries the real id `-1`, both coordinates snap to the same node id, yet
`calculateRoute` throws the nearest-node-not-found error instead of returning
the one-element route — the snapped id collides with the scan's sentinel. -/
theorem sameNode_counterexample :
    GraphWF sentinelGraph ∧
    (∃ kn ∈ sentinelGraph.nodes, kn.1 = -1 ∧ kn.2.id = -1) ∧
    findNearestNode sentinelGraph ⟨0, 0⟩ = -1 ∧
    calculateRoute sentinelGraph ⟨0, 0⟩ ⟨0, 0⟩ = .error .nearestNodeNotFound := by
  have hwf : GraphWF sentinelGraph := by
    constructor
    · intro kn hkn
      simp only [sentinelGraph, List.mem_singleton] at hkn
      rw [hkn]
    · simp [sentinelGraph]
  have hsnap : findNearestNode sentinelGraph ⟨0, 0⟩ = -1 := by
    show findNearestScan ⟨0, 0⟩ sentinelGraph.nodes ⊤ (-1) = -1
    rw [show sentinelGraph.nodes = [(-1, ⟨-1, 0, 0⟩)] from rfl]
    rw [findNearestScan_cons_of_lt (haversineDistance_self 0 0) (WithTop.coe_lt_top 0)]
    rfl
  refine ⟨hwf, ⟨(-1, ⟨-1, 0, 0⟩), by simp [sentinelGraph], rfl, rfl⟩, hsnap, ?_⟩
  simp [calculateRoute, calculateRouteFuel, hsnap]
